import Mathlib

/-!
Verification of the block_compression crate: a shallow embedding of its
BC1-BC7 encode/decode kernels, bit-stream reader, public compression API and
GPU task batching engine, together with theorems about the properties its
documentation states.

Machine integers are modelled as `Nat`/`Int` with explicit wrapping where the
source relies on it; fallible operations (slice indexing, asserts,
`unimplemented!`) are modelled in an `Except`/`Option` monad so that panic
freedom and panic behaviour are provable statements.
-/

set_option maxHeartbeats 1000000

namespace BlockCompression

/-- Interprets a list of bytes as a little-endian natural number
(`u64::from_le_bytes` when the list has 8 elements). -/
def fromLeBytes (bytes : List Nat) : Nat :=
  bytes.foldr (fun b acc => b + 256 * acc) 0

/-- Checked read `buf[i]` of a Rust slice: `none` models the
index-out-of-bounds panic. -/
def getByte? (buf : List Nat) (i : Nat) : Option Nat :=
  buf[i]?

/-- Checked write `buf[i] = v` of a Rust slice: `none` models the
index-out-of-bounds panic. -/
def setByte? (buf : List Nat) (i : Nat) (v : Nat) : Option (List Nat) :=
  if i < buf.length then some (buf.set i v) else none

theorem setByte?_length {buf : List Nat} {i v : Nat} {out : List Nat}
    (h : setByte? buf i v = some out) : out.length = buf.length := by
  unfold setByte? at h
  split at h
  · cases h; simp
  · cases h

theorem setByte?_isSome {buf : List Nat} {i v : Nat} (h : i < buf.length) :
    setByte? buf i v = some (buf.set i v) := by
  unfold setByte?
  simp [h]

theorem setByte?_get?_ne {buf : List Nat} {i v : Nat} {out : List Nat}
    (h : setByte? buf i v = some out) {k : Nat} (hk : k ≠ i) :
    out[k]? = buf[k]? := by
  unfold setByte? at h
  split at h
  · cases h; exact List.getElem?_set_ne (Ne.symm hk)
  · cases h

/-! ## The BitStream reader (src/decode/block.rs) -/

/-- Little-endian bit reader over a 128-bit block held as two 64-bit halves,
port of the `BitStream` struct. -/
structure BitStream where
  low : Nat
  high : Nat
  deriving Repr, DecidableEq

namespace BitStream

/-- Port of `BitStream::new`: loads two little-endian `u64` values from the
first 16 bytes; `none` models the panic of `try_into().unwrap()` when the
slice is shorter than 16 bytes. -/
def new (data : List Nat) : Option BitStream :=
  if 16 ≤ data.length then
    some { low := fromLeBytes (data.take 8)
           high := fromLeBytes ((data.drop 8).take 8) }
  else none

/-- Port of `BitStream::read_bits` (state-passing style): returns the low
`numBits` bits and the advanced stream. -/
def read_bits (bs : BitStream) (numBits : Nat) : Nat × BitStream :=
  let mask := 2 ^ numBits - 1
  let bits := bs.low &&& mask
  let low := (bs.low >>> numBits) ||| ((bs.high &&& mask) <<< (64 - numBits))
  let high := bs.high >>> numBits
  (bits, { low := low, high := high })

/-- Port of `BitStream::read_bit`. -/
def read_bit (bs : BitStream) : Nat × BitStream :=
  bs.read_bits 1

/-- Port of `BitStream::read_bits_i32` (the reads stay nonnegative, the cast
to `i32` is value preserving for the widths the decoders use). -/
def read_bits_i32 (bs : BitStream) (numBits : Nat) : Int × BitStream :=
  let r := bs.read_bits numBits
  ((r.1 : Int), r.2)

/-- Port of `BitStream::read_bit_i32`. -/
def read_bit_i32 (bs : BitStream) : Int × BitStream :=
  bs.read_bits_i32 1

/-- Port of `BitStream::read_bits_reversed`: reads `numBits` bits and
reverses their order (their value is nonnegative, the `i32` cast of the
source is value preserving). -/
def read_bits_reversed (bs : BitStream) (numBits : Nat) : Nat × BitStream :=
  let r := bs.read_bits numBits
  let rec rev : Nat → Nat → Nat → Nat
    | 0, _, result => result
    | k + 1, bits, result => rev k (bits / 2) (result * 2 + bits % 2)
  (rev numBits r.1 0, r.2)

/-- The 128-bit value a stream state denotes. -/
def toVal (bs : BitStream) : Nat := bs.low + 2 ^ 64 * bs.high

theorem read_bits_lt (bs : BitStream) (n : Nat) :
    (bs.read_bits n).1 < 2 ^ n := by
  show bs.low &&& (2 ^ n - 1) < 2 ^ n
  have h := Nat.and_le_right (n := bs.low) (m := 2 ^ n - 1)
  have hpos : 0 < 2 ^ n := Nat.pos_pow_of_pos n (by norm_num)
  omega

theorem read_bits_val (low high n : Nat) (hl : low < 2 ^ 64) (hn : n ≤ 64) :
    ((BitStream.mk low high).read_bits n).2.toVal =
      (BitStream.mk low high).toVal / 2 ^ n := by
  show ((low >>> n) ||| ((high &&& (2 ^ n - 1)) <<< (64 - n))) + 2 ^ 64 * (high >>> n) =
    (low + 2 ^ 64 * high) / 2 ^ n
  have hpow : (2 : Nat) ^ n * 2 ^ (64 - n) = 2 ^ 64 := by
    rw [← pow_add]; congr 1; omega
  have hb : low >>> n < 2 ^ (64 - n) := by
    rw [Nat.shiftRight_eq_div_pow]
    apply Nat.div_lt_of_lt_mul
    calc low < 2 ^ 64 := hl
    _ = 2 ^ n * 2 ^ (64 - n) := hpow.symm
  rw [Nat.and_pow_two_sub_one_eq_mod, Nat.shiftLeft_eq, Nat.or_comm, mul_comm,
    ← Nat.mul_add_lt_is_or hb]
  rw [Nat.shiftRight_eq_div_pow, Nat.shiftRight_eq_div_pow]
  have hsplit : high = 2 ^ n * (high / 2 ^ n) + high % 2 ^ n :=
    (Nat.div_add_mod high (2 ^ n)).symm
  have hrhs : (low + 2 ^ 64 * high) / 2 ^ n = low / 2 ^ n + 2 ^ (64 - n) * high := by
    rw [← hpow, mul_assoc, Nat.add_mul_div_left _ _ (Nat.pos_pow_of_pos n (by norm_num))]
  rw [hrhs]
  calc 2 ^ (64 - n) * (high % 2 ^ n) + low / 2 ^ n + 2 ^ 64 * (high / 2 ^ n)
      = low / 2 ^ n + 2 ^ (64 - n) * (2 ^ n * (high / 2 ^ n) + high % 2 ^ n) := by
        rw [← hpow]; ring
    _ = low / 2 ^ n + 2 ^ (64 - n) * high := by rw [← hsplit]

end BitStream

/-- C8: for a `BitStream` state with both halves in `u64` range and
`1 ≤ n ≤ 32`, `read_bits n` returns the low `n` bits of `low`, the new state
is `low' = (low >> n) | ((high mod 2^n) << (64-n))`, `high' = high >> n`, the
128-bit stream value advances by exactly `n` bits (division by `2^n`, so the
returned bits are the low `n` bits of the stream), the halves stay in `u64`
range, and a fully drained stream (value 0, as after 128 bits have been read)
returns zero bits and stays drained. -/
theorem c8_read_bits_spec (low high n : Nat)
    (hl : low < 2 ^ 64) (hh : high < 2 ^ 64) (h1 : 1 ≤ n) (h2 : n ≤ 32) :
    (BitStream.mk low high).read_bits n =
      (low % 2 ^ n,
        BitStream.mk ((low >>> n) ||| ((high % 2 ^ n) <<< (64 - n))) (high >>> n)) ∧
    ((BitStream.mk low high).read_bits n).1 = (BitStream.mk low high).toVal % 2 ^ n ∧
    ((BitStream.mk low high).read_bits n).2.toVal =
      (BitStream.mk low high).toVal / 2 ^ n ∧
    ((BitStream.mk low high).read_bits n).2.low < 2 ^ 64 ∧
    ((BitStream.mk low high).read_bits n).2.high < 2 ^ 64 ∧
    ((BitStream.mk 0 0).read_bits n = (0, BitStream.mk 0 0)) := by
  have hpos : 0 < (2 : Nat) ^ n := Nat.pos_pow_of_pos n (by norm_num)
  have hpow : (2 : Nat) ^ n * 2 ^ (64 - n) = 2 ^ 64 := by
    rw [← pow_add]; congr 1; omega
  refine ⟨?_, ?_, ?_, ?_, ?_, ?_⟩
  · show (low &&& (2 ^ n - 1),
        BitStream.mk ((low >>> n) ||| ((high &&& (2 ^ n - 1)) <<< (64 - n))) (high >>> n)) = _
    rw [Nat.and_pow_two_sub_one_eq_mod, Nat.and_pow_two_sub_one_eq_mod]
  · show low &&& (2 ^ n - 1) = (low + 2 ^ 64 * high) % 2 ^ n
    rw [Nat.and_pow_two_sub_one_eq_mod]
    obtain ⟨k, hk⟩ : (2 : Nat) ^ n ∣ 2 ^ 64 := pow_dvd_pow 2 (by omega)
    rw [hk, mul_assoc, mul_comm (2 ^ n) (k * high), Nat.add_mul_mod_self_right]
  · exact BitStream.read_bits_val low high n hl (by omega)
  · show (low >>> n) ||| ((high &&& (2 ^ n - 1)) <<< (64 - n)) < 2 ^ 64
    apply Nat.or_lt_two_pow
    · have := Nat.shiftRight_eq_div_pow low n
      have : low >>> n ≤ low := by
        rw [Nat.shiftRight_eq_div_pow]; exact Nat.div_le_self _ _
      omega
    · rw [Nat.and_pow_two_sub_one_eq_mod, Nat.shiftLeft_eq, ← hpow]
      have hm : high % 2 ^ n < 2 ^ n := Nat.mod_lt _ hpos
      exact mul_lt_mul_of_pos_right hm (Nat.pos_pow_of_pos _ (by norm_num))
  · show high >>> n < 2 ^ 64
    rw [Nat.shiftRight_eq_div_pow]
    exact lt_of_le_of_lt (Nat.div_le_self _ _) hh
  · show ((0 : Nat) &&& (2 ^ n - 1),
        BitStream.mk (((0 : Nat) >>> n) ||| (((0 : Nat) &&& (2 ^ n - 1)) <<< (64 - n)))
          ((0 : Nat) >>> n)) = (0, BitStream.mk 0 0)
    simp

/-- Witness for C8 at a concrete stream state and width. -/
theorem c8_read_bits_spec_witness :
    (BitStream.mk 0xFEDCBA9876543210 0x0123456789ABCDEF).read_bits 7 =
      (0xFEDCBA9876543210 % 2 ^ 7,
        BitStream.mk ((0xFEDCBA9876543210 >>> 7) |||
          ((0x0123456789ABCDEF % 2 ^ 7) <<< (64 - 7))) (0x0123456789ABCDEF >>> 7)) ∧
    ((BitStream.mk 0xFEDCBA9876543210 0x0123456789ABCDEF).read_bits 7).1 =
      (BitStream.mk 0xFEDCBA9876543210 0x0123456789ABCDEF).toVal % 2 ^ 7 ∧
    ((BitStream.mk 0xFEDCBA9876543210 0x0123456789ABCDEF).read_bits 7).2.toVal =
      (BitStream.mk 0xFEDCBA9876543210 0x0123456789ABCDEF).toVal / 2 ^ 7 ∧
    ((BitStream.mk 0xFEDCBA9876543210 0x0123456789ABCDEF).read_bits 7).2.low < 2 ^ 64 ∧
    ((BitStream.mk 0xFEDCBA9876543210 0x0123456789ABCDEF).read_bits 7).2.high < 2 ^ 64 ∧
    ((BitStream.mk 0 0).read_bits 7 = (0, BitStream.mk 0 0)) := by
  have h := c8_read_bits_spec 0xFEDCBA9876543210 0x0123456789ABCDEF 7
    (by norm_num) (by norm_num) (by norm_num) (by norm_num)
  exact h

/-! ## BC1-BC5 block decoders (src/decode/block.rs) -/

/-- The row-major traversal order of the nested `for i in 0..4 { for j in 0..4 }`
pixel loops. -/
def pixelPairs : List (Nat × Nat) :=
  [(0, 0), (0, 1), (0, 2), (0, 3),
   (1, 0), (1, 1), (1, 2), (1, 3),
   (2, 0), (2, 1), (2, 2), (2, 3),
   (3, 0), (3, 1), (3, 2), (3, 3)]

/-- Checked `copy_from_slice` of `value.to_le_bytes()` for a `u32` into four
consecutive bytes of the output slice. -/
def writeU32LE (buf : List Nat) (off : Nat) (v : Nat) : Option (List Nat) := do
  let b0 ← setByte? buf off (v % 256)
  let b1 ← setByte? b0 (off + 1) (v / 256 % 256)
  let b2 ← setByte? b1 (off + 2) (v / 65536 % 256)
  setByte? b2 (off + 3) (v / 16777216 % 256)

/-- The pixel loop of `decode_color_block`: for each position, the low two
bits of the shifting selector word pick one of the four reference colors,
which is stored as four little-endian bytes. -/
def colorPixelLoop (refColors : List Nat) (pitch : Nat) :
    List (Nat × Nat) → Nat → List Nat → Option (List Nat)
  | [], _, buf => some buf
  | (i, j) :: rest, colorIndices, buf => do
      let idx := colorIndices &&& 0x03
      let offset := j * 4
      let color ← refColors[idx]?
      let buf ← writeU32LE buf (i * pitch + offset) color
      colorPixelLoop refColors pitch rest (colorIndices >>> 2) buf

/-- Port of `decode_color_block::<OPAQUE_MODE>`: decodes a BC1/DXT1 color
block of 8 bytes into a 4x4 RGBA8 tile. -/
def decode_color_block (opaqueMode : Bool) (compressed : List Nat)
    (decompressed : List Nat) (pitch : Nat) : Option (List Nat) := do
  let cb0 ← getByte? compressed 0
  let cb1 ← getByte? compressed 1
  let cb2 ← getByte? compressed 2
  let cb3 ← getByte? compressed 3
  let c0 := cb0 + 256 * cb1
  let c1 := cb2 + 256 * cb3
  let r0 := (c0 >>> 11) &&& 0x1F
  let g0 := (c0 >>> 5) &&& 0x3F
  let b0 := c0 &&& 0x1F
  let r1 := (c1 >>> 11) &&& 0x1F
  let g1 := (c1 >>> 5) &&& 0x3F
  let b1 := c1 &&& 0x1F
  let ref0 := 0xFF000000 ||| (((b0 * 527 + 23) >>> 6) <<< 16) |||
    (((g0 * 259 + 33) >>> 6) <<< 8) ||| ((r0 * 527 + 23) >>> 6)
  let ref1 := 0xFF000000 ||| (((b1 * 527 + 23) >>> 6) <<< 16) |||
    (((g1 * 259 + 33) >>> 6) <<< 8) ||| ((r1 * 527 + 23) >>> 6)
  let refColors :=
    if c0 > c1 || opaqueMode then
      let ref2 := 0xFF000000 ||| ((((2 * b0 + b1) * 351 + 61) >>> 7) <<< 16) |||
        ((((2 * g0 + g1) * 2763 + 1039) >>> 11) <<< 8) ||| (((2 * r0 + r1) * 351 + 61) >>> 7)
      let ref3 := 0xFF000000 ||| ((((b0 + b1 * 2) * 351 + 61) >>> 7) <<< 16) |||
        ((((g0 + g1 * 2) * 2763 + 1039) >>> 11) <<< 8) ||| (((r0 + r1 * 2) * 351 + 61) >>> 7)
      [ref0, ref1, ref2, ref3]
    else
      let ref2 := 0xFF000000 ||| ((((b0 + b1) * 1053 + 125) >>> 8) <<< 16) |||
        ((((g0 + g1) * 4145 + 1019) >>> 11) <<< 8) ||| (((r0 + r1) * 1053 + 125) >>> 8)
      [ref0, ref1, ref2, 0x00000000]
  let cb4 ← getByte? compressed 4
  let cb5 ← getByte? compressed 5
  let cb6 ← getByte? compressed 6
  let cb7 ← getByte? compressed 7
  let colorIndices := cb4 + 256 * cb5 + 65536 * cb6 + 16777216 * cb7
  colorPixelLoop refColors pitch pixelPairs colorIndices decompressed

/-- The pixel loop of `decode_sharp_alpha_block`: each 4-bit alpha value is
scaled by 17 and stored into the alpha byte of the pixel. -/
def sharpAlphaPixelLoop (compressed : List Nat) (pitch : Nat) :
    List (Nat × Nat) → List Nat → Option (List Nat)
  | [], buf => some buf
  | (i, j) :: rest, buf => do
      let byteIndex := i * 2 + j / 2
      let shift := j % 2 * 4
      let b ← getByte? compressed byteIndex
      let alphaValue := (b >>> shift) &&& 0x0F
      let buf ← setByte? buf (i * pitch + j * 4 + 3) (alphaValue * 17)
      sharpAlphaPixelLoop compressed pitch rest buf

/-- Port of `decode_sharp_alpha_block`: the BC2/DXT3 alpha block. -/
def decode_sharp_alpha_block (compressed : List Nat) (decompressed : List Nat)
    (pitch : Nat) : Option (List Nat) :=
  sharpAlphaPixelLoop compressed pitch pixelPairs decompressed

/-- The pixel loop of `decode_smooth_alpha_block`: the shifting 48-bit index
word picks one of the eight alpha palette entries per pixel. -/
def smoothAlphaPixelLoop (alpha : List Nat) (pixelSize pitch : Nat) :
    List (Nat × Nat) → Nat → List Nat → Option (List Nat)
  | [], _, buf => some buf
  | (i, j) :: rest, indices, buf => do
      let a ← alpha[indices &&& 0x07]?
      let buf ← setByte? buf (i * pitch + j * pixelSize) a
      smoothAlphaPixelLoop alpha pixelSize pitch rest (indices >>> 3) buf

/-- Port of `decode_smooth_alpha_block::<PIXEL_SIZE>`: the BC3/BC4/BC5 smooth
alpha block of 8 bytes. -/
def decode_smooth_alpha_block (pixelSize : Nat) (compressed : List Nat)
    (decompressed : List Nat) (pitch : Nat) : Option (List Nat) := do
  let cb0 ← getByte? compressed 0
  let cb1 ← getByte? compressed 1
  let cb2 ← getByte? compressed 2
  let cb3 ← getByte? compressed 3
  let cb4 ← getByte? compressed 4
  let cb5 ← getByte? compressed 5
  let cb6 ← getByte? compressed 6
  let cb7 ← getByte? compressed 7
  let block := cb0 + 256 * cb1 + 65536 * cb2 + 16777216 * cb3 +
    4294967296 * cb4 + 1099511627776 * cb5 + 281474976710656 * cb6 +
    72057594037927936 * cb7
  let a0 := block &&& 0xFF
  let a1 := (block >>> 8) &&& 0xFF
  let alpha :=
    if a0 > a1 then
      [a0, a1,
       (6 * a0 + a1) / 7, (5 * a0 + 2 * a1) / 7, (4 * a0 + 3 * a1) / 7,
       (3 * a0 + 4 * a1) / 7, (2 * a0 + 5 * a1) / 7, (a0 + 6 * a1) / 7]
    else
      [a0, a1,
       (4 * a0 + a1) / 5, (3 * a0 + 2 * a1) / 5, (2 * a0 + 3 * a1) / 5,
       (a0 + 4 * a1) / 5, 0x00, 0xFF]
  let indices := block >>> 16
  smoothAlphaPixelLoop alpha pixelSize pitch pixelPairs indices decompressed

/-- Port of `decode_block_bc1`. -/
def decode_block_bc1 (compressed : List Nat) (decompressed : List Nat)
    (pitch : Nat) : Option (List Nat) :=
  decode_color_block false compressed decompressed pitch

/-- Port of `decode_block_bc2`: the color block reads the slice starting at
byte 8 (the slicing panics when fewer than 8 bytes are present). -/
def decode_block_bc2 (compressed : List Nat) (decompressed : List Nat)
    (pitch : Nat) : Option (List Nat) := do
  if 8 ≤ compressed.length then
    let buf ← decode_color_block true (compressed.drop 8) decompressed pitch
    decode_sharp_alpha_block compressed buf pitch
  else none

/-- Port of `decode_block_bc3`: the smooth alpha block writes through the
output slice shifted by 3 bytes (`&mut decompressed_block[3..]`). -/
def decode_block_bc3 (compressed : List Nat) (decompressed : List Nat)
    (pitch : Nat) : Option (List Nat) := do
  if 8 ≤ compressed.length ∧ 3 ≤ decompressed.length then
    let buf ← decode_color_block true (compressed.drop 8) decompressed pitch
    let tail ← decode_smooth_alpha_block 4 compressed (buf.drop 3) pitch
    pure (buf.take 3 ++ tail)
  else none

/-- Port of `decode_block_bc4`. -/
def decode_block_bc4 (compressed : List Nat) (decompressed : List Nat)
    (pitch : Nat) : Option (List Nat) :=
  decode_smooth_alpha_block 1 compressed decompressed pitch

/-- Port of `decode_block_bc5`: two smooth alpha blocks, the second reading
the compressed slice from byte 8 and writing through the output slice shifted
by one byte. -/
def decode_block_bc5 (compressed : List Nat) (decompressed : List Nat)
    (pitch : Nat) : Option (List Nat) := do
  if 8 ≤ compressed.length ∧ 1 ≤ decompressed.length then
    let buf ← decode_smooth_alpha_block 2 compressed decompressed pitch
    let tail ← decode_smooth_alpha_block 2 (compressed.drop 8) (buf.drop 1) pitch
    pure (buf.take 1 ++ tail)
  else none

/-! ## Frame and content lemmas for the BC1-BC5 pixel loops -/

/-- Little-endian byte `c` of a `u32` value. -/
def u32Byte (v c : Nat) : Nat := v / 256 ^ c % 256

theorem writeU32LE_spec {buf : List Nat} {off v : Nat} (h : off + 3 < buf.length) :
    ∃ out, writeU32LE buf off v = some out ∧ out.length = buf.length ∧
      (∀ k, k ≠ off → k ≠ off + 1 → k ≠ off + 2 → k ≠ off + 3 → out[k]? = buf[k]?) ∧
      ∀ c, c < 4 → out[off + c]? = some (u32Byte v c) := by
  have e : writeU32LE buf off v =
      some ((((buf.set off (v % 256)).set (off + 1) (v / 256 % 256)).set
        (off + 2) (v / 65536 % 256)).set (off + 3) (v / 16777216 % 256)) := by
    unfold writeU32LE
    rw [setByte?_isSome (by omega)]
    simp only [Option.bind_eq_bind, Option.some_bind]
    rw [setByte?_isSome (by simp; omega)]
    simp only [Option.bind_eq_bind, Option.some_bind]
    rw [setByte?_isSome (by simp; omega)]
    simp only [Option.bind_eq_bind, Option.some_bind]
    rw [setByte?_isSome (by simp; omega)]
  refine ⟨_, e, by simp, ?_, ?_⟩
  · intro k h0 h1 h2 h3
    rw [List.getElem?_set_ne (by omega), List.getElem?_set_ne (by omega),
      List.getElem?_set_ne (by omega), List.getElem?_set_ne (by omega)]
  · intro c hc
    have hs0 : off < buf.length := by omega
    have hs1 : off + 1 < (buf.set off (v % 256)).length := by simp; omega
    have hs2 : off + 2 <
        ((buf.set off (v % 256)).set (off + 1) (v / 256 % 256)).length := by simp; omega
    have hs3 : off + 3 < (((buf.set off (v % 256)).set (off + 1) (v / 256 % 256)).set
        (off + 2) (v / 65536 % 256)).length := by simp; omega
    interval_cases c
    · rw [show off + 0 = off by omega, List.getElem?_set_ne (by omega),
        List.getElem?_set_ne (by omega), List.getElem?_set_ne (by omega),
        List.getElem?_set_self hs0]
      norm_num [u32Byte]
    · rw [List.getElem?_set_ne (by omega), List.getElem?_set_ne (by omega),
        List.getElem?_set_self hs1]
      norm_num [u32Byte]
    · rw [List.getElem?_set_ne (by omega),
        List.getElem?_set_self hs2]
      norm_num [u32Byte]
    · rw [List.getElem?_set_self hs3]
      norm_num [u32Byte]

/-- Distinct pixels of the 4x4 tile occupy disjoint byte ranges when the rows
do not overlap (`pixel stride s`, `4 * s ≤ pitch`). -/
theorem pixel_offsets_ne {p s : Nat} (hs : 4 * s ≤ p) {i j i' j' c c' : Nat}
    (hi : i < 4) (hj : j < 4) (hi' : i' < 4) (hj' : j' < 4) (hc : c < s) (hc' : c' < s)
    (hne : (i, j) ≠ (i', j')) : i * p + j * s + c ≠ i' * p + j' * s + c' := by
  rw [Ne, Prod.mk.injEq, not_and_or] at hne
  have e1 : j * s + c < p := by
    have : j * s ≤ 3 * s := Nat.mul_le_mul_right s (by omega)
    omega
  have e2 : j' * s + c' < p := by
    have : j' * s ≤ 3 * s := Nat.mul_le_mul_right s (by omega)
    omega
  rcases hne with hne | hne
  · interval_cases i <;> interval_cases i' <;> omega
  · have hj1 : j * s + s ≤ j' * s ∨ j' * s + s ≤ j * s := by
      rcases Nat.lt_or_ge j j' with h | h
      · left
        have h1 : (j + 1) * s ≤ j' * s := Nat.mul_le_mul_right s (by omega)
        have h2 : (j + 1) * s = j * s + s := by ring
        omega
      · right
        have h1 : (j' + 1) * s ≤ j * s := Nat.mul_le_mul_right s (by omega)
        have h2 : (j' + 1) * s = j' * s + s := by ring
        omega
    interval_cases i <;> interval_cases i' <;> omega

theorem colorPixelLoop_spec (refColors : List Nat) (h4 : refColors.length = 4)
    (pitch : Nat) (hp : 16 ≤ pitch) :
    ∀ (ps : List (Nat × Nat)), (∀ q ∈ ps, q.1 < 4 ∧ q.2 < 4) → ps.Nodup →
    ∀ (ind : Nat) (buf : List Nat), 3 * pitch + 16 ≤ buf.length →
    ∃ out, colorPixelLoop refColors pitch ps ind buf = some out ∧
      out.length = buf.length ∧
      (∀ k, (∀ q ∈ ps, ∀ c, c < 4 → k ≠ q.1 * pitch + q.2 * 4 + c) →
        out[k]? = buf[k]?) ∧
      (∀ m i j, ps[m]? = some (i, j) → ∀ c, c < 4 →
        out[i * pitch + j * 4 + c]? =
          some (u32Byte (refColors.getD ((ind >>> (2 * m)) &&& 3) 0) c)) := by
  intro ps
  induction ps with
  | nil =>
    intro _ _ ind buf hlen
    refine ⟨buf, rfl, rfl, fun k _ => rfl, fun m i j hm => ?_⟩
    simp at hm
  | cons q rest ih =>
    obtain ⟨i, j⟩ := q
    intro hmem hnodup ind buf hlen
    obtain ⟨⟨hi, hj⟩, hmemr⟩ := List.forall_mem_cons.mp hmem
    have hnd := List.nodup_cons.mp hnodup
    have hidx : ind &&& 3 < 4 := by
      have := Nat.and_le_right (n := ind) (m := 3)
      omega
    have hread : refColors[ind &&& 3]? = some (refColors.getD (ind &&& 3) 0) := by
      rw [List.getElem?_eq_getElem (by omega), List.getD_eq_getElem _ _ (by omega)]
    have hbound : i * pitch + j * 4 + 3 < buf.length := by
      have h1 : i * pitch ≤ 3 * pitch := Nat.mul_le_mul_right pitch (by omega)
      omega
    obtain ⟨buf1, hw, hwlen, hwframe, hwcontent⟩ :=
      @writeU32LE_spec buf (i * pitch + j * 4) (refColors.getD (ind &&& 3) 0) hbound
    obtain ⟨out, hloop, hlenr, hframer, hcontentr⟩ :=
      ih hmemr hnd.2 (ind >>> 2) buf1 (by omega)
    have hrun : colorPixelLoop refColors pitch ((i, j) :: rest) ind buf = some out := by
      show (do
        let color ← refColors[ind &&& 0x03]?
        let buf ← writeU32LE buf (i * pitch + j * 4) color
        colorPixelLoop refColors pitch rest (ind >>> 2) buf) = some out
      rw [hread]
      simp only [Option.bind_eq_bind, Option.some_bind]
      rw [hw]
      simp only [Option.bind_eq_bind, Option.some_bind]
      exact hloop
    refine ⟨out, hrun, by omega, ?_, ?_⟩
    · intro k hk
      have hkr : ∀ q ∈ rest, ∀ c, c < 4 → k ≠ q.1 * pitch + q.2 * 4 + c :=
        fun q hq => hk q (List.mem_cons_of_mem _ hq)
      have hkh : ∀ c, c < 4 → k ≠ i * pitch + j * 4 + c :=
        hk (i, j) (List.mem_cons_self _ _)
      rw [hframer k hkr]
      exact hwframe k (by have := hkh 0 (by omega); omega)
        (by have := hkh 1 (by omega); omega) (by have := hkh 2 (by omega); omega)
        (by have := hkh 3 (by omega); omega)
    · intro m i' j' hm c hc
      match m, hm with
      | 0, hm =>
        simp at hm
        obtain ⟨rfl, rfl⟩ := hm
        have hdisj : ∀ q ∈ rest, ∀ c', c' < 4 →
            i * pitch + j * 4 + c ≠ q.1 * pitch + q.2 * 4 + c' := by
          intro q hq c' hc'
          have hq4 := hmemr q hq
          have hqo : (i, j) ≠ (q.1, q.2) := by
            intro hcontra
            exact hnd.1 (by rw [show q = (q.1, q.2) from rfl] at hq; rw [hcontra]; exact hq)
          exact pixel_offsets_ne (by omega) hi hj hq4.1 hq4.2 hc hc' hqo
        rw [hframer _ hdisj]
        have := hwcontent c hc
        simpa using this
      | m + 1, hm =>
        simp only [List.getElem?_cons_succ] at hm
        have h2 := hcontentr m i' j' hm c hc
        rw [h2, ← Nat.shiftRight_add]
        have he : 2 + 2 * m = 2 * (m + 1) := by ring
        rw [he]

theorem smoothAlphaPixelLoop_spec (alpha : List Nat) (h8 : alpha.length = 8)
    (ps : Nat) (pitch : Nat) (hs : 1 ≤ ps) (hp : 4 * ps ≤ pitch) :
    ∀ (l : List (Nat × Nat)), (∀ q ∈ l, q.1 < 4 ∧ q.2 < 4) → l.Nodup →
    ∀ (ind : Nat) (buf : List Nat), 3 * pitch + 3 * ps < buf.length →
    ∃ out, smoothAlphaPixelLoop alpha ps pitch l ind buf = some out ∧
      out.length = buf.length ∧
      (∀ k, (∀ q ∈ l, k ≠ q.1 * pitch + q.2 * ps) → out[k]? = buf[k]?) ∧
      (∀ m i j, l[m]? = some (i, j) →
        out[i * pitch + j * ps]? = some (alpha.getD ((ind >>> (3 * m)) &&& 7) 0)) := by
  intro l
  induction l with
  | nil =>
    intro _ _ ind buf hlen
    refine ⟨buf, rfl, rfl, fun k _ => rfl, fun m i j hm => ?_⟩
    simp at hm
  | cons q rest ih =>
    obtain ⟨i, j⟩ := q
    intro hmem hnodup ind buf hlen
    obtain ⟨⟨hi, hj⟩, hmemr⟩ := List.forall_mem_cons.mp hmem
    have hnd := List.nodup_cons.mp hnodup
    have hidx : ind &&& 7 < 8 := by
      have := Nat.and_le_right (n := ind) (m := 7)
      omega
    have hread : alpha[ind &&& 7]? = some (alpha.getD (ind &&& 7) 0) := by
      rw [List.getElem?_eq_getElem (by omega), List.getD_eq_getElem _ _ (by omega)]
    have hbound : i * pitch + j * ps < buf.length := by
      have h1 : i * pitch ≤ 3 * pitch := Nat.mul_le_mul_right pitch (by omega)
      have h2 : j * ps ≤ 3 * ps := Nat.mul_le_mul_right ps (by omega)
      omega
    obtain ⟨out, hloop, hlenr, hframer, hcontentr⟩ :=
      ih hmemr hnd.2 (ind >>> 3) (buf.set (i * pitch + j * ps) (alpha.getD (ind &&& 7) 0))
        (by simp; omega)
    have hrun : smoothAlphaPixelLoop alpha ps pitch ((i, j) :: rest) ind buf = some out := by
      show (do
        let a ← alpha[ind &&& 0x07]?
        let buf ← setByte? buf (i * pitch + j * ps) a
        smoothAlphaPixelLoop alpha ps pitch rest (ind >>> 3) buf) = some out
      rw [hread]
      simp only [Option.bind_eq_bind, Option.some_bind]
      rw [setByte?_isSome hbound]
      simp only [Option.bind_eq_bind, Option.some_bind]
      exact hloop
    refine ⟨out, hrun, by simp at hlenr; omega, ?_, ?_⟩
    · intro k hk
      have hkr : ∀ q ∈ rest, k ≠ q.1 * pitch + q.2 * ps :=
        fun q hq => hk q (List.mem_cons_of_mem _ hq)
      have hkh : k ≠ i * pitch + j * ps := hk (i, j) (List.mem_cons_self _ _)
      rw [hframer k hkr]
      exact List.getElem?_set_ne (Ne.symm hkh)
    · intro m i' j' hm
      match m, hm with
      | 0, hm =>
        simp at hm
        obtain ⟨rfl, rfl⟩ := hm
        have hdisj : ∀ q ∈ rest, i * pitch + j * ps ≠ q.1 * pitch + q.2 * ps := by
          intro q hq
          have hq4 := hmemr q hq
          have hqo : (i, j) ≠ (q.1, q.2) := by
            intro hcontra
            exact hnd.1 (by rw [show q = (q.1, q.2) from rfl] at hq; rw [hcontra]; exact hq)
          have hne0 : i * pitch + j * ps + 0 ≠ q.1 * pitch + q.2 * ps + 0 :=
            pixel_offsets_ne hp hi hj hq4.1 hq4.2 (by omega) (by omega) hqo
          omega
        rw [hframer _ hdisj]
        rw [List.getElem?_set_self hbound]
        simp
      | m + 1, hm =>
        simp only [List.getElem?_cons_succ] at hm
        have h2 := hcontentr m i' j' hm
        rw [h2, ← Nat.shiftRight_add]
        have he : 3 + 3 * m = 3 * (m + 1) := by ring
        rw [he]

theorem sharpAlphaPixelLoop_spec (compressed : List Nat) (h8 : 8 ≤ compressed.length)
    (pitch : Nat) :
    ∀ (l : List (Nat × Nat)), (∀ q ∈ l, q.1 < 4 ∧ q.2 < 4) →
    ∀ (buf : List Nat), 3 * pitch + 16 ≤ buf.length → 16 ≤ pitch →
    ∃ out, sharpAlphaPixelLoop compressed pitch l buf = some out ∧
      out.length = buf.length ∧
      (∀ k, (∀ q ∈ l, k ≠ q.1 * pitch + q.2 * 4 + 3) → out[k]? = buf[k]?) := by
  intro l
  induction l with
  | nil =>
    intro _ buf hlen _
    exact ⟨buf, rfl, rfl, fun k _ => rfl⟩
  | cons q rest ih =>
    obtain ⟨i, j⟩ := q
    intro hmem buf hlen hp
    obtain ⟨⟨hi, hj⟩, hmemr⟩ := List.forall_mem_cons.mp hmem
    have hbidx : i * 2 + j / 2 < compressed.length := by omega
    have hbr : compressed[i * 2 + j / 2]? = some (compressed.getD (i * 2 + j / 2) 0) := by
      rw [List.getElem?_eq_getElem hbidx, List.getD_eq_getElem _ _ hbidx]
    have hbound : i * pitch + j * 4 + 3 < buf.length := by
      have h1 : i * pitch ≤ 3 * pitch := Nat.mul_le_mul_right pitch (by omega)
      omega
    set v := ((compressed.getD (i * 2 + j / 2) 0 >>> (j % 2 * 4)) &&& 0x0F) * 17 with hv
    obtain ⟨out, hloop, hlenr, hframer⟩ :=
      ih hmemr (buf.set (i * pitch + j * 4 + 3) v) (by simp; omega) hp
    have hrun : sharpAlphaPixelLoop compressed pitch ((i, j) :: rest) buf = some out := by
      show (do
        let b ← compressed[i * 2 + j / 2]?
        let buf ← setByte? buf (i * pitch + j * 4 + 3) (((b >>> (j % 2 * 4)) &&& 0x0F) * 17)
        sharpAlphaPixelLoop compressed pitch rest buf) = some out
      rw [hbr]
      simp only [Option.bind_eq_bind, Option.some_bind]
      rw [setByte?_isSome hbound]
      simp only [Option.bind_eq_bind, Option.some_bind]
      exact hloop
    refine ⟨out, hrun, by simp at hlenr; omega, ?_⟩
    intro k hk
    have hkr : ∀ q ∈ rest, k ≠ q.1 * pitch + q.2 * 4 + 3 :=
      fun q hq => hk q (List.mem_cons_of_mem _ hq)
    have hkh : k ≠ i * pitch + j * 4 + 3 := hk (i, j) (List.mem_cons_self _ _)
    rw [hframer k hkr]
    exact List.getElem?_set_ne (Ne.symm hkh)

theorem writeU32LE_frame {buf out : List Nat} {off v : Nat}
    (h : writeU32LE buf off v = some out) :
    out.length = buf.length ∧
    ∀ k, k ≠ off → k ≠ off + 1 → k ≠ off + 2 → k ≠ off + 3 → out[k]? = buf[k]? := by
  unfold writeU32LE at h
  simp only [Option.bind_eq_bind, Option.bind_eq_some] at h
  obtain ⟨b0, h0, b1, h1, b2, h2, h3⟩ := h
  have l0 := setByte?_length h0
  have l1 := setByte?_length h1
  have l2 := setByte?_length h2
  have l3 := setByte?_length h3
  refine ⟨by omega, fun k hk0 hk1 hk2 hk3 => ?_⟩
  rw [setByte?_get?_ne h3 hk3, setByte?_get?_ne h2 hk2, setByte?_get?_ne h1 hk1,
    setByte?_get?_ne h0 hk0]

theorem colorPixelLoop_frame (refColors : List Nat) (pitch : Nat) :
    ∀ (ps : List (Nat × Nat)) (ind : Nat) (buf out : List Nat),
    colorPixelLoop refColors pitch ps ind buf = some out →
    out.length = buf.length ∧
    ∀ k, (∀ q ∈ ps, ∀ c, c < 4 → k ≠ q.1 * pitch + q.2 * 4 + c) → out[k]? = buf[k]? := by
  intro ps
  induction ps with
  | nil =>
    intro ind buf out h
    cases h
    exact ⟨rfl, fun k _ => rfl⟩
  | cons q rest ih =>
    obtain ⟨i, j⟩ := q
    intro ind buf out h
    have h' : (do
        let color ← refColors[ind &&& 0x03]?
        let buf ← writeU32LE buf (i * pitch + j * 4) color
        colorPixelLoop refColors pitch rest (ind >>> 2) buf) = some out := h
    simp only [Option.bind_eq_bind, Option.bind_eq_some] at h'
    obtain ⟨color, hcolor, buf1, hw, hloop⟩ := h'
    obtain ⟨hwl, hwf⟩ := writeU32LE_frame hw
    obtain ⟨hll, hlf⟩ := ih (ind >>> 2) buf1 out hloop
    refine ⟨by omega, fun k hk => ?_⟩
    have hkr : ∀ q ∈ rest, ∀ c, c < 4 → k ≠ q.1 * pitch + q.2 * 4 + c :=
      fun q hq => hk q (List.mem_cons_of_mem _ hq)
    have hkh : ∀ c, c < 4 → k ≠ i * pitch + j * 4 + c :=
      hk (i, j) (List.mem_cons_self _ _)
    rw [hlf k hkr]
    exact hwf k (by have := hkh 0 (by omega); omega) (by have := hkh 1 (by omega); omega)
      (by have := hkh 2 (by omega); omega) (by have := hkh 3 (by omega); omega)

/-- C10: a successful `decode_block_bc1` modifies only the bytes of its own
4x4 tile: the 16 four-byte pixels at offsets `row * pitch + 4 * col`; every
other byte of the output slice is unchanged, and the slice keeps its length.
This is the frame property the image-level `decompress_rgba8` loop relies on
when it hands the whole remaining image buffer to each block decoder. -/
theorem c10_decode_block_bc1_frame (compressed buf out : List Nat) (pitch : Nat)
    (h : decode_block_bc1 compressed buf pitch = some out) :
    out.length = buf.length ∧
    ∀ k, (∀ i, i < 4 → ∀ j, j < 4 → ∀ c, c < 4 → k ≠ i * pitch + j * 4 + c) →
      out[k]? = buf[k]? := by
  unfold decode_block_bc1 decode_color_block at h
  simp only [Option.bind_eq_bind, Option.bind_eq_some] at h
  obtain ⟨b0, h0, b1, h1, b2, h2, b3, h3, b4, h4, b5, h5, b6, h6, b7, h7, hloop⟩ := h
  obtain ⟨hl, hf⟩ := colorPixelLoop_frame _ pitch pixelPairs _ buf out hloop
  refine ⟨hl, fun k hk => hf k ?_⟩
  intro q hq c hc
  have hall : ∀ q ∈ pixelPairs, q.1 < 4 ∧ q.2 < 4 := by decide
  have hq4 := hall q hq
  exact hk q.1 hq4.1 q.2 hq4.2 c hc

/-- Witness for C10: a successful concrete decode (pitch 20, a 76-byte
buffer) leaves a byte outside the tile untouched. -/
theorem c10_decode_block_bc1_frame_witness :
    ∃ out, decode_block_bc1 [1, 2, 3, 4, 5, 6, 7, 8] (List.replicate 76 9) 20 = some out ∧
      out.length = 76 ∧ out[16]? = some 9 := by
  have h1 : (decode_block_bc1 [1, 2, 3, 4, 5, 6, 7, 8]
      (List.replicate 76 9) 20).isSome = true := by decide
  obtain ⟨out, hout⟩ := Option.isSome_iff_exists.mp h1
  obtain ⟨hl, hf⟩ := c10_decode_block_bc1_frame _ _ _ _ hout
  refine ⟨out, hout, by simpa using hl, ?_⟩
  rw [hf 16 (by decide)]
  simp

/-- The four-entry BC1 palette exactly as the specification states it: 565
endpoints expanded to 888 with `r,b = (x*527+23)>>6`, `g = (x*259+33)>>6`;
for `c0 > c1` (or forced opaque mode) the interpolants use
`r,b = (s*351+61)>>7`, `g = (s*2763+1039)>>11` on the weighted sums
`2*x0+x1` and `x0+2*x1`; otherwise entry 2 uses `r,b = (s*1053+125)>>8`,
`g = (s*4145+1019)>>11` on `x0+x1` and entry 3 is transparent black.
Each entry is packed as `0xFF000000 | b<<16 | g<<8 | r`. -/
def bc1PaletteSpec (opaqueMode : Bool) (c0 c1 : Nat) : List Nat :=
  let r0 := (c0 >>> 11) &&& 0x1F
  let g0 := (c0 >>> 5) &&& 0x3F
  let b0 := c0 &&& 0x1F
  let r1 := (c1 >>> 11) &&& 0x1F
  let g1 := (c1 >>> 5) &&& 0x3F
  let b1 := c1 &&& 0x1F
  let ref0 := 0xFF000000 ||| (((b0 * 527 + 23) >>> 6) <<< 16) |||
    (((g0 * 259 + 33) >>> 6) <<< 8) ||| ((r0 * 527 + 23) >>> 6)
  let ref1 := 0xFF000000 ||| (((b1 * 527 + 23) >>> 6) <<< 16) |||
    (((g1 * 259 + 33) >>> 6) <<< 8) ||| ((r1 * 527 + 23) >>> 6)
  if c0 > c1 || opaqueMode then
    let ref2 := 0xFF000000 ||| ((((2 * b0 + b1) * 351 + 61) >>> 7) <<< 16) |||
      ((((2 * g0 + g1) * 2763 + 1039) >>> 11) <<< 8) ||| (((2 * r0 + r1) * 351 + 61) >>> 7)
    let ref3 := 0xFF000000 ||| ((((b0 + b1 * 2) * 351 + 61) >>> 7) <<< 16) |||
      ((((g0 + g1 * 2) * 2763 + 1039) >>> 11) <<< 8) ||| (((r0 + r1 * 2) * 351 + 61) >>> 7)
    [ref0, ref1, ref2, ref3]
  else
    let ref2 := 0xFF000000 ||| ((((b0 + b1) * 1053 + 125) >>> 8) <<< 16) |||
      ((((g0 + g1) * 4145 + 1019) >>> 11) <<< 8) ||| (((r0 + r1) * 1053 + 125) >>> 8)
    [ref0, ref1, ref2, 0x00000000]

theorem bc1PaletteSpec_length (opaqueMode : Bool) (c0 c1 : Nat) :
    (bc1PaletteSpec opaqueMode c0 c1).length = 4 := by
  unfold bc1PaletteSpec
  split <;> rfl

theorem getByte?_eq {l : List Nat} {i : Nat} (h : i < l.length) :
    getByte? l i = some (l.getD i 0) := by
  rw [getByte?, List.getElem?_eq_getElem h, List.getD_eq_getElem _ _ h]

theorem decode_color_block_spec (opq : Bool) (compressed buf : List Nat) (pitch : Nat)
    (h8 : 8 ≤ compressed.length) (hp : 16 ≤ pitch) (hlen : 3 * pitch + 16 ≤ buf.length) :
    ∃ out, decode_color_block opq compressed buf pitch = some out ∧
      out.length = buf.length ∧
      (∀ k, (∀ q ∈ pixelPairs, ∀ c, c < 4 → k ≠ q.1 * pitch + q.2 * 4 + c) →
        out[k]? = buf[k]?) ∧
      (∀ m i j, pixelPairs[m]? = some (i, j) → ∀ c, c < 4 →
        out[i * pitch + j * 4 + c]? = some (u32Byte
          ((bc1PaletteSpec opq (compressed.getD 0 0 + 256 * compressed.getD 1 0)
              (compressed.getD 2 0 + 256 * compressed.getD 3 0)).getD
            (((compressed.getD 4 0 + 256 * compressed.getD 5 0 +
                65536 * compressed.getD 6 0 + 16777216 * compressed.getD 7 0) >>>
              (2 * m)) &&& 3) 0) c)) := by
  have hrun : decode_color_block opq compressed buf pitch =
      colorPixelLoop
        (bc1PaletteSpec opq (compressed.getD 0 0 + 256 * compressed.getD 1 0)
          (compressed.getD 2 0 + 256 * compressed.getD 3 0)) pitch pixelPairs
        (compressed.getD 4 0 + 256 * compressed.getD 5 0 +
          65536 * compressed.getD 6 0 + 16777216 * compressed.getD 7 0) buf := by
    unfold decode_color_block bc1PaletteSpec
    rw [getByte?_eq (by omega), getByte?_eq (by omega), getByte?_eq (by omega),
      getByte?_eq (by omega), getByte?_eq (by omega), getByte?_eq (by omega),
      getByte?_eq (by omega), getByte?_eq (by omega)]
    simp only [Option.bind_eq_bind, Option.some_bind]
  obtain ⟨out, hloop, hl, hframe, hcontent⟩ :=
    colorPixelLoop_spec _ (bc1PaletteSpec_length opq _ _) pitch hp pixelPairs
      (by decide) (by decide) _ buf hlen
  exact ⟨out, by rw [hrun]; exact hloop, hl, hframe, hcontent⟩

/-- C6: the BC1 color-block decoder computes the palette stated by the
specification (`bc1PaletteSpec`: 565-to-888 expansion with the exact-scaling
coefficients, ordering-dependent interpolants, transparent black entry 3 in
the `c0 <= c1` mode) and writes, for the `m`-th pixel in row-major order, the
palette entry selected by bits `2m..2m+1` of the little-endian 32-bit
selector word loaded from bytes 4..7. -/
theorem c6_decode_color_block_palette (opq : Bool) (compressed buf : List Nat)
    (pitch : Nat) (h8 : 8 ≤ compressed.length) (hp : 16 ≤ pitch)
    (hlen : 3 * pitch + 16 ≤ buf.length) :
    ∃ out, decode_color_block opq compressed buf pitch = some out ∧
      ∀ m i j, pixelPairs[m]? = some (i, j) → ∀ c, c < 4 →
        out[i * pitch + j * 4 + c]? = some (u32Byte
          ((bc1PaletteSpec opq (compressed.getD 0 0 + 256 * compressed.getD 1 0)
              (compressed.getD 2 0 + 256 * compressed.getD 3 0)).getD
            (((compressed.getD 4 0 + 256 * compressed.getD 5 0 +
                65536 * compressed.getD 6 0 + 16777216 * compressed.getD 7 0) >>>
              (2 * m)) &&& 3) 0) c) := by
  obtain ⟨out, hrun, _, _, hcontent⟩ :=
    decode_color_block_spec opq compressed buf pitch h8 hp hlen
  exact ⟨out, hrun, hcontent⟩

/-- Witness for C6: the red/green checker block of scenario S3 decodes pixel
(0,0) to palette entry 1 = pure green `(0,255,0,255)`. -/
theorem c6_decode_color_block_palette_witness :
    ∃ out, decode_color_block false [0x00, 0xF8, 0xE0, 0x07, 0x55, 0x55, 0x55, 0x55]
        (List.replicate 64 0) 16 = some out ∧
      ∀ m i j, pixelPairs[m]? = some (i, j) → ∀ c, c < 4 →
        out[i * 16 + j * 4 + c]? = some (u32Byte
          ((bc1PaletteSpec false (0x00 + 256 * 0xF8) (0xE0 + 256 * 0x07)).getD
            (((0x55 + 256 * 0x55 + 65536 * 0x55 + 16777216 * 0x55) >>> (2 * m)) &&& 3) 0)
          c) := by
  have h := c6_decode_color_block_palette false
    [0x00, 0xF8, 0xE0, 0x07, 0x55, 0x55, 0x55, 0x55] (List.replicate 64 0) 16
    (by norm_num) (by norm_num) (by simp)
  simpa using h

/-- The eight-entry smooth-alpha palette exactly as the specification states
it: entries 0 and 1 are the stored bytes `a0`, `a1`; for `a0 > a1` entries
`k+1` (k = 1..6) are `((7-k)*a0 + k*a1)/7`; otherwise entries `k+1`
(k = 1..4) are `((5-k)*a0 + k*a1)/5`, entry 6 is `0x00` and entry 7 is
`0xFF`. -/
def bc3AlphaPaletteSpec (a0 a1 : Nat) : List Nat :=
  if a0 > a1 then
    [a0, a1,
     ((7 - 1) * a0 + 1 * a1) / 7, ((7 - 2) * a0 + 2 * a1) / 7,
     ((7 - 3) * a0 + 3 * a1) / 7, ((7 - 4) * a0 + 4 * a1) / 7,
     ((7 - 5) * a0 + 5 * a1) / 7, ((7 - 6) * a0 + 6 * a1) / 7]
  else
    [a0, a1,
     ((5 - 1) * a0 + 1 * a1) / 5, ((5 - 2) * a0 + 2 * a1) / 5,
     ((5 - 3) * a0 + 3 * a1) / 5, ((5 - 4) * a0 + 4 * a1) / 5,
     0x00, 0xFF]

theorem bc3AlphaPaletteSpec_length (a0 a1 : Nat) :
    (bc3AlphaPaletteSpec a0 a1).length = 8 := by
  unfold bc3AlphaPaletteSpec
  split <;> rfl

/-- C7: the smooth-alpha block decoder (BC3 alpha half, BC4, BC5) stores, for
the `m`-th pixel in row-major order, the palette entry of `bc3AlphaPaletteSpec
a0 a1` (`a0`, `a1` the two stored endpoint bytes) selected by bits
`3m..3m+2` of the 48-bit little-endian index word formed by bytes 2..7;
stated on the single-channel tile (pixel stride 1, pitch 4). -/
theorem c7_decode_smooth_alpha_block (compressed buf : List Nat)
    (hbytes : ∀ b ∈ compressed, b < 256) (hc : compressed.length = 8)
    (hb : buf.length = 16) :
    ∃ out, decode_smooth_alpha_block 1 compressed buf 4 = some out ∧
      ∀ m i j, pixelPairs[m]? = some (i, j) →
        out[i * 4 + j]? = some
          ((bc3AlphaPaletteSpec (compressed.getD 0 0) (compressed.getD 1 0)).getD
            (((compressed.getD 2 0 + 256 * compressed.getD 3 0 +
                65536 * compressed.getD 4 0 + 16777216 * compressed.getD 5 0 +
                4294967296 * compressed.getD 6 0 + 1099511627776 * compressed.getD 7 0) >>>
              (3 * m)) &&& 7) 0) := by
  have hbyte : ∀ i, i < 8 → compressed.getD i 0 < 256 := by
    intro i hi
    have hmem : compressed.getD i 0 ∈ compressed := by
      rw [List.getD_eq_getElem _ _ (by omega)]
      exact List.getElem_mem _
    exact hbytes _ hmem
  have h0 := hbyte 0 (by omega)
  have h1 := hbyte 1 (by omega)
  have h2 := hbyte 2 (by omega)
  have h3 := hbyte 3 (by omega)
  have h4 := hbyte 4 (by omega)
  have h5 := hbyte 5 (by omega)
  have h6 := hbyte 6 (by omega)
  have h7 := hbyte 7 (by omega)
  have hff : (0xFF : Nat) = 2 ^ 8 - 1 := by norm_num
  have hsum : compressed.getD 0 0 + 256 * compressed.getD 1 0 +
      65536 * compressed.getD 2 0 + 16777216 * compressed.getD 3 0 +
      4294967296 * compressed.getD 4 0 + 1099511627776 * compressed.getD 5 0 +
      281474976710656 * compressed.getD 6 0 +
      72057594037927936 * compressed.getD 7 0 =
      compressed.getD 0 0 + 256 * compressed.getD 1 0 +
      65536 * compressed.getD 2 0 + 16777216 * compressed.getD 3 0 +
      4294967296 * compressed.getD 4 0 + 1099511627776 * compressed.getD 5 0 +
      281474976710656 * compressed.getD 6 0 +
      72057594037927936 * compressed.getD 7 0 := rfl
  have e0 : (compressed.getD 0 0 + 256 * compressed.getD 1 0 +
      65536 * compressed.getD 2 0 + 16777216 * compressed.getD 3 0 +
      4294967296 * compressed.getD 4 0 + 1099511627776 * compressed.getD 5 0 +
      281474976710656 * compressed.getD 6 0 +
      72057594037927936 * compressed.getD 7 0) &&& 0xFF = compressed.getD 0 0 := by
    rw [hff, Nat.and_pow_two_sub_one_eq_mod]
    omega
  have e1 : ((compressed.getD 0 0 + 256 * compressed.getD 1 0 +
      65536 * compressed.getD 2 0 + 16777216 * compressed.getD 3 0 +
      4294967296 * compressed.getD 4 0 + 1099511627776 * compressed.getD 5 0 +
      281474976710656 * compressed.getD 6 0 +
      72057594037927936 * compressed.getD 7 0) >>> 8) &&& 0xFF =
      compressed.getD 1 0 := by
    rw [Nat.shiftRight_eq_div_pow, hff, Nat.and_pow_two_sub_one_eq_mod]
    omega
  have e2 : (compressed.getD 0 0 + 256 * compressed.getD 1 0 +
      65536 * compressed.getD 2 0 + 16777216 * compressed.getD 3 0 +
      4294967296 * compressed.getD 4 0 + 1099511627776 * compressed.getD 5 0 +
      281474976710656 * compressed.getD 6 0 +
      72057594037927936 * compressed.getD 7 0) >>> 16 =
      compressed.getD 2 0 + 256 * compressed.getD 3 0 +
      65536 * compressed.getD 4 0 + 16777216 * compressed.getD 5 0 +
      4294967296 * compressed.getD 6 0 + 1099511627776 * compressed.getD 7 0 := by
    rw [Nat.shiftRight_eq_div_pow]
    omega
  have hrun : decode_smooth_alpha_block 1 compressed buf 4 =
      smoothAlphaPixelLoop
        (bc3AlphaPaletteSpec (compressed.getD 0 0) (compressed.getD 1 0)) 1 4 pixelPairs
        (compressed.getD 2 0 + 256 * compressed.getD 3 0 +
          65536 * compressed.getD 4 0 + 16777216 * compressed.getD 5 0 +
          4294967296 * compressed.getD 6 0 + 1099511627776 * compressed.getD 7 0)
        buf := by
    unfold decode_smooth_alpha_block bc3AlphaPaletteSpec
    rw [getByte?_eq (by omega), getByte?_eq (by omega), getByte?_eq (by omega),
      getByte?_eq (by omega), getByte?_eq (by omega), getByte?_eq (by omega),
      getByte?_eq (by omega), getByte?_eq (by omega)]
    simp only [Option.bind_eq_bind, Option.some_bind]
    rw [e0, e1, e2]
    congr 1
    split <;> norm_num
  obtain ⟨out, hloop, hl, hframe, hcontent⟩ :=
    smoothAlphaPixelLoop_spec _ (bc3AlphaPaletteSpec_length _ _) 1 4 (by omega)
      (by omega) pixelPairs (by decide) (by decide) _ buf (by omega)
  refine ⟨out, by rw [hrun]; exact hloop, ?_⟩
  intro m i j hm
  have := hcontent m i j hm
  simpa using this

/-- Witness for C7 at a concrete block: endpoints 240 and 16, a gradient of
index bits. -/
theorem c7_decode_smooth_alpha_block_witness :
    ∃ out, decode_smooth_alpha_block 1 [240, 16, 0x88, 0x99, 0xAA, 0xBB, 0xCC, 0xDD]
        (List.replicate 16 0) 4 = some out ∧
      ∀ m i j, pixelPairs[m]? = some (i, j) →
        out[i * 4 + j]? = some
          ((bc3AlphaPaletteSpec 240 16).getD
            (((0x88 + 256 * 0x99 + 65536 * 0xAA + 16777216 * 0xBB +
                4294967296 * 0xCC + 1099511627776 * 0xDD) >>> (3 * m)) &&& 7) 0) := by
  have h := c7_decode_smooth_alpha_block [240, 16, 0x88, 0x99, 0xAA, 0xBB, 0xCC, 0xDD]
    (List.replicate 16 0) (by decide) (by decide) (by decide)
  simpa using h

/-! ## BC6H block decoder (src/decode/block.rs) -/

/-- The `ACTUAL_BITS_COUNT` table of `decode_block_bc6h`: per internal mode,
the endpoint bit count of W and of the dR/dG/dB deltas. -/
def ACTUAL_BITS_COUNT_BC6H : List (List Nat) := [
  [10, 7, 11, 11, 11, 9, 8, 8, 8, 6, 10, 11, 12, 16],
  [5, 6, 5, 4, 4, 5, 6, 5, 5, 6, 10, 9, 8, 4],
  [5, 6, 4, 5, 4, 5, 5, 6, 5, 6, 10, 9, 8, 4],
  [5, 6, 4, 4, 5, 5, 5, 5, 6, 6, 10, 9, 8, 4]]

/-- The 32-entry two-region partition table of `decode_block_bc6h`; fix-up
indices carry bit 0x80. -/
def PARTITION_SETS_BC6H : List (List (List Nat)) := [
  [[128, 0, 1, 1], [0, 0, 1, 1], [0, 0, 1, 1], [0, 0, 1, 129]],
  [[128, 0, 0, 1], [0, 0, 0, 1], [0, 0, 0, 1], [0, 0, 0, 129]],
  [[128, 1, 1, 1], [0, 1, 1, 1], [0, 1, 1, 1], [0, 1, 1, 129]],
  [[128, 0, 0, 1], [0, 0, 1, 1], [0, 0, 1, 1], [0, 1, 1, 129]],
  [[128, 0, 0, 0], [0, 0, 0, 1], [0, 0, 0, 1], [0, 0, 1, 129]],
  [[128, 0, 1, 1], [0, 1, 1, 1], [0, 1, 1, 1], [1, 1, 1, 129]],
  [[128, 0, 0, 1], [0, 0, 1, 1], [0, 1, 1, 1], [1, 1, 1, 129]],
  [[128, 0, 0, 0], [0, 0, 0, 1], [0, 0, 1, 1], [0, 1, 1, 129]],
  [[128, 0, 0, 0], [0, 0, 0, 0], [0, 0, 0, 1], [0, 0, 1, 129]],
  [[128, 0, 1, 1], [0, 1, 1, 1], [1, 1, 1, 1], [1, 1, 1, 129]],
  [[128, 0, 0, 0], [0, 0, 0, 1], [0, 1, 1, 1], [1, 1, 1, 129]],
  [[128, 0, 0, 0], [0, 0, 0, 0], [0, 0, 0, 1], [0, 1, 1, 129]],
  [[128, 0, 0, 1], [0, 1, 1, 1], [1, 1, 1, 1], [1, 1, 1, 129]],
  [[128, 0, 0, 0], [0, 0, 0, 0], [1, 1, 1, 1], [1, 1, 1, 129]],
  [[128, 0, 0, 0], [1, 1, 1, 1], [1, 1, 1, 1], [1, 1, 1, 129]],
  [[128, 0, 0, 0], [0, 0, 0, 0], [0, 0, 0, 0], [1, 1, 1, 129]],
  [[128, 0, 0, 0], [1, 0, 0, 0], [1, 1, 1, 0], [1, 1, 1, 129]],
  [[128, 1, 129, 1], [0, 0, 0, 1], [0, 0, 0, 0], [0, 0, 0, 0]],
  [[128, 0, 0, 0], [0, 0, 0, 0], [129, 0, 0, 0], [1, 1, 1, 0]],
  [[128, 1, 129, 1], [0, 0, 1, 1], [0, 0, 0, 1], [0, 0, 0, 0]],
  [[128, 0, 129, 1], [0, 0, 0, 1], [0, 0, 0, 0], [0, 0, 0, 0]],
  [[128, 0, 0, 0], [1, 0, 0, 0], [129, 1, 0, 0], [1, 1, 1, 0]],
  [[128, 0, 0, 0], [0, 0, 0, 0], [129, 0, 0, 0], [1, 1, 0, 0]],
  [[128, 1, 1, 1], [0, 0, 1, 1], [0, 0, 1, 1], [0, 0, 0, 129]],
  [[128, 0, 129, 1], [0, 0, 0, 1], [0, 0, 0, 1], [0, 0, 0, 0]],
  [[128, 0, 0, 0], [1, 0, 0, 0], [129, 0, 0, 0], [1, 1, 0, 0]],
  [[128, 1, 129, 0], [0, 1, 1, 0], [0, 1, 1, 0], [0, 1, 1, 0]],
  [[128, 0, 129, 1], [0, 1, 1, 0], [0, 1, 1, 0], [1, 1, 0, 0]],
  [[128, 0, 0, 1], [0, 1, 1, 1], [129, 1, 1, 0], [1, 0, 0, 0]],
  [[128, 0, 0, 0], [1, 1, 1, 1], [129, 1, 1, 1], [0, 0, 0, 0]],
  [[128, 1, 129, 1], [0, 0, 0, 1], [1, 0, 0, 0], [1, 1, 1, 0]],
  [[128, 0, 129, 1], [1, 0, 0, 1], [1, 0, 0, 1], [1, 1, 0, 0]]]

/-- The 3-bit interpolation weight table `WEIGHT3`. -/
def WEIGHT3 : List Int := [0, 9, 18, 27, 37, 46, 55, 64]

/-- The 4-bit interpolation weight table `WEIGHT4`. -/
def WEIGHT4 : List Int := [0, 4, 9, 13, 17, 21, 26, 30, 34, 38, 43, 47, 51, 55, 60, 64]

/-- Arithmetic (sign preserving) right shift of an `i32` value. -/
def asr (x : Int) (n : Nat) : Int := Int.fdiv x (2 ^ n)

/-- Two's-complement wrap of an integer into the `i32` range (the bits a
Rust `i32` left shift keeps). -/
def wrap32 (x : Int) : Int := (x + 2 ^ 31).emod (2 ^ 32) - 2 ^ 31

/-- Port of `extend_sign`: `(val << (32 - bits)) >> (32 - bits)` on `i32`. -/
def extend_sign (val : Int) (bits : Nat) : Int :=
  asr (wrap32 (val * 2 ^ (32 - bits))) (32 - bits)

/-- Port of `transform_inverse`: `(val + a0) & ((1 << bits) - 1)`, sign
extended for the signed format (the `i32` bitwise and with the nonnegative
mask is the Euclidean remainder). -/
def transform_inverse (val a0 : Int) (bits : Nat) (isSigned : Bool) : Int :=
  let transformed := (val + a0).emod (2 ^ bits)
  if isSigned then extend_sign transformed bits else transformed

/-- Port of `unquantize`. -/
def unquantize (val : Int) (bits : Nat) (isSigned : Bool) : Int :=
  if !isSigned then
    if bits ≥ 15 then val
    else if val = 0 then 0
    else if val = 2 ^ bits - 1 then 0xFFFF
    else asr (val * 2 ^ 16 + 0x8000) bits
  else if bits ≥ 16 then val
  else
    let s := decide (val < 0)
    let v := if val < 0 then -val else val
    let unq : Int :=
      if v = 0 then 0
      else if v ≥ 2 ^ (bits - 1) - 1 then 0x7FFF
      else asr (v * 2 ^ 15 + 0x4000) (bits - 1)
    if s then -unq else unq

/-- Port of `finish_unquantize`: scales by 31/64 (unsigned) or 31/32 with
the sign moved into bit 15 (signed), and truncates to the `u16` half-float
bit pattern. -/
def finish_unquantize (val : Int) (isSigned : Bool) : Nat :=
  if !isSigned then ((asr (val * 31) 6).emod (2 ^ 16)).toNat
  else
    let scaled := if val < 0 then -(asr (-val * 31) 5) else asr (val * 31) 5
    let p := if scaled < 0 then ((0x8000 : Nat), (-scaled).toNat) else (0, scaled.toNat)
    (p.1 ||| p.2) % 2 ^ 16

/-- Port of `interpolate`: `(a*(64-w) + b*w + 32) >> 6` with the checked
weight-table lookup. -/
def interpolate (a b : Int) (weights : List Int) (index : Nat) : Option Int := do
  let w ← weights[index]?
  pure (asr (a * (64 - w) + b * w + 32) 6)

/-- The result of the per-mode endpoint-field parsing phase of
`decode_block_bc6h`: endpoint accumulators, partition index, internal mode
index and the advanced bit stream. -/
structure BC6HParsed where
  r : List Int
  g : List Int
  b : List Int
  partition : Nat
  mode : Nat
  bs : BitStream

/-- Shared tail of the ten two-region mode arms: the final
`partition = bstream.read_bits_i32(5)` read. -/
def bc6h_two_region (r g b : List Int) (mode : Nat) (bs : BitStream) : BC6HParsed :=
  let t := bs.read_bits 5
  ⟨r, g, b, t.1, mode, t.2⟩

/-- Shared tail of the four one-region mode arms (modes ≥ 10 use
partition 0). -/
def bc6h_one_region (r g b : List Int) (mode : Nat) (bs : BitStream) : BC6HParsed :=
  ⟨r, g, b, 0, mode, bs⟩

/-- Port of the `0b00` arm (internal mode 0) of `decode_block_bc6h`. -/
def bc6h_parse_m0 (bs : BitStream) : BC6HParsed :=
  let r0 : Nat := 0; let r1 : Nat := 0; let r2 : Nat := 0; let r3 : Nat := 0
  let g0 : Nat := 0; let g1 : Nat := 0; let g2 : Nat := 0; let g3 : Nat := 0
  let b0 : Nat := 0; let b1 : Nat := 0; let b2 : Nat := 0; let b3 : Nat := 0
  let t := bs.read_bit
  let g2 := g2 ||| (t.1 <<< 4)
  let bs := t.2
  let t := bs.read_bit
  let b2 := b2 ||| (t.1 <<< 4)
  let bs := t.2
  let t := bs.read_bit
  let b3 := b3 ||| (t.1 <<< 4)
  let bs := t.2
  let t := bs.read_bits 10
  let r0 := r0 ||| t.1
  let bs := t.2
  let t := bs.read_bits 10
  let g0 := g0 ||| t.1
  let bs := t.2
  let t := bs.read_bits 10
  let b0 := b0 ||| t.1
  let bs := t.2
  let t := bs.read_bits 5
  let r1 := r1 ||| t.1
  let bs := t.2
  let t := bs.read_bit
  let g3 := g3 ||| (t.1 <<< 4)
  let bs := t.2
  let t := bs.read_bits 4
  let g2 := g2 ||| t.1
  let bs := t.2
  let t := bs.read_bits 5
  let g1 := g1 ||| t.1
  let bs := t.2
  let t := bs.read_bit
  let b3 := b3 ||| t.1
  let bs := t.2
  let t := bs.read_bits 4
  let g3 := g3 ||| t.1
  let bs := t.2
  let t := bs.read_bits 5
  let b1 := b1 ||| t.1
  let bs := t.2
  let t := bs.read_bit
  let b3 := b3 ||| (t.1 <<< 1)
  let bs := t.2
  let t := bs.read_bits 4
  let b2 := b2 ||| t.1
  let bs := t.2
  let t := bs.read_bits 5
  let r2 := r2 ||| t.1
  let bs := t.2
  let t := bs.read_bit
  let b3 := b3 ||| (t.1 <<< 2)
  let bs := t.2
  let t := bs.read_bits 5
  let r3 := r3 ||| t.1
  let bs := t.2
  let t := bs.read_bit
  let b3 := b3 ||| (t.1 <<< 3)
  let bs := t.2
  bc6h_two_region [(r0 : Int), (r1 : Int), (r2 : Int), (r3 : Int)]
    [(g0 : Int), (g1 : Int), (g2 : Int), (g3 : Int)]
    [(b0 : Int), (b1 : Int), (b2 : Int), (b3 : Int)] 0 bs

/-- Port of the `0b01` arm (internal mode 1) of `decode_block_bc6h`. -/
def bc6h_parse_m1 (bs : BitStream) : BC6HParsed :=
  let r0 : Nat := 0; let r1 : Nat := 0; let r2 : Nat := 0; let r3 : Nat := 0
  let g0 : Nat := 0; let g1 : Nat := 0; let g2 : Nat := 0; let g3 : Nat := 0
  let b0 : Nat := 0; let b1 : Nat := 0; let b2 : Nat := 0; let b3 : Nat := 0
  let t := bs.read_bit
  let g2 := g2 ||| (t.1 <<< 5)
  let bs := t.2
  let t := bs.read_bit
  let g3 := g3 ||| (t.1 <<< 4)
  let bs := t.2
  let t := bs.read_bit
  let g3 := g3 ||| (t.1 <<< 5)
  let bs := t.2
  let t := bs.read_bits 7
  let r0 := r0 ||| t.1
  let bs := t.2
  let t := bs.read_bit
  let b3 := b3 ||| t.1
  let bs := t.2
  let t := bs.read_bit
  let b3 := b3 ||| (t.1 <<< 1)
  let bs := t.2
  let t := bs.read_bit
  let b2 := b2 ||| (t.1 <<< 4)
  let bs := t.2
  let t := bs.read_bits 7
  let g0 := g0 ||| t.1
  let bs := t.2
  let t := bs.read_bit
  let b2 := b2 ||| (t.1 <<< 5)
  let bs := t.2
  let t := bs.read_bit
  let b3 := b3 ||| (t.1 <<< 2)
  let bs := t.2
  let t := bs.read_bit
  let g2 := g2 ||| (t.1 <<< 4)
  let bs := t.2
  let t := bs.read_bits 7
  let b0 := b0 ||| t.1
  let bs := t.2
  let t := bs.read_bit
  let b3 := b3 ||| (t.1 <<< 3)
  let bs := t.2
  let t := bs.read_bit
  let b3 := b3 ||| (t.1 <<< 5)
  let bs := t.2
  let t := bs.read_bit
  let b3 := b3 ||| (t.1 <<< 4)
  let bs := t.2
  let t := bs.read_bits 6
  let r1 := r1 ||| t.1
  let bs := t.2
  let t := bs.read_bits 4
  let g2 := g2 ||| t.1
  let bs := t.2
  let t := bs.read_bits 6
  let g1 := g1 ||| t.1
  let bs := t.2
  let t := bs.read_bits 4
  let g3 := g3 ||| t.1
  let bs := t.2
  let t := bs.read_bits 6
  let b1 := b1 ||| t.1
  let bs := t.2
  let t := bs.read_bits 4
  let b2 := b2 ||| t.1
  let bs := t.2
  let t := bs.read_bits 6
  let r2 := r2 ||| t.1
  let bs := t.2
  let t := bs.read_bits 6
  let r3 := r3 ||| t.1
  let bs := t.2
  bc6h_two_region [(r0 : Int), (r1 : Int), (r2 : Int), (r3 : Int)]
    [(g0 : Int), (g1 : Int), (g2 : Int), (g3 : Int)]
    [(b0 : Int), (b1 : Int), (b2 : Int), (b3 : Int)] 1 bs

/-- Port of the `0b00010` arm (internal mode 2) of `decode_block_bc6h`. -/
def bc6h_parse_m2 (bs : BitStream) : BC6HParsed :=
  let r0 : Nat := 0; let r1 : Nat := 0; let r2 : Nat := 0; let r3 : Nat := 0
  let g0 : Nat := 0; let g1 : Nat := 0; let g2 : Nat := 0; let g3 : Nat := 0
  let b0 : Nat := 0; let b1 : Nat := 0; let b2 : Nat := 0; let b3 : Nat := 0
  let t := bs.read_bits 10
  let r0 := r0 ||| t.1
  let bs := t.2
  let t := bs.read_bits 10
  let g0 := g0 ||| t.1
  let bs := t.2
  let t := bs.read_bits 10
  let b0 := b0 ||| t.1
  let bs := t.2
  let t := bs.read_bits 5
  let r1 := r1 ||| t.1
  let bs := t.2
  let t := bs.read_bit
  let r0 := r0 ||| (t.1 <<< 10)
  let bs := t.2
  let t := bs.read_bits 4
  let g2 := g2 ||| t.1
  let bs := t.2
  let t := bs.read_bits 4
  let g1 := g1 ||| t.1
  let bs := t.2
  let t := bs.read_bit
  let g0 := g0 ||| (t.1 <<< 10)
  let bs := t.2
  let t := bs.read_bit
  let b3 := b3 ||| t.1
  let bs := t.2
  let t := bs.read_bits 4
  let g3 := g3 ||| t.1
  let bs := t.2
  let t := bs.read_bits 4
  let b1 := b1 ||| t.1
  let bs := t.2
  let t := bs.read_bit
  let b0 := b0 ||| (t.1 <<< 10)
  let bs := t.2
  let t := bs.read_bit
  let b3 := b3 ||| (t.1 <<< 1)
  let bs := t.2
  let t := bs.read_bits 4
  let b2 := b2 ||| t.1
  let bs := t.2
  let t := bs.read_bits 5
  let r2 := r2 ||| t.1
  let bs := t.2
  let t := bs.read_bit
  let b3 := b3 ||| (t.1 <<< 2)
  let bs := t.2
  let t := bs.read_bits 5
  let r3 := r3 ||| t.1
  let bs := t.2
  let t := bs.read_bit
  let b3 := b3 ||| (t.1 <<< 3)
  let bs := t.2
  bc6h_two_region [(r0 : Int), (r1 : Int), (r2 : Int), (r3 : Int)]
    [(g0 : Int), (g1 : Int), (g2 : Int), (g3 : Int)]
    [(b0 : Int), (b1 : Int), (b2 : Int), (b3 : Int)] 2 bs

/-- Port of the `0b00110` arm (internal mode 3) of `decode_block_bc6h`. -/
def bc6h_parse_m3 (bs : BitStream) : BC6HParsed :=
  let r0 : Nat := 0; let r1 : Nat := 0; let r2 : Nat := 0; let r3 : Nat := 0
  let g0 : Nat := 0; let g1 : Nat := 0; let g2 : Nat := 0; let g3 : Nat := 0
  let b0 : Nat := 0; let b1 : Nat := 0; let b2 : Nat := 0; let b3 : Nat := 0
  let t := bs.read_bits 10
  let r0 := r0 ||| t.1
  let bs := t.2
  let t := bs.read_bits 10
  let g0 := g0 ||| t.1
  let bs := t.2
  let t := bs.read_bits 10
  let b0 := b0 ||| t.1
  let bs := t.2
  let t := bs.read_bits 4
  let r1 := r1 ||| t.1
  let bs := t.2
  let t := bs.read_bit
  let r0 := r0 ||| (t.1 <<< 10)
  let bs := t.2
  let t := bs.read_bit
  let g3 := g3 ||| (t.1 <<< 4)
  let bs := t.2
  let t := bs.read_bits 4
  let g2 := g2 ||| t.1
  let bs := t.2
  let t := bs.read_bits 5
  let g1 := g1 ||| t.1
  let bs := t.2
  let t := bs.read_bit
  let g0 := g0 ||| (t.1 <<< 10)
  let bs := t.2
  let t := bs.read_bits 4
  let g3 := g3 ||| t.1
  let bs := t.2
  let t := bs.read_bits 4
  let b1 := b1 ||| t.1
  let bs := t.2
  let t := bs.read_bit
  let b0 := b0 ||| (t.1 <<< 10)
  let bs := t.2
  let t := bs.read_bit
  let b3 := b3 ||| (t.1 <<< 1)
  let bs := t.2
  let t := bs.read_bits 4
  let b2 := b2 ||| t.1
  let bs := t.2
  let t := bs.read_bits 4
  let r2 := r2 ||| t.1
  let bs := t.2
  let t := bs.read_bit
  let b3 := b3 ||| t.1
  let bs := t.2
  let t := bs.read_bit
  let b3 := b3 ||| (t.1 <<< 2)
  let bs := t.2
  let t := bs.read_bits 4
  let r3 := r3 ||| t.1
  let bs := t.2
  let t := bs.read_bit
  let g2 := g2 ||| (t.1 <<< 4)
  let bs := t.2
  let t := bs.read_bit
  let b3 := b3 ||| (t.1 <<< 3)
  let bs := t.2
  bc6h_two_region [(r0 : Int), (r1 : Int), (r2 : Int), (r3 : Int)]
    [(g0 : Int), (g1 : Int), (g2 : Int), (g3 : Int)]
    [(b0 : Int), (b1 : Int), (b2 : Int), (b3 : Int)] 3 bs

/-- Port of the `0b01010` arm (internal mode 4) of `decode_block_bc6h`. -/
def bc6h_parse_m4 (bs : BitStream) : BC6HParsed :=
  let r0 : Nat := 0; let r1 : Nat := 0; let r2 : Nat := 0; let r3 : Nat := 0
  let g0 : Nat := 0; let g1 : Nat := 0; let g2 : Nat := 0; let g3 : Nat := 0
  let b0 : Nat := 0; let b1 : Nat := 0; let b2 : Nat := 0; let b3 : Nat := 0
  let t := bs.read_bits 10
  let r0 := r0 ||| t.1
  let bs := t.2
  let t := bs.read_bits 10
  let g0 := g0 ||| t.1
  let bs := t.2
  let t := bs.read_bits 10
  let b0 := b0 ||| t.1
  let bs := t.2
  let t := bs.read_bits 4
  let r1 := r1 ||| t.1
  let bs := t.2
  let t := bs.read_bit
  let r0 := r0 ||| (t.1 <<< 10)
  let bs := t.2
  let t := bs.read_bit
  let b2 := b2 ||| (t.1 <<< 4)
  let bs := t.2
  let t := bs.read_bits 4
  let g2 := g2 ||| t.1
  let bs := t.2
  let t := bs.read_bits 4
  let g1 := g1 ||| t.1
  let bs := t.2
  let t := bs.read_bit
  let g0 := g0 ||| (t.1 <<< 10)
  let bs := t.2
  let t := bs.read_bit
  let b3 := b3 ||| t.1
  let bs := t.2
  let t := bs.read_bits 4
  let g3 := g3 ||| t.1
  let bs := t.2
  let t := bs.read_bits 5
  let b1 := b1 ||| t.1
  let bs := t.2
  let t := bs.read_bit
  let b0 := b0 ||| (t.1 <<< 10)
  let bs := t.2
  let t := bs.read_bits 4
  let b2 := b2 ||| t.1
  let bs := t.2
  let t := bs.read_bits 4
  let r2 := r2 ||| t.1
  let bs := t.2
  let t := bs.read_bit
  let b3 := b3 ||| (t.1 <<< 1)
  let bs := t.2
  let t := bs.read_bit
  let b3 := b3 ||| (t.1 <<< 2)
  let bs := t.2
  let t := bs.read_bits 4
  let r3 := r3 ||| t.1
  let bs := t.2
  let t := bs.read_bit
  let b3 := b3 ||| (t.1 <<< 4)
  let bs := t.2
  let t := bs.read_bit
  let b3 := b3 ||| (t.1 <<< 3)
  let bs := t.2
  bc6h_two_region [(r0 : Int), (r1 : Int), (r2 : Int), (r3 : Int)]
    [(g0 : Int), (g1 : Int), (g2 : Int), (g3 : Int)]
    [(b0 : Int), (b1 : Int), (b2 : Int), (b3 : Int)] 4 bs

/-- Port of the `0b01110` arm (internal mode 5) of `decode_block_bc6h`. -/
def bc6h_parse_m5 (bs : BitStream) : BC6HParsed :=
  let r0 : Nat := 0; let r1 : Nat := 0; let r2 : Nat := 0; let r3 : Nat := 0
  let g0 : Nat := 0; let g1 : Nat := 0; let g2 : Nat := 0; let g3 : Nat := 0
  let b0 : Nat := 0; let b1 : Nat := 0; let b2 : Nat := 0; let b3 : Nat := 0
  let t := bs.read_bits 9
  let r0 := r0 ||| t.1
  let bs := t.2
  let t := bs.read_bit
  let b2 := b2 ||| (t.1 <<< 4)
  let bs := t.2
  let t := bs.read_bits 9
  let g0 := g0 ||| t.1
  let bs := t.2
  let t := bs.read_bit
  let g2 := g2 ||| (t.1 <<< 4)
  let bs := t.2
  let t := bs.read_bits 9
  let b0 := b0 ||| t.1
  let bs := t.2
  let t := bs.read_bit
  let b3 := b3 ||| (t.1 <<< 4)
  let bs := t.2
  let t := bs.read_bits 5
  let r1 := r1 ||| t.1
  let bs := t.2
  let t := bs.read_bit
  let g3 := g3 ||| (t.1 <<< 4)
  let bs := t.2
  let t := bs.read_bits 4
  let g2 := g2 ||| t.1
  let bs := t.2
  let t := bs.read_bits 5
  let g1 := g1 ||| t.1
  let bs := t.2
  let t := bs.read_bit
  let b3 := b3 ||| t.1
  let bs := t.2
  let t := bs.read_bits 4
  let g3 := g3 ||| t.1
  let bs := t.2
  let t := bs.read_bits 5
  let b1 := b1 ||| t.1
  let bs := t.2
  let t := bs.read_bit
  let b3 := b3 ||| (t.1 <<< 1)
  let bs := t.2
  let t := bs.read_bits 4
  let b2 := b2 ||| t.1
  let bs := t.2
  let t := bs.read_bits 5
  let r2 := r2 ||| t.1
  let bs := t.2
  let t := bs.read_bit
  let b3 := b3 ||| (t.1 <<< 2)
  let bs := t.2
  let t := bs.read_bits 5
  let r3 := r3 ||| t.1
  let bs := t.2
  let t := bs.read_bit
  let b3 := b3 ||| (t.1 <<< 3)
  let bs := t.2
  bc6h_two_region [(r0 : Int), (r1 : Int), (r2 : Int), (r3 : Int)]
    [(g0 : Int), (g1 : Int), (g2 : Int), (g3 : Int)]
    [(b0 : Int), (b1 : Int), (b2 : Int), (b3 : Int)] 5 bs

/-- Port of the `0b10010` arm (internal mode 6) of `decode_block_bc6h`. -/
def bc6h_parse_m6 (bs : BitStream) : BC6HParsed :=
  let r0 : Nat := 0; let r1 : Nat := 0; let r2 : Nat := 0; let r3 : Nat := 0
  let g0 : Nat := 0; let g1 : Nat := 0; let g2 : Nat := 0; let g3 : Nat := 0
  let b0 : Nat := 0; let b1 : Nat := 0; let b2 : Nat := 0; let b3 : Nat := 0
  let t := bs.read_bits 8
  let r0 := r0 ||| t.1
  let bs := t.2
  let t := bs.read_bit
  let g3 := g3 ||| (t.1 <<< 4)
  let bs := t.2
  let t := bs.read_bit
  let b2 := b2 ||| (t.1 <<< 4)
  let bs := t.2
  let t := bs.read_bits 8
  let g0 := g0 ||| t.1
  let bs := t.2
  let t := bs.read_bit
  let b3 := b3 ||| (t.1 <<< 2)
  let bs := t.2
  let t := bs.read_bit
  let g2 := g2 ||| (t.1 <<< 4)
  let bs := t.2
  let t := bs.read_bits 8
  let b0 := b0 ||| t.1
  let bs := t.2
  let t := bs.read_bit
  let b3 := b3 ||| (t.1 <<< 3)
  let bs := t.2
  let t := bs.read_bit
  let b3 := b3 ||| (t.1 <<< 4)
  let bs := t.2
  let t := bs.read_bits 6
  let r1 := r1 ||| t.1
  let bs := t.2
  let t := bs.read_bits 4
  let g2 := g2 ||| t.1
  let bs := t.2
  let t := bs.read_bits 5
  let g1 := g1 ||| t.1
  let bs := t.2
  let t := bs.read_bit
  let b3 := b3 ||| t.1
  let bs := t.2
  let t := bs.read_bits 4
  let g3 := g3 ||| t.1
  let bs := t.2
  let t := bs.read_bits 5
  let b1 := b1 ||| t.1
  let bs := t.2
  let t := bs.read_bit
  let b3 := b3 ||| (t.1 <<< 1)
  let bs := t.2
  let t := bs.read_bits 4
  let b2 := b2 ||| t.1
  let bs := t.2
  let t := bs.read_bits 6
  let r2 := r2 ||| t.1
  let bs := t.2
  let t := bs.read_bits 6
  let r3 := r3 ||| t.1
  let bs := t.2
  bc6h_two_region [(r0 : Int), (r1 : Int), (r2 : Int), (r3 : Int)]
    [(g0 : Int), (g1 : Int), (g2 : Int), (g3 : Int)]
    [(b0 : Int), (b1 : Int), (b2 : Int), (b3 : Int)] 6 bs

/-- Port of the `0b10110` arm (internal mode 7) of `decode_block_bc6h`. -/
def bc6h_parse_m7 (bs : BitStream) : BC6HParsed :=
  let r0 : Nat := 0; let r1 : Nat := 0; let r2 : Nat := 0; let r3 : Nat := 0
  let g0 : Nat := 0; let g1 : Nat := 0; let g2 : Nat := 0; let g3 : Nat := 0
  let b0 : Nat := 0; let b1 : Nat := 0; let b2 : Nat := 0; let b3 : Nat := 0
  let t := bs.read_bits 8
  let r0 := r0 ||| t.1
  let bs := t.2
  let t := bs.read_bit
  let b3 := b3 ||| t.1
  let bs := t.2
  let t := bs.read_bit
  let b2 := b2 ||| (t.1 <<< 4)
  let bs := t.2
  let t := bs.read_bits 8
  let g0 := g0 ||| t.1
  let bs := t.2
  let t := bs.read_bit
  let g2 := g2 ||| (t.1 <<< 5)
  let bs := t.2
  let t := bs.read_bit
  let g2 := g2 ||| (t.1 <<< 4)
  let bs := t.2
  let t := bs.read_bits 8
  let b0 := b0 ||| t.1
  let bs := t.2
  let t := bs.read_bit
  let g3 := g3 ||| (t.1 <<< 5)
  let bs := t.2
  let t := bs.read_bit
  let b3 := b3 ||| (t.1 <<< 4)
  let bs := t.2
  let t := bs.read_bits 5
  let r1 := r1 ||| t.1
  let bs := t.2
  let t := bs.read_bit
  let g3 := g3 ||| (t.1 <<< 4)
  let bs := t.2
  let t := bs.read_bits 4
  let g2 := g2 ||| t.1
  let bs := t.2
  let t := bs.read_bits 6
  let g1 := g1 ||| t.1
  let bs := t.2
  let t := bs.read_bits 4
  let g3 := g3 ||| t.1
  let bs := t.2
  let t := bs.read_bits 5
  let b1 := b1 ||| t.1
  let bs := t.2
  let t := bs.read_bit
  let b3 := b3 ||| (t.1 <<< 1)
  let bs := t.2
  let t := bs.read_bits 4
  let b2 := b2 ||| t.1
  let bs := t.2
  let t := bs.read_bits 5
  let r2 := r2 ||| t.1
  let bs := t.2
  let t := bs.read_bit
  let b3 := b3 ||| (t.1 <<< 2)
  let bs := t.2
  let t := bs.read_bits 5
  let r3 := r3 ||| t.1
  let bs := t.2
  let t := bs.read_bit
  let b3 := b3 ||| (t.1 <<< 3)
  let bs := t.2
  bc6h_two_region [(r0 : Int), (r1 : Int), (r2 : Int), (r3 : Int)]
    [(g0 : Int), (g1 : Int), (g2 : Int), (g3 : Int)]
    [(b0 : Int), (b1 : Int), (b2 : Int), (b3 : Int)] 7 bs

/-- Port of the `0b11010` arm (internal mode 8) of `decode_block_bc6h`. -/
def bc6h_parse_m8 (bs : BitStream) : BC6HParsed :=
  let r0 : Nat := 0; let r1 : Nat := 0; let r2 : Nat := 0; let r3 : Nat := 0
  let g0 : Nat := 0; let g1 : Nat := 0; let g2 : Nat := 0; let g3 : Nat := 0
  let b0 : Nat := 0; let b1 : Nat := 0; let b2 : Nat := 0; let b3 : Nat := 0
  let t := bs.read_bits 8
  let r0 := r0 ||| t.1
  let bs := t.2
  let t := bs.read_bit
  let b3 := b3 ||| (t.1 <<< 1)
  let bs := t.2
  let t := bs.read_bit
  let b2 := b2 ||| (t.1 <<< 4)
  let bs := t.2
  let t := bs.read_bits 8
  let g0 := g0 ||| t.1
  let bs := t.2
  let t := bs.read_bit
  let b2 := b2 ||| (t.1 <<< 5)
  let bs := t.2
  let t := bs.read_bit
  let g2 := g2 ||| (t.1 <<< 4)
  let bs := t.2
  let t := bs.read_bits 8
  let b0 := b0 ||| t.1
  let bs := t.2
  let t := bs.read_bit
  let b3 := b3 ||| (t.1 <<< 5)
  let bs := t.2
  let t := bs.read_bit
  let b3 := b3 ||| (t.1 <<< 4)
  let bs := t.2
  let t := bs.read_bits 5
  let r1 := r1 ||| t.1
  let bs := t.2
  let t := bs.read_bit
  let g3 := g3 ||| (t.1 <<< 4)
  let bs := t.2
  let t := bs.read_bits 4
  let g2 := g2 ||| t.1
  let bs := t.2
  let t := bs.read_bits 5
  let g1 := g1 ||| t.1
  let bs := t.2
  let t := bs.read_bit
  let b3 := b3 ||| t.1
  let bs := t.2
  let t := bs.read_bits 4
  let g3 := g3 ||| t.1
  let bs := t.2
  let t := bs.read_bits 6
  let b1 := b1 ||| t.1
  let bs := t.2
  let t := bs.read_bits 4
  let b2 := b2 ||| t.1
  let bs := t.2
  let t := bs.read_bits 5
  let r2 := r2 ||| t.1
  let bs := t.2
  let t := bs.read_bit
  let b3 := b3 ||| (t.1 <<< 2)
  let bs := t.2
  let t := bs.read_bits 5
  let r3 := r3 ||| t.1
  let bs := t.2
  let t := bs.read_bit
  let b3 := b3 ||| (t.1 <<< 3)
  let bs := t.2
  bc6h_two_region [(r0 : Int), (r1 : Int), (r2 : Int), (r3 : Int)]
    [(g0 : Int), (g1 : Int), (g2 : Int), (g3 : Int)]
    [(b0 : Int), (b1 : Int), (b2 : Int), (b3 : Int)] 8 bs

/-- Port of the `0b11110` arm (internal mode 9) of `decode_block_bc6h`. -/
def bc6h_parse_m9 (bs : BitStream) : BC6HParsed :=
  let r0 : Nat := 0; let r1 : Nat := 0; let r2 : Nat := 0; let r3 : Nat := 0
  let g0 : Nat := 0; let g1 : Nat := 0; let g2 : Nat := 0; let g3 : Nat := 0
  let b0 : Nat := 0; let b1 : Nat := 0; let b2 : Nat := 0; let b3 : Nat := 0
  let t := bs.read_bits 6
  let r0 := r0 ||| t.1
  let bs := t.2
  let t := bs.read_bit
  let g3 := g3 ||| (t.1 <<< 4)
  let bs := t.2
  let t := bs.read_bit
  let b3 := b3 ||| t.1
  let bs := t.2
  let t := bs.read_bit
  let b3 := b3 ||| (t.1 <<< 1)
  let bs := t.2
  let t := bs.read_bit
  let b2 := b2 ||| (t.1 <<< 4)
  let bs := t.2
  let t := bs.read_bits 6
  let g0 := g0 ||| t.1
  let bs := t.2
  let t := bs.read_bit
  let g2 := g2 ||| (t.1 <<< 5)
  let bs := t.2
  let t := bs.read_bit
  let b2 := b2 ||| (t.1 <<< 5)
  let bs := t.2
  let t := bs.read_bit
  let b3 := b3 ||| (t.1 <<< 2)
  let bs := t.2
  let t := bs.read_bit
  let g2 := g2 ||| (t.1 <<< 4)
  let bs := t.2
  let t := bs.read_bits 6
  let b0 := b0 ||| t.1
  let bs := t.2
  let t := bs.read_bit
  let g3 := g3 ||| (t.1 <<< 5)
  let bs := t.2
  let t := bs.read_bit
  let b3 := b3 ||| (t.1 <<< 3)
  let bs := t.2
  let t := bs.read_bit
  let b3 := b3 ||| (t.1 <<< 5)
  let bs := t.2
  let t := bs.read_bit
  let b3 := b3 ||| (t.1 <<< 4)
  let bs := t.2
  let t := bs.read_bits 6
  let r1 := r1 ||| t.1
  let bs := t.2
  let t := bs.read_bits 4
  let g2 := g2 ||| t.1
  let bs := t.2
  let t := bs.read_bits 6
  let g1 := g1 ||| t.1
  let bs := t.2
  let t := bs.read_bits 4
  let g3 := g3 ||| t.1
  let bs := t.2
  let t := bs.read_bits 6
  let b1 := b1 ||| t.1
  let bs := t.2
  let t := bs.read_bits 4
  let b2 := b2 ||| t.1
  let bs := t.2
  let t := bs.read_bits 6
  let r2 := r2 ||| t.1
  let bs := t.2
  let t := bs.read_bits 6
  let r3 := r3 ||| t.1
  let bs := t.2
  bc6h_two_region [(r0 : Int), (r1 : Int), (r2 : Int), (r3 : Int)]
    [(g0 : Int), (g1 : Int), (g2 : Int), (g3 : Int)]
    [(b0 : Int), (b1 : Int), (b2 : Int), (b3 : Int)] 9 bs

/-- Port of the `0b00011` arm (internal mode 10) of `decode_block_bc6h`. -/
def bc6h_parse_m10 (bs : BitStream) : BC6HParsed :=
  let r0 : Nat := 0; let r1 : Nat := 0; let r2 : Nat := 0; let r3 : Nat := 0
  let g0 : Nat := 0; let g1 : Nat := 0; let g2 : Nat := 0; let g3 : Nat := 0
  let b0 : Nat := 0; let b1 : Nat := 0; let b2 : Nat := 0; let b3 : Nat := 0
  let t := bs.read_bits 10
  let r0 := r0 ||| t.1
  let bs := t.2
  let t := bs.read_bits 10
  let g0 := g0 ||| t.1
  let bs := t.2
  let t := bs.read_bits 10
  let b0 := b0 ||| t.1
  let bs := t.2
  let t := bs.read_bits 10
  let r1 := r1 ||| t.1
  let bs := t.2
  let t := bs.read_bits 10
  let g1 := g1 ||| t.1
  let bs := t.2
  let t := bs.read_bits 10
  let b1 := b1 ||| t.1
  let bs := t.2
  bc6h_one_region [(r0 : Int), (r1 : Int), (r2 : Int), (r3 : Int)]
    [(g0 : Int), (g1 : Int), (g2 : Int), (g3 : Int)]
    [(b0 : Int), (b1 : Int), (b2 : Int), (b3 : Int)] 10 bs

/-- Port of the `0b00111` arm (internal mode 11) of `decode_block_bc6h`. -/
def bc6h_parse_m11 (bs : BitStream) : BC6HParsed :=
  let r0 : Nat := 0; let r1 : Nat := 0; let r2 : Nat := 0; let r3 : Nat := 0
  let g0 : Nat := 0; let g1 : Nat := 0; let g2 : Nat := 0; let g3 : Nat := 0
  let b0 : Nat := 0; let b1 : Nat := 0; let b2 : Nat := 0; let b3 : Nat := 0
  let t := bs.read_bits 10
  let r0 := r0 ||| t.1
  let bs := t.2
  let t := bs.read_bits 10
  let g0 := g0 ||| t.1
  let bs := t.2
  let t := bs.read_bits 10
  let b0 := b0 ||| t.1
  let bs := t.2
  let t := bs.read_bits 9
  let r1 := r1 ||| t.1
  let bs := t.2
  let t := bs.read_bit
  let r0 := r0 ||| (t.1 <<< 10)
  let bs := t.2
  let t := bs.read_bits 9
  let g1 := g1 ||| t.1
  let bs := t.2
  let t := bs.read_bit
  let g0 := g0 ||| (t.1 <<< 10)
  let bs := t.2
  let t := bs.read_bits 9
  let b1 := b1 ||| t.1
  let bs := t.2
  let t := bs.read_bit
  let b0 := b0 ||| (t.1 <<< 10)
  let bs := t.2
  bc6h_one_region [(r0 : Int), (r1 : Int), (r2 : Int), (r3 : Int)]
    [(g0 : Int), (g1 : Int), (g2 : Int), (g3 : Int)]
    [(b0 : Int), (b1 : Int), (b2 : Int), (b3 : Int)] 11 bs

/-- Port of the `0b01011` arm (internal mode 12) of `decode_block_bc6h`. -/
def bc6h_parse_m12 (bs : BitStream) : BC6HParsed :=
  let r0 : Nat := 0; let r1 : Nat := 0; let r2 : Nat := 0; let r3 : Nat := 0
  let g0 : Nat := 0; let g1 : Nat := 0; let g2 : Nat := 0; let g3 : Nat := 0
  let b0 : Nat := 0; let b1 : Nat := 0; let b2 : Nat := 0; let b3 : Nat := 0
  let t := bs.read_bits 10
  let r0 := r0 ||| t.1
  let bs := t.2
  let t := bs.read_bits 10
  let g0 := g0 ||| t.1
  let bs := t.2
  let t := bs.read_bits 10
  let b0 := b0 ||| t.1
  let bs := t.2
  let t := bs.read_bits 8
  let r1 := r1 ||| t.1
  let bs := t.2
  let t := bs.read_bits_reversed 2
  let r0 := r0 ||| (t.1 <<< 10)
  let bs := t.2
  let t := bs.read_bits 8
  let g1 := g1 ||| t.1
  let bs := t.2
  let t := bs.read_bits_reversed 2
  let g0 := g0 ||| (t.1 <<< 10)
  let bs := t.2
  let t := bs.read_bits 8
  let b1 := b1 ||| t.1
  let bs := t.2
  let t := bs.read_bits_reversed 2
  let b0 := b0 ||| (t.1 <<< 10)
  let bs := t.2
  bc6h_one_region [(r0 : Int), (r1 : Int), (r2 : Int), (r3 : Int)]
    [(g0 : Int), (g1 : Int), (g2 : Int), (g3 : Int)]
    [(b0 : Int), (b1 : Int), (b2 : Int), (b3 : Int)] 12 bs

/-- Port of the `0b01111` arm (internal mode 13) of `decode_block_bc6h`. -/
def bc6h_parse_m13 (bs : BitStream) : BC6HParsed :=
  let r0 : Nat := 0; let r1 : Nat := 0; let r2 : Nat := 0; let r3 : Nat := 0
  let g0 : Nat := 0; let g1 : Nat := 0; let g2 : Nat := 0; let g3 : Nat := 0
  let b0 : Nat := 0; let b1 : Nat := 0; let b2 : Nat := 0; let b3 : Nat := 0
  let t := bs.read_bits 10
  let r0 := r0 ||| t.1
  let bs := t.2
  let t := bs.read_bits 10
  let g0 := g0 ||| t.1
  let bs := t.2
  let t := bs.read_bits 10
  let b0 := b0 ||| t.1
  let bs := t.2
  let t := bs.read_bits 4
  let r1 := r1 ||| t.1
  let bs := t.2
  let t := bs.read_bits_reversed 6
  let r0 := r0 ||| (t.1 <<< 10)
  let bs := t.2
  let t := bs.read_bits 4
  let g1 := g1 ||| t.1
  let bs := t.2
  let t := bs.read_bits_reversed 6
  let g0 := g0 ||| (t.1 <<< 10)
  let bs := t.2
  let t := bs.read_bits 4
  let b1 := b1 ||| t.1
  let bs := t.2
  let t := bs.read_bits_reversed 6
  let b0 := b0 ||| (t.1 <<< 10)
  let bs := t.2
  bc6h_one_region [(r0 : Int), (r1 : Int), (r2 : Int), (r3 : Int)]
    [(g0 : Int), (g1 : Int), (g2 : Int), (g3 : Int)]
    [(b0 : Int), (b1 : Int), (b2 : Int), (b3 : Int)] 13 bs

/-- `n` zeroed entries starting at `start` (the effect of
`slice[start..start+n].fill(0)`). -/
def fillZero : List Nat → Nat → Nat → List Nat
  | buf, _, 0 => buf
  | buf, start, k + 1 => (fillZero buf start k).set (start + k) 0

/-- Checked `decompressed_block[start..start+12].fill(f16::ZERO)` of the
reserved-mode arm: the slicing panics when the range exceeds the output. -/
def fill12 (buf : List Nat) (start : Nat) : Option (List Nat) :=
  if start + 12 ≤ buf.length then some (fillZero buf start 12) else none

/-- The reserved-mode arm of `decode_block_bc6h`: writes one all-zero row of
12 half-float components per tile row. -/
def bc6h_fill_zero (decompressed : List Nat) (pitch : Nat) : Option (List Nat) := do
  let d0 ← fill12 decompressed (0 * pitch)
  let d1 ← fill12 d0 (1 * pitch)
  let d2 ← fill12 d1 (2 * pitch)
  fill12 d2 (3 * pitch)

/-- The per-channel endpoint arithmetic of `decode_block_bc6h` (sign
extension of W for the signed format, sign extension of the deltas, inverse
delta transform against W, unquantization), acting on the four endpoint
slots of one channel. -/
def bc6h_channel_math (ch : List Int) (w0Bits deltaBits n2 mode : Nat)
    (isSigned : Bool) : List Int :=
  let ch := if isSigned then ch.set 0 (extend_sign (ch.getD 0 0) w0Bits) else ch
  let ch := if (mode ≠ 9 ∧ mode ≠ 10) ∨ isSigned = true then
      ch.mapIdx (fun i v => if 1 ≤ i ∧ i < n2 then extend_sign v deltaBits else v)
    else ch
  let ch := if mode ≠ 9 ∧ mode ≠ 10 then
      ch.mapIdx (fun i v =>
        if 1 ≤ i ∧ i < n2 then transform_inverse v (ch.getD 0 0) w0Bits isSigned else v)
    else ch
  ch.mapIdx (fun i v => if i < n2 then unquantize v w0Bits isSigned else v)

theorem bc6h_channel_math_length (ch : List Int) (w0Bits deltaBits n2 mode : Nat)
    (isSigned : Bool) :
    (bc6h_channel_math ch w0Bits deltaBits n2 mode isSigned).length = ch.length := by
  unfold bc6h_channel_math
  split <;> split <;> split <;> simp

/-- The per-pixel loop of `decode_block_bc6h`: partition-set lookup (with
the fix-up index reading one bit less), selector read, interpolation of each
channel and the three half-float stores. -/
def bc6h_partition_set (mode partition i j : Nat) : Option Nat :=
  if mode ≥ 10 then pure (if i ||| j = 0 then 128 else 0)
  else do
    let tbl ← PARTITION_SETS_BC6H[partition]?
    let row ← tbl[i]?
    row[j]?

def bc6hPixelLoop (mode partition : Nat) (r g b : List Int) (weights : List Int)
    (isSigned : Bool) (pitch : Nat) :
    List (Nat × Nat) → BitStream → List Nat → Option (List Nat)
  | [], _, buf => some buf
  | (i, j) :: rest, bs, buf => do
      let partitionSet ← bc6h_partition_set mode partition i j
      let indexBits := (if mode ≥ 10 then 4 else 3) -
        (if partitionSet &&& 0x80 ≠ 0 then 1 else 0)
      let partitionSet := partitionSet &&& 0x01
      let t := bs.read_bits indexBits
      let index := t.1
      let bs := t.2
      let epi := partitionSet * 2
      let ra ← r[epi]?
      let rb ← r[epi + 1]?
      let ga ← g[epi]?
      let gb ← g[epi + 1]?
      let ba ← b[epi]?
      let bb ← b[epi + 1]?
      let vr ← interpolate ra rb weights index
      let vg ← interpolate ga gb weights index
      let vb ← interpolate ba bb weights index
      let out := i * pitch + j * 3
      let buf ← setByte? buf out (finish_unquantize vr isSigned)
      let buf ← setByte? buf (out + 1) (finish_unquantize vg isSigned)
      let buf ← setByte? buf (out + 2) (finish_unquantize vb isSigned)
      bc6hPixelLoop mode partition r g b weights isSigned pitch rest bs buf

/-- The mode-independent tail of `decode_block_bc6h`: bit-count lookups,
endpoint arithmetic, weight-table choice and the pixel loop. -/
def bc6h_decode_parsed (p : BC6HParsed) (isSigned : Bool)
    (decompressed : List Nat) (pitch : Nat) : Option (List Nat) := do
  let numPartitions := if p.mode ≥ 10 then 0 else 1
  let row0 ← ACTUAL_BITS_COUNT_BC6H[0]?
  let actualBits0 ← row0[p.mode]?
  let row1 ← ACTUAL_BITS_COUNT_BC6H[1]?
  let rBits ← row1[p.mode]?
  let row2 ← ACTUAL_BITS_COUNT_BC6H[2]?
  let gBits ← row2[p.mode]?
  let row3 ← ACTUAL_BITS_COUNT_BC6H[3]?
  let bBits ← row3[p.mode]?
  let n2 := (numPartitions + 1) * 2
  let r := bc6h_channel_math p.r actualBits0 rBits n2 p.mode isSigned
  let g := bc6h_channel_math p.g actualBits0 gBits n2 p.mode isSigned
  let b := bc6h_channel_math p.b actualBits0 bBits n2 p.mode isSigned
  let weights := if p.mode ≥ 10 then WEIGHT4 else WEIGHT3
  bc6hPixelLoop p.mode p.partition r g b weights isSigned pitch pixelPairs p.bs decompressed

/-- The mode-prefix read of `decode_block_bc6h`: two bits, and three more
when they exceed 1. -/
def bc6h_mode_of (bs : BitStream) : Nat × BitStream :=
  let t := bs.read_bits 2
  if t.1 > 1 then
    let t2 := t.2.read_bits 3
    (t.1 ||| (t2.1 <<< 2), t2.2)
  else t

/-- The mode dispatch of `decode_block_bc6h` on an already-loaded bit
stream. -/
def bc6h_dispatch (mode : Nat) (bs : BitStream) (isSigned : Bool)
    (decompressed : List Nat) (pitch : Nat) : Option (List Nat) :=
  if mode = 0b00 then bc6h_decode_parsed (bc6h_parse_m0 bs) isSigned decompressed pitch
  else if mode = 0b01 then bc6h_decode_parsed (bc6h_parse_m1 bs) isSigned decompressed pitch
  else if mode = 0b00010 then bc6h_decode_parsed (bc6h_parse_m2 bs) isSigned decompressed pitch
  else if mode = 0b00110 then bc6h_decode_parsed (bc6h_parse_m3 bs) isSigned decompressed pitch
  else if mode = 0b01010 then bc6h_decode_parsed (bc6h_parse_m4 bs) isSigned decompressed pitch
  else if mode = 0b01110 then bc6h_decode_parsed (bc6h_parse_m5 bs) isSigned decompressed pitch
  else if mode = 0b10010 then bc6h_decode_parsed (bc6h_parse_m6 bs) isSigned decompressed pitch
  else if mode = 0b10110 then bc6h_decode_parsed (bc6h_parse_m7 bs) isSigned decompressed pitch
  else if mode = 0b11010 then bc6h_decode_parsed (bc6h_parse_m8 bs) isSigned decompressed pitch
  else if mode = 0b11110 then bc6h_decode_parsed (bc6h_parse_m9 bs) isSigned decompressed pitch
  else if mode = 0b00011 then bc6h_decode_parsed (bc6h_parse_m10 bs) isSigned decompressed pitch
  else if mode = 0b00111 then bc6h_decode_parsed (bc6h_parse_m11 bs) isSigned decompressed pitch
  else if mode = 0b01011 then bc6h_decode_parsed (bc6h_parse_m12 bs) isSigned decompressed pitch
  else if mode = 0b01111 then bc6h_decode_parsed (bc6h_parse_m13 bs) isSigned decompressed pitch
  else bc6h_fill_zero decompressed pitch

/-- Port of `decode_block_bc6h`: the output tile holds `u16` half-float bit
patterns (three components per pixel), `pitch` many per row. -/
def decode_block_bc6h (compressed : List Nat) (decompressed : List Nat)
    (pitch : Nat) (isSigned : Bool) : Option (List Nat) := do
  let bs ← BitStream.new compressed
  bc6h_dispatch (bc6h_mode_of bs).1 (bc6h_mode_of bs).2 isSigned decompressed pitch

/-! ## BC7 block decoder (src/decode/block.rs) -/

/-- The `ACTUAL_BITS_COUNT` table of `decode_block_bc7`: per mode, the RGB
endpoint bit count and the alpha endpoint bit count. -/
def ACTUAL_BITS_COUNT_BC7 : List (List Nat) := [
  [4, 6, 5, 7, 5, 7, 7, 5],
  [0, 0, 0, 0, 6, 8, 7, 5]]

/-- The `MODE_HAS_P_BITS` bit set of `decode_block_bc7`. -/
def MODE_HAS_P_BITS : Nat := 0b11001011

/-- The 2-bit interpolation weight table `WEIGHT2`. -/
def WEIGHT2 : List Int := [0, 21, 43, 64]

/-- The two 64-entry partition tables of `decode_block_bc7` (2-subset and
3-subset); fix-up indices carry bit 0x80. -/
def PARTITION_SETS_BC7 : List (List (List (List Nat))) := [[
  [[128, 0, 1, 1], [0, 0, 1, 1], [0, 0, 1, 1], [0, 0, 1, 129]],
  [[128, 0, 0, 1], [0, 0, 0, 1], [0, 0, 0, 1], [0, 0, 0, 129]],
  [[128, 1, 1, 1], [0, 1, 1, 1], [0, 1, 1, 1], [0, 1, 1, 129]],
  [[128, 0, 0, 1], [0, 0, 1, 1], [0, 0, 1, 1], [0, 1, 1, 129]],
  [[128, 0, 0, 0], [0, 0, 0, 1], [0, 0, 0, 1], [0, 0, 1, 129]],
  [[128, 0, 1, 1], [0, 1, 1, 1], [0, 1, 1, 1], [1, 1, 1, 129]],
  [[128, 0, 0, 1], [0, 0, 1, 1], [0, 1, 1, 1], [1, 1, 1, 129]],
  [[128, 0, 0, 0], [0, 0, 0, 1], [0, 0, 1, 1], [0, 1, 1, 129]],
  [[128, 0, 0, 0], [0, 0, 0, 0], [0, 0, 0, 1], [0, 0, 1, 129]],
  [[128, 0, 1, 1], [0, 1, 1, 1], [1, 1, 1, 1], [1, 1, 1, 129]],
  [[128, 0, 0, 0], [0, 0, 0, 1], [0, 1, 1, 1], [1, 1, 1, 129]],
  [[128, 0, 0, 0], [0, 0, 0, 0], [0, 0, 0, 1], [0, 1, 1, 129]],
  [[128, 0, 0, 1], [0, 1, 1, 1], [1, 1, 1, 1], [1, 1, 1, 129]],
  [[128, 0, 0, 0], [0, 0, 0, 0], [1, 1, 1, 1], [1, 1, 1, 129]],
  [[128, 0, 0, 0], [1, 1, 1, 1], [1, 1, 1, 1], [1, 1, 1, 129]],
  [[128, 0, 0, 0], [0, 0, 0, 0], [0, 0, 0, 0], [1, 1, 1, 129]],
  [[128, 0, 0, 0], [1, 0, 0, 0], [1, 1, 1, 0], [1, 1, 1, 129]],
  [[128, 1, 129, 1], [0, 0, 0, 1], [0, 0, 0, 0], [0, 0, 0, 0]],
  [[128, 0, 0, 0], [0, 0, 0, 0], [129, 0, 0, 0], [1, 1, 1, 0]],
  [[128, 1, 129, 1], [0, 0, 1, 1], [0, 0, 0, 1], [0, 0, 0, 0]],
  [[128, 0, 129, 1], [0, 0, 0, 1], [0, 0, 0, 0], [0, 0, 0, 0]],
  [[128, 0, 0, 0], [1, 0, 0, 0], [129, 1, 0, 0], [1, 1, 1, 0]],
  [[128, 0, 0, 0], [0, 0, 0, 0], [129, 0, 0, 0], [1, 1, 0, 0]],
  [[128, 1, 1, 1], [0, 0, 1, 1], [0, 0, 1, 1], [0, 0, 0, 129]],
  [[128, 0, 129, 1], [0, 0, 0, 1], [0, 0, 0, 1], [0, 0, 0, 0]],
  [[128, 0, 0, 0], [1, 0, 0, 0], [129, 0, 0, 0], [1, 1, 0, 0]],
  [[128, 1, 129, 0], [0, 1, 1, 0], [0, 1, 1, 0], [0, 1, 1, 0]],
  [[128, 0, 129, 1], [0, 1, 1, 0], [0, 1, 1, 0], [1, 1, 0, 0]],
  [[128, 0, 0, 1], [0, 1, 1, 1], [129, 1, 1, 0], [1, 0, 0, 0]],
  [[128, 0, 0, 0], [1, 1, 1, 1], [129, 1, 1, 1], [0, 0, 0, 0]],
  [[128, 1, 129, 1], [0, 0, 0, 1], [1, 0, 0, 0], [1, 1, 1, 0]],
  [[128, 0, 129, 1], [1, 0, 0, 1], [1, 0, 0, 1], [1, 1, 0, 0]],
  [[128, 1, 0, 1], [0, 1, 0, 1], [0, 1, 0, 1], [0, 1, 0, 129]],
  [[128, 0, 0, 0], [1, 1, 1, 1], [0, 0, 0, 0], [1, 1, 1, 129]],
  [[128, 1, 0, 1], [1, 0, 129, 0], [0, 1, 0, 1], [1, 0, 1, 0]],
  [[128, 0, 1, 1], [0, 0, 1, 1], [129, 1, 0, 0], [1, 1, 0, 0]],
  [[128, 0, 129, 1], [1, 1, 0, 0], [0, 0, 1, 1], [1, 1, 0, 0]],
  [[128, 1, 0, 1], [0, 1, 0, 1], [129, 0, 1, 0], [1, 0, 1, 0]],
  [[128, 1, 1, 0], [1, 0, 0, 1], [0, 1, 1, 0], [1, 0, 0, 129]],
  [[128, 1, 0, 1], [1, 0, 1, 0], [1, 0, 1, 0], [0, 1, 0, 129]],
  [[128, 1, 129, 1], [0, 0, 1, 1], [1, 1, 0, 0], [1, 1, 1, 0]],
  [[128, 0, 0, 1], [0, 0, 1, 1], [129, 1, 0, 0], [1, 0, 0, 0]],
  [[128, 0, 129, 1], [0, 0, 1, 0], [0, 1, 0, 0], [1, 1, 0, 0]],
  [[128, 0, 129, 1], [1, 0, 1, 1], [1, 1, 0, 1], [1, 1, 0, 0]],
  [[128, 1, 129, 0], [1, 0, 0, 1], [1, 0, 0, 1], [0, 1, 1, 0]],
  [[128, 0, 1, 1], [1, 1, 0, 0], [1, 1, 0, 0], [0, 0, 1, 129]],
  [[128, 1, 1, 0], [0, 1, 1, 0], [1, 0, 0, 1], [1, 0, 0, 129]],
  [[128, 0, 0, 0], [0, 1, 129, 0], [0, 1, 1, 0], [0, 0, 0, 0]],
  [[128, 1, 0, 0], [1, 1, 129, 0], [0, 1, 0, 0], [0, 0, 0, 0]],
  [[128, 0, 129, 0], [0, 1, 1, 1], [0, 0, 1, 0], [0, 0, 0, 0]],
  [[128, 0, 0, 0], [0, 0, 129, 0], [0, 1, 1, 1], [0, 0, 1, 0]],
  [[128, 0, 0, 0], [0, 1, 0, 0], [129, 1, 1, 0], [0, 1, 0, 0]],
  [[128, 1, 1, 0], [1, 1, 0, 0], [1, 0, 0, 1], [0, 0, 1, 129]],
  [[128, 0, 1, 1], [0, 1, 1, 0], [1, 1, 0, 0], [1, 0, 0, 129]],
  [[128, 1, 129, 0], [0, 0, 1, 1], [1, 0, 0, 1], [1, 1, 0, 0]],
  [[128, 0, 129, 1], [1, 0, 0, 1], [1, 1, 0, 0], [0, 1, 1, 0]],
  [[128, 1, 1, 0], [1, 1, 0, 0], [1, 1, 0, 0], [1, 0, 0, 129]],
  [[128, 1, 1, 0], [0, 0, 1, 1], [0, 0, 1, 1], [1, 0, 0, 129]],
  [[128, 1, 1, 1], [1, 1, 1, 0], [1, 0, 0, 0], [0, 0, 0, 129]],
  [[128, 0, 0, 1], [1, 0, 0, 0], [1, 1, 1, 0], [0, 1, 1, 129]],
  [[128, 0, 0, 0], [1, 1, 1, 1], [0, 0, 1, 1], [0, 0, 1, 129]],
  [[128, 0, 129, 1], [0, 0, 1, 1], [1, 1, 1, 1], [0, 0, 0, 0]],
  [[128, 0, 129, 0], [0, 0, 1, 0], [1, 1, 1, 0], [1, 1, 1, 0]],
  [[128, 1, 0, 0], [0, 1, 0, 0], [0, 1, 1, 1], [0, 1, 1, 129]]],[
  [[128, 0, 1, 129], [0, 0, 1, 1], [0, 2, 2, 1], [2, 2, 2, 130]],
  [[128, 0, 0, 129], [0, 0, 1, 1], [130, 2, 1, 1], [2, 2, 2, 1]],
  [[128, 0, 0, 0], [2, 0, 0, 1], [130, 2, 1, 1], [2, 2, 1, 129]],
  [[128, 2, 2, 130], [0, 0, 2, 2], [0, 0, 1, 1], [0, 1, 1, 129]],
  [[128, 0, 0, 0], [0, 0, 0, 0], [129, 1, 2, 2], [1, 1, 2, 130]],
  [[128, 0, 1, 129], [0, 0, 1, 1], [0, 0, 2, 2], [0, 0, 2, 130]],
  [[128, 0, 2, 130], [0, 0, 2, 2], [1, 1, 1, 1], [1, 1, 1, 129]],
  [[128, 0, 1, 1], [0, 0, 1, 1], [130, 2, 1, 1], [2, 2, 1, 129]],
  [[128, 0, 0, 0], [0, 0, 0, 0], [129, 1, 1, 1], [2, 2, 2, 130]],
  [[128, 0, 0, 0], [1, 1, 1, 1], [129, 1, 1, 1], [2, 2, 2, 130]],
  [[128, 0, 0, 0], [1, 1, 129, 1], [2, 2, 2, 2], [2, 2, 2, 130]],
  [[128, 0, 1, 2], [0, 0, 129, 2], [0, 0, 1, 2], [0, 0, 1, 130]],
  [[128, 1, 1, 2], [0, 1, 129, 2], [0, 1, 1, 2], [0, 1, 1, 130]],
  [[128, 1, 2, 2], [0, 129, 2, 2], [0, 1, 2, 2], [0, 1, 2, 130]],
  [[128, 0, 1, 129], [0, 1, 1, 2], [1, 1, 2, 2], [1, 2, 2, 130]],
  [[128, 0, 1, 129], [2, 0, 0, 1], [130, 2, 0, 0], [2, 2, 2, 0]],
  [[128, 0, 0, 129], [0, 0, 1, 1], [0, 1, 1, 2], [1, 1, 2, 130]],
  [[128, 1, 1, 129], [0, 0, 1, 1], [130, 0, 0, 1], [2, 2, 0, 0]],
  [[128, 0, 0, 0], [1, 1, 2, 2], [129, 1, 2, 2], [1, 1, 2, 130]],
  [[128, 0, 2, 130], [0, 0, 2, 2], [0, 0, 2, 2], [1, 1, 1, 129]],
  [[128, 1, 1, 129], [0, 1, 1, 1], [0, 2, 2, 2], [0, 2, 2, 130]],
  [[128, 0, 0, 129], [0, 0, 0, 1], [130, 2, 2, 1], [2, 2, 2, 1]],
  [[128, 0, 0, 0], [0, 0, 129, 1], [0, 1, 2, 2], [0, 1, 2, 130]],
  [[128, 0, 0, 0], [1, 1, 0, 0], [130, 2, 129, 0], [2, 2, 1, 0]],
  [[128, 1, 2, 130], [0, 129, 2, 2], [0, 0, 1, 1], [0, 0, 0, 0]],
  [[128, 0, 1, 2], [0, 0, 1, 2], [129, 1, 2, 2], [2, 2, 2, 130]],
  [[128, 1, 1, 0], [1, 2, 130, 1], [129, 2, 2, 1], [0, 1, 1, 0]],
  [[128, 0, 0, 0], [0, 1, 129, 0], [1, 2, 130, 1], [1, 2, 2, 1]],
  [[128, 0, 2, 2], [1, 1, 0, 2], [129, 1, 0, 2], [0, 0, 2, 130]],
  [[128, 1, 1, 0], [0, 129, 1, 0], [2, 0, 0, 2], [2, 2, 2, 130]],
  [[128, 0, 1, 1], [0, 1, 2, 2], [0, 1, 130, 2], [0, 0, 1, 129]],
  [[128, 0, 0, 0], [2, 0, 0, 0], [130, 2, 1, 1], [2, 2, 2, 129]],
  [[128, 0, 0, 0], [0, 0, 0, 2], [129, 1, 2, 2], [1, 2, 2, 130]],
  [[128, 2, 2, 130], [0, 0, 2, 2], [0, 0, 1, 2], [0, 0, 1, 129]],
  [[128, 0, 1, 129], [0, 0, 1, 2], [0, 0, 2, 2], [0, 2, 2, 130]],
  [[128, 1, 2, 0], [0, 129, 2, 0], [0, 1, 130, 0], [0, 1, 2, 0]],
  [[128, 0, 0, 0], [1, 1, 129, 1], [2, 2, 130, 2], [0, 0, 0, 0]],
  [[128, 1, 2, 0], [1, 2, 0, 1], [130, 0, 129, 2], [0, 1, 2, 0]],
  [[128, 1, 2, 0], [2, 0, 1, 2], [129, 130, 0, 1], [0, 1, 2, 0]],
  [[128, 0, 1, 1], [2, 2, 0, 0], [1, 1, 130, 2], [0, 0, 1, 129]],
  [[128, 0, 1, 1], [1, 1, 130, 2], [2, 2, 0, 0], [0, 0, 1, 129]],
  [[128, 1, 0, 129], [0, 1, 0, 1], [2, 2, 2, 2], [2, 2, 2, 130]],
  [[128, 0, 0, 0], [0, 0, 0, 0], [130, 1, 2, 1], [2, 1, 2, 129]],
  [[128, 0, 2, 2], [1, 129, 2, 2], [0, 0, 2, 2], [1, 1, 2, 130]],
  [[128, 0, 2, 130], [0, 0, 1, 1], [0, 0, 2, 2], [0, 0, 1, 129]],
  [[128, 2, 2, 0], [1, 2, 130, 1], [0, 2, 2, 0], [1, 2, 2, 129]],
  [[128, 1, 0, 1], [2, 2, 130, 2], [2, 2, 2, 2], [0, 1, 0, 129]],
  [[128, 0, 0, 0], [2, 1, 2, 1], [130, 1, 2, 1], [2, 1, 2, 129]],
  [[128, 1, 0, 129], [0, 1, 0, 1], [0, 1, 0, 1], [2, 2, 2, 130]],
  [[128, 2, 2, 130], [0, 1, 1, 1], [0, 2, 2, 2], [0, 1, 1, 129]],
  [[128, 0, 0, 2], [1, 129, 1, 2], [0, 0, 0, 2], [1, 1, 1, 130]],
  [[128, 0, 0, 0], [2, 129, 1, 2], [2, 1, 1, 2], [2, 1, 1, 130]],
  [[128, 2, 2, 2], [0, 129, 1, 1], [0, 1, 1, 1], [0, 2, 2, 130]],
  [[128, 0, 0, 2], [1, 1, 1, 2], [129, 1, 1, 2], [0, 0, 0, 130]],
  [[128, 1, 1, 0], [0, 129, 1, 0], [0, 1, 1, 0], [2, 2, 2, 130]],
  [[128, 0, 0, 0], [0, 0, 0, 0], [2, 1, 129, 2], [2, 1, 1, 130]],
  [[128, 1, 1, 0], [0, 129, 1, 0], [2, 2, 2, 2], [2, 2, 2, 130]],
  [[128, 0, 2, 2], [0, 0, 1, 1], [0, 0, 129, 1], [0, 0, 2, 130]],
  [[128, 0, 2, 2], [1, 1, 2, 2], [129, 1, 2, 2], [0, 0, 2, 130]],
  [[128, 0, 0, 0], [0, 0, 0, 0], [0, 0, 0, 0], [2, 129, 1, 130]],
  [[128, 0, 0, 130], [0, 0, 0, 1], [0, 0, 0, 2], [0, 0, 0, 129]],
  [[128, 2, 2, 2], [1, 2, 2, 2], [0, 2, 2, 2], [129, 2, 2, 130]],
  [[128, 1, 0, 129], [2, 2, 2, 2], [2, 2, 2, 2], [2, 2, 2, 130]],
  [[128, 1, 1, 129], [2, 0, 1, 1], [130, 2, 0, 1], [2, 2, 2, 0]]]]

/-- The `i32` bitwise or of the nonnegative values the BC7 decoder
manipulates. -/
def lorI (a b : Int) : Int := ((a.toNat ||| b.toNat : Nat) : Int)

/-- The mode-finding loop of `decode_block_bc7`
(`while mode < 8 && read_bit() == 0 { mode += 1 }`), with enough fuel for
its at most eight iterations. -/
def bc7_mode_loop : Nat → Nat → BitStream → Nat × BitStream
  | 0, mode, bs => (mode, bs)
  | fuel + 1, mode, bs =>
      if mode < 8 then
        let t := bs.read_bit
        if t.1 = 0 then bc7_mode_loop fuel (mode + 1) t.2 else (mode, t.2)
      else (mode, bs)

/-- The invalid-mode arm of `decode_block_bc7`: stores four zero bytes
(transparent black) per pixel. -/
def bc7ZeroFillLoop (pitch : Nat) : List (Nat × Nat) → List Nat → Option (List Nat)
  | [], buf => some buf
  | (i, j) :: rest, buf => do
      let buf ← writeU32LE buf (i * pitch + j * 4) 0
      bc7ZeroFillLoop pitch rest buf

/-- The invalid-mode (mode >= 8) path of `decode_block_bc7`. -/
def bc7_zero_fill (decompressed : List Nat) (pitch : Nat) : Option (List Nat) :=
  bc7ZeroFillLoop pitch pixelPairs decompressed

/-- Checked update `endpoints[j][i] = v` of the 6x4 endpoint array. -/
def set2? (eps : List (List Int)) (j i : Nat) (v : Int) : Option (List (List Int)) := do
  let row ← eps[j]?
  if i < row.length then pure (eps.set j (row.set i v)) else none

/-- The inner endpoint-read loop of `decode_block_bc7`:
`for j in 0..num_endpoints { endpoints[j][i] = read_bits(bits) }`. -/
def bc7ReadChannelLoop (bits i : Nat) :
    List Nat → List (List Int) → BitStream → Option (List (List Int) × BitStream)
  | [], eps, bs => some (eps, bs)
  | j :: rest, eps, bs => do
      let t := bs.read_bits bits
      let eps ← set2? eps j i (t.1 : Int)
      bc7ReadChannelLoop bits i rest eps t.2

/-- The RGB endpoint-read loops of `decode_block_bc7` (channel major). -/
def bc7ReadRGB (bits numEndpoints : Nat) (eps : List (List Int)) (bs : BitStream) :
    Option (List (List Int) × BitStream) := do
  let r0 ← bc7ReadChannelLoop bits 0 (List.range numEndpoints) eps bs
  let r1 ← bc7ReadChannelLoop bits 1 (List.range numEndpoints) r0.1 r0.2
  bc7ReadChannelLoop bits 2 (List.range numEndpoints) r1.1 r1.2

/-- The unique-P-bit loop of `decode_block_bc7`: one bit per endpoint, or-ed
into every component. -/
def bc7PBitLoop : List Nat → List (List Int) → BitStream → Option (List (List Int) × BitStream)
  | [], eps, bs => some (eps, bs)
  | j :: rest, eps, bs => do
      let t := bs.read_bit
      let row ← eps[j]?
      let eps := eps.set j (row.map (fun c => lorI c (t.1 : Int)))
      bc7PBitLoop rest eps t.2

/-- The component-wise precision adjustment of `decode_block_bc7`: left
shift so the MSB lies in bit 7, then replicate the MSB into the revealed low
bits (`x |= x >> precision`). -/
def bc7PrecisionAdjust (colorPrec alphaPrec numEndpoints : Nat)
    (eps : List (List Int)) : List (List Int) :=
  eps.mapIdx (fun j row =>
    if j < numEndpoints then
      row.mapIdx (fun k c =>
        let prec := if k < 3 then colorPrec else alphaPrec
        let c := c * 2 ^ (8 - prec)
        lorI c (asr c prec))
    else row)

/-- The partition-set lookup of `decode_block_bc7` (the single-subset case
uses the implicit pattern with fix-up at pixel 0). -/
def bc7PartitionSet (numPartitions partition i j : Nat) : Option Nat :=
  if numPartitions = 1 then pure (if i ||| j = 0 then 128 else 0)
  else do
    let t1 ← PARTITION_SETS_BC7[numPartitions - 2]?
    let t2 ← t1[partition]?
    let row ← t2[i]?
    row[j]?

/-- Pass 1 of `decode_block_bc7`: collect the color indices in row-major
order, fix-up indices reading one bit less. -/
def bc7IndexLoop (numPartitions partition mode : Nat) :
    List (Nat × Nat) → BitStream → List Nat → Option (List Nat × BitStream)
  | [], bs, acc => some (acc, bs)
  | (i, j) :: rest, bs, acc => do
      let pset ← bc7PartitionSet numPartitions partition i j
      let idxBits0 : Nat := if mode = 0 ∨ mode = 1 then 3 else if mode = 6 then 4 else 2
      let idxBits := idxBits0 - (if pset &&& 0x80 ≠ 0 then 1 else 0)
      let t := bs.read_bits idxBits
      bc7IndexLoop numPartitions partition mode rest t.2 (acc ++ [t.1])

/-- One channel interpolation of `decode_block_bc7`. -/
def bc7InterpChannel (e0 e1 : List Int) (k : Nat) (weights : List Int) (index : Nat) :
    Option Int := do
  let a ← e0[k]?
  let b ← e1[k]?
  interpolate a b weights index

/-- The per-pixel interpolation step of pass 2 of `decode_block_bc7`: either
a single index stream, or primary/secondary streams selected by the mode-4
`index_selection_bit`. -/
def bc7Pass2Interp (idxSel : Nat) (e0 e1 : List Int) (weights weights2 : List Int)
    (indexBits2 i j index : Nat) (bs : BitStream) :
    Option (Int × Int × Int × Int × BitStream) :=
  if indexBits2 = 0 then do
    let r ← bc7InterpChannel e0 e1 0 weights index
    let g ← bc7InterpChannel e0 e1 1 weights index
    let b ← bc7InterpChannel e0 e1 2 weights index
    let a ← bc7InterpChannel e0 e1 3 weights index
    pure (r, g, b, a, bs)
  else do
    let t := bs.read_bits (if i ||| j = 0 then indexBits2 - 1 else indexBits2)
    let index2 := t.1
    if idxSel = 0 then do
      let r ← bc7InterpChannel e0 e1 0 weights index
      let g ← bc7InterpChannel e0 e1 1 weights index
      let b ← bc7InterpChannel e0 e1 2 weights index
      let a ← bc7InterpChannel e0 e1 3 weights2 index2
      pure (r, g, b, a, t.2)
    else do
      let r ← bc7InterpChannel e0 e1 0 weights2 index2
      let g ← bc7InterpChannel e0 e1 1 weights2 index2
      let b ← bc7InterpChannel e0 e1 2 weights2 index2
      let a ← bc7InterpChannel e0 e1 3 weights index
      pure (r, g, b, a, t.2)

/-- Pass 2 of `decode_block_bc7`: optional secondary indices, interpolation
(the mode 4 `index_selection_bit` swaps which index stream drives color vs
alpha), rotation, and the four byte stores per pixel. -/
def bc7Pass2Loop (numPartitions partition rotation idxSel : Nat)
    (eps : List (List Int)) (weights weights2 : List Int) (indexBits2 : Nat)
    (pitch : Nat) :
    List (Nat × Nat) → List Nat → BitStream → List Nat → Option (List Nat)
  | [], _, _, buf => some buf
  | (i, j) :: rest, indices, bs, buf => do
      let pset0 ← bc7PartitionSet numPartitions partition i j
      let pset := pset0 &&& 0x03
      let index ← indices[i * 4 + j]?
      let e0 ← eps[pset * 2]?
      let e1 ← eps[pset * 2 + 1]?
      let res ← bc7Pass2Interp idxSel e0 e1 weights weights2 indexBits2 i j index bs
      let r := res.1
      let g := res.2.1
      let b := res.2.2.1
      let a := res.2.2.2.1
      let bs := res.2.2.2.2
      let rgba :=
        if rotation = 1 then (a, g, b, r)
        else if rotation = 2 then (r, a, b, g)
        else if rotation = 3 then (r, g, a, b)
        else (r, g, b, a)
      let offset := i * pitch + j * 4
      let buf ← setByte? buf offset (rgba.1.emod 256).toNat
      let buf ← setByte? buf (offset + 1) (rgba.2.1.emod 256).toNat
      let buf ← setByte? buf (offset + 2) (rgba.2.2.1.emod 256).toNat
      let buf ← setByte? buf (offset + 3) (rgba.2.2.2.emod 256).toNat
      bc7Pass2Loop numPartitions partition rotation idxSel eps weights weights2
        indexBits2 pitch rest indices bs buf

/-- The partition-count / partition-index prefix reads of
`decode_block_bc7` (modes 0-3 and 7). -/
def bc7_partition_info (mode : Nat) (bs : BitStream) : Nat × Nat × BitStream :=
  if mode = 0 ∨ mode = 1 ∨ mode = 2 ∨ mode = 3 ∨ mode = 7 then
    let num := if mode = 0 ∨ mode = 2 then 3 else 2
    let t := bs.read_bits (if mode = 0 then 4 else 6)
    (num, t.1, t.2)
  else (1, 0, bs)

/-- The rotation / index-selection prefix reads of `decode_block_bc7`
(modes 4 and 5). -/
def bc7_rotation_info (mode : Nat) (bs : BitStream) : Nat × Nat × BitStream :=
  if mode = 4 ∨ mode = 5 then
    let t := bs.read_bits 2
    if mode = 4 then
      let t2 := t.2.read_bit
      (t.1, t2.1, t2.2)
    else (t.1, 0, t.2)
  else (0, 0, bs)

/-- The alpha endpoint reads of `decode_block_bc7` (modes with alpha
bits). -/
def bc7_alpha_phase (alphaBits numEndpoints : Nat) (eps : List (List Int))
    (bs : BitStream) : Option (List (List Int) × BitStream) :=
  if alphaBits > 0 then bc7ReadChannelLoop alphaBits 3 (List.range numEndpoints) eps bs
  else pure (eps, bs)

/-- The P-bit phase of `decode_block_bc7`: endpoints are doubled, then the
shared (mode 1) or unique P bits are or-ed in. -/
def bc7_pbit_phase (mode numEndpoints : Nat) (eps : List (List Int))
    (bs : BitStream) : Option (List (List Int) × BitStream) :=
  if mode = 0 ∨ mode = 1 ∨ mode = 3 ∨ mode = 6 ∨ mode = 7 then
    let eps := eps.mapIdx (fun j row =>
      if j < numEndpoints then row.map (fun c => c * 2) else row)
    if mode = 1 then
      let t1 := bs.read_bit
      let t2 := t1.2.read_bit
      let bi := (t1.1 : Int)
      let bj := (t2.1 : Int)
      let eps := eps.mapIdx (fun jj row =>
        if jj < 4 then
          row.mapIdx (fun k c => if k < 3 then lorI c (if jj < 2 then bi else bj) else c)
        else row)
      pure (eps, t2.2)
    else if MODE_HAS_P_BITS &&& (1 <<< mode) ≠ 0 then
      bc7PBitLoop (List.range numEndpoints) eps bs
    else pure (eps, bs)
  else pure (eps, bs)

/-- The body of `decode_block_bc7` for a valid mode (< 8) on the advanced
bit stream. -/
def bc7_decode_mode (mode : Nat) (bs : BitStream) (decompressed : List Nat)
    (pitch : Nat) : Option (List Nat) := do
  let pr := bc7_partition_info mode bs
  let numPartitions := pr.1
  let partition := pr.2.1
  let bs := pr.2.2
  let numEndpoints := numPartitions * 2
  let rot := bc7_rotation_info mode bs
  let rotation := rot.1
  let idxSel := rot.2.1
  let bs := rot.2.2
  let row0 ← ACTUAL_BITS_COUNT_BC7[0]?
  let colorBits ← row0[mode]?
  let row1 ← ACTUAL_BITS_COUNT_BC7[1]?
  let alphaBits ← row1[mode]?
  let e0 : List (List Int) := List.replicate 6 [0, 0, 0, 0]
  let re ← bc7ReadRGB colorBits numEndpoints e0 bs
  let ra ← bc7_alpha_phase alphaBits numEndpoints re.1 re.2
  let pb ← bc7_pbit_phase mode numEndpoints ra.1 ra.2
  let eps := pb.1
  let bs := pb.2
  let pbit := (MODE_HAS_P_BITS >>> mode) &&& 1
  let eps := bc7PrecisionAdjust (colorBits + pbit) (alphaBits + pbit) numEndpoints eps
  let eps :=
    if alphaBits = 0 then
      eps.mapIdx (fun j row => if j < numEndpoints then row.set 3 0xFF else row)
    else eps
  let indexBits : Nat := if mode = 0 ∨ mode = 1 then 3 else if mode = 6 then 4 else 2
  let indexBits2 : Nat := if mode = 4 then 3 else if mode = 5 then 2 else 0
  let weights := if indexBits = 2 then WEIGHT2 else if indexBits = 3 then WEIGHT3 else WEIGHT4
  let weights2 := if indexBits2 = 2 then WEIGHT2 else WEIGHT3
  let ix ← bc7IndexLoop numPartitions partition mode pixelPairs bs []
  bc7Pass2Loop numPartitions partition rotation idxSel eps weights weights2 indexBits2
    pitch pixelPairs ix.1 ix.2 decompressed

/-- Port of `decode_block_bc7`: reads 16 bytes and writes a 4x4 RGBA8 tile
with `pitch` bytes per output row; modes with 8 or more leading zero bits
clear the tile. -/
def decode_block_bc7 (compressed decompressed : List Nat) (pitch : Nat) :
    Option (List Nat) := do
  let bs ← BitStream.new compressed
  if (bc7_mode_loop 8 0 bs).1 ≥ 8 then bc7_zero_fill decompressed pitch
  else bc7_decode_mode (bc7_mode_loop 8 0 bs).1 (bc7_mode_loop 8 0 bs).2 decompressed pitch

theorem fillZero_length (buf : List Nat) (start n : Nat) :
    (fillZero buf start n).length = buf.length := by
  induction n with
  | zero => rfl
  | succ k ih =>
    show ((fillZero buf start k).set (start + k) 0).length = buf.length
    simp [ih]

theorem fillZero_get (buf : List Nat) (start n k : Nat) :
    (fillZero buf start n)[k]? =
      if start ≤ k ∧ k < start + n ∧ k < buf.length then some 0 else buf[k]? := by
  induction n with
  | zero =>
    rw [if_neg (by omega)]
    rfl
  | succ m ih =>
    show ((fillZero buf start m).set (start + m) 0)[k]? = _
    rcases eq_or_ne (start + m) k with he | hne
    · subst he
      by_cases hlt : start + m < buf.length
      · rw [List.getElem?_set_self (by rw [fillZero_length]; exact hlt),
          if_pos (by omega)]
      · rw [List.set_eq_of_length_le (by rw [fillZero_length]; omega), ih,
          if_neg (by omega), if_neg (by omega)]
    · rw [List.getElem?_set_ne hne, ih]
      by_cases h1 : start ≤ k ∧ k < start + m ∧ k < buf.length
      · rw [if_pos h1, if_pos (by omega)]
      · rw [if_neg h1, if_neg (by omega)]

theorem fill12_spec (buf : List Nat) (start : Nat) (h : start + 12 ≤ buf.length) :
    ∃ out, fill12 buf start = some out ∧ out.length = buf.length ∧
      ∀ k, out[k]? = if start ≤ k ∧ k < start + 12 then some 0 else buf[k]? := by
  refine ⟨fillZero buf start 12, by unfold fill12; rw [if_pos h],
    fillZero_length buf start 12, fun k => ?_⟩
  rw [fillZero_get]
  by_cases h1 : start ≤ k ∧ k < start + 12
  · rw [if_pos (by omega), if_pos h1]
  · rw [if_neg (by omega), if_neg h1]

theorem bc6h_fill_zero_spec (buf : List Nat) (pitch : Nat) (hp : 12 ≤ pitch)
    (hlen : 3 * pitch + 12 ≤ buf.length) :
    ∃ out, bc6h_fill_zero buf pitch = some out ∧ out.length = buf.length ∧
      ∀ i, i < 4 → ∀ k, k < 12 → out[i * pitch + k]? = some 0 := by
  obtain ⟨o0, h0, l0, c0⟩ := fill12_spec buf (0 * pitch) (by omega)
  obtain ⟨o1, h1, l1, c1⟩ := fill12_spec o0 (1 * pitch) (by omega)
  obtain ⟨o2, h2, l2, c2⟩ := fill12_spec o1 (2 * pitch) (by omega)
  obtain ⟨o3, h3, l3, c3⟩ := fill12_spec o2 (3 * pitch) (by omega)
  have hrun : bc6h_fill_zero buf pitch = some o3 := by
    unfold bc6h_fill_zero
    rw [h0]
    simp only [Option.bind_eq_bind, Option.some_bind]
    rw [h1]
    simp only [Option.bind_eq_bind, Option.some_bind]
    rw [h2]
    simp only [Option.bind_eq_bind, Option.some_bind]
    exact h3
  refine ⟨o3, hrun, by omega, fun i hi k hk => ?_⟩
  interval_cases i
  · rw [c3, if_neg (by omega), c2, if_neg (by omega), c1, if_neg (by omega),
      c0, if_pos (by omega)]
  · rw [c3, if_neg (by omega), c2, if_neg (by omega), c1, if_pos (by omega)]
  · rw [c3, if_neg (by omega), c2, if_pos (by omega)]
  · rw [c3, if_pos (by omega)]

theorem partition_sets_bc6h_length : PARTITION_SETS_BC6H.length = 32 := rfl

theorem partition_sets_bc6h_shape :
    ∀ t ∈ PARTITION_SETS_BC6H, t.length = 4 ∧ ∀ row ∈ t, row.length = 4 := by
  decide

theorem interpolate_some (a b : Int) (weights : List Int) (index : Nat)
    (h : index < weights.length) :
    interpolate a b weights index =
      some (asr (a * (64 - weights.getD index 0) + b * weights.getD index 0 + 32) 6) := by
  unfold interpolate
  rw [List.getElem?_eq_getElem h, List.getD_eq_getElem _ _ h]
  rfl

theorem bc6hPixelLoop_some (mode partition : Nat) (r g b : List Int)
    (weights : List Int) (hr : r.length = 4) (hg : g.length = 4) (hb : b.length = 4)
    (hw : weights.length = if mode ≥ 10 then 16 else 8) (hpart : partition < 32)
    (isSigned : Bool) (pitch : Nat) (hp : 12 ≤ pitch) :
    ∀ l : List (Nat × Nat), (∀ q ∈ l, q.1 < 4 ∧ q.2 < 4) →
    ∀ bs (buf : List Nat), 3 * pitch + 12 ≤ buf.length →
    ∃ out, bc6hPixelLoop mode partition r g b weights isSigned pitch l bs buf = some out ∧
      out.length = buf.length := by
  intro l
  induction l with
  | nil =>
    intro _ bs buf _
    exact ⟨buf, rfl, rfl⟩
  | cons q rest ih =>
    obtain ⟨i, j⟩ := q
    intro hmem bs buf hlen
    obtain ⟨⟨hi, hj⟩, hmemr⟩ := List.forall_mem_cons.mp hmem
    have hps : ∃ v, bc6h_partition_set mode partition i j = some v := by
      unfold bc6h_partition_set
      split
      · exact ⟨_, rfl⟩
      · have hlt : partition < PARTITION_SETS_BC6H.length := by
          rw [partition_sets_bc6h_length]; exact hpart
        rw [List.getElem?_eq_getElem hlt]
        simp only [Option.bind_eq_bind, Option.some_bind]
        obtain ⟨htl, hrows⟩ := partition_sets_bc6h_shape
          (PARTITION_SETS_BC6H[partition]) (List.getElem_mem hlt)
        have hil : i < (PARTITION_SETS_BC6H[partition]).length := by omega
        rw [List.getElem?_eq_getElem hil]
        simp only [Option.bind_eq_bind, Option.some_bind]
        have hrl := hrows _ (List.getElem_mem hil)
        rw [List.getElem?_eq_getElem (show j < (PARTITION_SETS_BC6H[partition])[i].length by omega)]
        exact ⟨_, rfl⟩
    obtain ⟨ps0, hps⟩ := hps
    have hand1 : ps0 &&& 1 ≤ 1 := Nat.and_le_right
    have hidxw : (bs.read_bits ((if mode ≥ 10 then 4 else 3) -
        (if ps0 &&& 0x80 ≠ 0 then 1 else 0))).1 < weights.length := by
      have hlt := BitStream.read_bits_lt bs ((if mode ≥ 10 then 4 else 3) -
        (if ps0 &&& 0x80 ≠ 0 then 1 else 0))
      have h2 : (2 : Nat) ^ ((if mode ≥ 10 then 4 else 3) -
          (if ps0 &&& 0x80 ≠ 0 then 1 else 0)) ≤ 16 := by
        calc (2 : Nat) ^ ((if mode ≥ 10 then 4 else 3) -
              (if ps0 &&& 0x80 ≠ 0 then 1 else 0)) ≤ 2 ^ 4 :=
            Nat.pow_le_pow_right (by omega) (by split <;> omega)
          _ = 16 := by norm_num
      by_cases hm : mode ≥ 10
      · have hw16 : weights.length = 16 := by rw [hw, if_pos hm]
        omega
      · have hle : ((if mode ≥ 10 then 4 else 3) -
            (if ps0 &&& 0x80 ≠ 0 then 1 else 0)) ≤ 3 := by
          rw [if_neg hm]
          omega
        have h2b : (2 : Nat) ^ ((if mode ≥ 10 then 4 else 3) -
            (if ps0 &&& 0x80 ≠ 0 then 1 else 0)) ≤ 8 := by
          exact le_trans (Nat.pow_le_pow_right (by omega) hle) (by norm_num)
        have hw8 : weights.length = 8 := by rw [hw, if_neg hm]
        omega
    have hb0 : i * pitch + j * 3 + 2 < buf.length := by
      have h1 : i * pitch ≤ 3 * pitch := Nat.mul_le_mul_right pitch (by omega)
      omega
    have hget : ∀ ch : List Int, ch.length = 4 →
        (ch[(ps0 &&& 1) * 2]? = some (ch.getD ((ps0 &&& 1) * 2) 0) ∧
         ch[(ps0 &&& 1) * 2 + 1]? = some (ch.getD ((ps0 &&& 1) * 2 + 1) 0)) := by
      intro ch hch
      constructor
      · rw [List.getElem?_eq_getElem (by omega), List.getD_eq_getElem _ _ (by omega)]
      · rw [List.getElem?_eq_getElem (by omega), List.getD_eq_getElem _ _ (by omega)]
    obtain ⟨hgr1, hgr2⟩ := hget r hr
    obtain ⟨hgg1, hgg2⟩ := hget g hg
    obtain ⟨hgb1, hgb2⟩ := hget b hb
    obtain ⟨out, hloop, hlout⟩ := ih hmemr
      ((bs.read_bits ((if mode ≥ 10 then 4 else 3) -
        (if ps0 &&& 0x80 ≠ 0 then 1 else 0))).2)
      ((((buf.set (i * pitch + j * 3) _).set (i * pitch + j * 3 + 1) _).set
        (i * pitch + j * 3 + 2)
        (finish_unquantize (asr ((b.getD ((ps0 &&& 1) * 2) 0) *
          (64 - weights.getD (bs.read_bits ((if mode ≥ 10 then 4 else 3) -
            (if ps0 &&& 0x80 ≠ 0 then 1 else 0))).1 0) +
          (b.getD ((ps0 &&& 1) * 2 + 1) 0) *
          weights.getD (bs.read_bits ((if mode ≥ 10 then 4 else 3) -
            (if ps0 &&& 0x80 ≠ 0 then 1 else 0))).1 0 + 32) 6) isSigned)))
      (by simp; omega)
    refine ⟨out, ?_, by simp at hlout; omega⟩
    show (do
      let partitionSet ← bc6h_partition_set mode partition i j
      let indexBits := (if mode ≥ 10 then 4 else 3) -
        (if partitionSet &&& 0x80 ≠ 0 then 1 else 0)
      let partitionSet := partitionSet &&& 0x01
      let t := bs.read_bits indexBits
      let index := t.1
      let bs := t.2
      let epi := partitionSet * 2
      let ra ← r[epi]?
      let rb ← r[epi + 1]?
      let ga ← g[epi]?
      let gb ← g[epi + 1]?
      let ba ← b[epi]?
      let bb ← b[epi + 1]?
      let vr ← interpolate ra rb weights index
      let vg ← interpolate ga gb weights index
      let vb ← interpolate ba bb weights index
      let out := i * pitch + j * 3
      let buf ← setByte? buf out (finish_unquantize vr isSigned)
      let buf ← setByte? buf (out + 1) (finish_unquantize vg isSigned)
      let buf ← setByte? buf (out + 2) (finish_unquantize vb isSigned)
      bc6hPixelLoop mode partition r g b weights isSigned pitch rest bs buf) = some out
    rw [hps]
    simp only [Option.bind_eq_bind, Option.some_bind]
    rw [hgr1]
    simp only [Option.bind_eq_bind, Option.some_bind]
    rw [hgr2]
    simp only [Option.bind_eq_bind, Option.some_bind]
    rw [hgg1]
    simp only [Option.bind_eq_bind, Option.some_bind]
    rw [hgg2]
    simp only [Option.bind_eq_bind, Option.some_bind]
    rw [hgb1]
    simp only [Option.bind_eq_bind, Option.some_bind]
    rw [hgb2]
    simp only [Option.bind_eq_bind, Option.some_bind]
    rw [interpolate_some _ _ _ _ hidxw]
    simp only [Option.bind_eq_bind, Option.some_bind]
    rw [interpolate_some _ _ _ _ hidxw]
    simp only [Option.bind_eq_bind, Option.some_bind]
    rw [interpolate_some _ _ _ _ hidxw]
    simp only [Option.bind_eq_bind, Option.some_bind]
    rw [setByte?_isSome (by omega)]
    simp only [Option.bind_eq_bind, Option.some_bind]
    rw [setByte?_isSome (by simp; omega)]
    simp only [Option.bind_eq_bind, Option.some_bind]
    rw [setByte?_isSome (by simp; omega)]
    simp only [Option.bind_eq_bind, Option.some_bind]
    exact hloop

theorem actual_bits_count_bc6h_shape :
    ACTUAL_BITS_COUNT_BC6H.length = 4 ∧
      ∀ row ∈ ACTUAL_BITS_COUNT_BC6H, row.length = 14 := by
  decide

theorem bc6h_decode_parsed_some (p : BC6HParsed) (isSigned : Bool)
    (buf : List Nat) (pitch : Nat) (hm : p.mode < 14) (hpart : p.partition < 32)
    (hr : p.r.length = 4) (hg : p.g.length = 4) (hb : p.b.length = 4)
    (hp : 12 ≤ pitch) (hlen : 3 * pitch + 12 ≤ buf.length) :
    ∃ out, bc6h_decode_parsed p isSigned buf pitch = some out ∧
      out.length = buf.length := by
  obtain ⟨habl, habr⟩ := actual_bits_count_bc6h_shape
  have hrow : ∀ i, i < 4 → ACTUAL_BITS_COUNT_BC6H[i]? =
      some (ACTUAL_BITS_COUNT_BC6H.getD i []) := by
    intro i hi
    rw [List.getElem?_eq_getElem (by omega), List.getD_eq_getElem _ _ (by omega)]
  have hent : ∀ i, i < 4 → (ACTUAL_BITS_COUNT_BC6H.getD i [])[p.mode]? =
      some ((ACTUAL_BITS_COUNT_BC6H.getD i []).getD p.mode 0) := by
    intro i hi
    have hil : i < ACTUAL_BITS_COUNT_BC6H.length := by omega
    have hlen14 : (ACTUAL_BITS_COUNT_BC6H.getD i []).length = 14 := by
      rw [List.getD_eq_getElem _ _ hil]
      exact habr _ (List.getElem_mem hil)
    rw [List.getElem?_eq_getElem (by omega)]
    exact congrArg some (List.getD_eq_getElem _ _ (by omega)).symm
  obtain ⟨out, hloop, hlout⟩ := bc6hPixelLoop_some p.mode p.partition
    (bc6h_channel_math p.r ((ACTUAL_BITS_COUNT_BC6H.getD 0 []).getD p.mode 0)
      ((ACTUAL_BITS_COUNT_BC6H.getD 1 []).getD p.mode 0)
      (((if p.mode ≥ 10 then 0 else 1) + 1) * 2) p.mode isSigned)
    (bc6h_channel_math p.g ((ACTUAL_BITS_COUNT_BC6H.getD 0 []).getD p.mode 0)
      ((ACTUAL_BITS_COUNT_BC6H.getD 2 []).getD p.mode 0)
      (((if p.mode ≥ 10 then 0 else 1) + 1) * 2) p.mode isSigned)
    (bc6h_channel_math p.b ((ACTUAL_BITS_COUNT_BC6H.getD 0 []).getD p.mode 0)
      ((ACTUAL_BITS_COUNT_BC6H.getD 3 []).getD p.mode 0)
      (((if p.mode ≥ 10 then 0 else 1) + 1) * 2) p.mode isSigned)
    (if p.mode ≥ 10 then WEIGHT4 else WEIGHT3)
    (by rw [bc6h_channel_math_length]; exact hr)
    (by rw [bc6h_channel_math_length]; exact hg)
    (by rw [bc6h_channel_math_length]; exact hb)
    (by split <;> rfl) hpart isSigned pitch hp pixelPairs (by decide) p.bs buf hlen
  refine ⟨out, ?_, hlout⟩
  unfold bc6h_decode_parsed
  rw [hrow 0 (by omega)]
  simp only [Option.bind_eq_bind, Option.some_bind]
  rw [hent 0 (by omega)]
  simp only [Option.bind_eq_bind, Option.some_bind]
  rw [hrow 1 (by omega)]
  simp only [Option.bind_eq_bind, Option.some_bind]
  rw [hent 1 (by omega)]
  simp only [Option.bind_eq_bind, Option.some_bind]
  rw [hrow 2 (by omega)]
  simp only [Option.bind_eq_bind, Option.some_bind]
  rw [hent 2 (by omega)]
  simp only [Option.bind_eq_bind, Option.some_bind]
  rw [hrow 3 (by omega)]
  simp only [Option.bind_eq_bind, Option.some_bind]
  rw [hent 3 (by omega)]
  simp only [Option.bind_eq_bind, Option.some_bind]
  exact hloop

theorem bc6h_two_region_partition_lt (r g b : List Int) (m : Nat) (bs : BitStream) :
    (bc6h_two_region r g b m bs).partition < 32 := by
  have h := BitStream.read_bits_lt bs 5
  norm_num at h
  exact h

theorem bc6h_parse_m0_facts (bs : BitStream) :
    (bc6h_parse_m0 bs).mode = 0 ∧ (bc6h_parse_m0 bs).partition < 32 ∧
      (bc6h_parse_m0 bs).r.length = 4 ∧ (bc6h_parse_m0 bs).g.length = 4 ∧
      (bc6h_parse_m0 bs).b.length = 4 :=
  ⟨rfl, bc6h_two_region_partition_lt _ _ _ _ _, rfl, rfl, rfl⟩

theorem bc6h_parse_m1_facts (bs : BitStream) :
    (bc6h_parse_m1 bs).mode = 1 ∧ (bc6h_parse_m1 bs).partition < 32 ∧
      (bc6h_parse_m1 bs).r.length = 4 ∧ (bc6h_parse_m1 bs).g.length = 4 ∧
      (bc6h_parse_m1 bs).b.length = 4 :=
  ⟨rfl, bc6h_two_region_partition_lt _ _ _ _ _, rfl, rfl, rfl⟩

theorem bc6h_parse_m2_facts (bs : BitStream) :
    (bc6h_parse_m2 bs).mode = 2 ∧ (bc6h_parse_m2 bs).partition < 32 ∧
      (bc6h_parse_m2 bs).r.length = 4 ∧ (bc6h_parse_m2 bs).g.length = 4 ∧
      (bc6h_parse_m2 bs).b.length = 4 :=
  ⟨rfl, bc6h_two_region_partition_lt _ _ _ _ _, rfl, rfl, rfl⟩

theorem bc6h_parse_m3_facts (bs : BitStream) :
    (bc6h_parse_m3 bs).mode = 3 ∧ (bc6h_parse_m3 bs).partition < 32 ∧
      (bc6h_parse_m3 bs).r.length = 4 ∧ (bc6h_parse_m3 bs).g.length = 4 ∧
      (bc6h_parse_m3 bs).b.length = 4 :=
  ⟨rfl, bc6h_two_region_partition_lt _ _ _ _ _, rfl, rfl, rfl⟩

theorem bc6h_parse_m4_facts (bs : BitStream) :
    (bc6h_parse_m4 bs).mode = 4 ∧ (bc6h_parse_m4 bs).partition < 32 ∧
      (bc6h_parse_m4 bs).r.length = 4 ∧ (bc6h_parse_m4 bs).g.length = 4 ∧
      (bc6h_parse_m4 bs).b.length = 4 :=
  ⟨rfl, bc6h_two_region_partition_lt _ _ _ _ _, rfl, rfl, rfl⟩

theorem bc6h_parse_m5_facts (bs : BitStream) :
    (bc6h_parse_m5 bs).mode = 5 ∧ (bc6h_parse_m5 bs).partition < 32 ∧
      (bc6h_parse_m5 bs).r.length = 4 ∧ (bc6h_parse_m5 bs).g.length = 4 ∧
      (bc6h_parse_m5 bs).b.length = 4 :=
  ⟨rfl, bc6h_two_region_partition_lt _ _ _ _ _, rfl, rfl, rfl⟩

theorem bc6h_parse_m6_facts (bs : BitStream) :
    (bc6h_parse_m6 bs).mode = 6 ∧ (bc6h_parse_m6 bs).partition < 32 ∧
      (bc6h_parse_m6 bs).r.length = 4 ∧ (bc6h_parse_m6 bs).g.length = 4 ∧
      (bc6h_parse_m6 bs).b.length = 4 :=
  ⟨rfl, bc6h_two_region_partition_lt _ _ _ _ _, rfl, rfl, rfl⟩

theorem bc6h_parse_m7_facts (bs : BitStream) :
    (bc6h_parse_m7 bs).mode = 7 ∧ (bc6h_parse_m7 bs).partition < 32 ∧
      (bc6h_parse_m7 bs).r.length = 4 ∧ (bc6h_parse_m7 bs).g.length = 4 ∧
      (bc6h_parse_m7 bs).b.length = 4 :=
  ⟨rfl, bc6h_two_region_partition_lt _ _ _ _ _, rfl, rfl, rfl⟩

theorem bc6h_parse_m8_facts (bs : BitStream) :
    (bc6h_parse_m8 bs).mode = 8 ∧ (bc6h_parse_m8 bs).partition < 32 ∧
      (bc6h_parse_m8 bs).r.length = 4 ∧ (bc6h_parse_m8 bs).g.length = 4 ∧
      (bc6h_parse_m8 bs).b.length = 4 :=
  ⟨rfl, bc6h_two_region_partition_lt _ _ _ _ _, rfl, rfl, rfl⟩

theorem bc6h_parse_m9_facts (bs : BitStream) :
    (bc6h_parse_m9 bs).mode = 9 ∧ (bc6h_parse_m9 bs).partition < 32 ∧
      (bc6h_parse_m9 bs).r.length = 4 ∧ (bc6h_parse_m9 bs).g.length = 4 ∧
      (bc6h_parse_m9 bs).b.length = 4 :=
  ⟨rfl, bc6h_two_region_partition_lt _ _ _ _ _, rfl, rfl, rfl⟩

theorem bc6h_parse_m10_facts (bs : BitStream) :
    (bc6h_parse_m10 bs).mode = 10 ∧ (bc6h_parse_m10 bs).partition < 32 ∧
      (bc6h_parse_m10 bs).r.length = 4 ∧ (bc6h_parse_m10 bs).g.length = 4 ∧
      (bc6h_parse_m10 bs).b.length = 4 :=
  ⟨rfl, by
    have h : (bc6h_parse_m10 bs).partition = 0 := rfl
    omega, rfl, rfl, rfl⟩

theorem bc6h_parse_m11_facts (bs : BitStream) :
    (bc6h_parse_m11 bs).mode = 11 ∧ (bc6h_parse_m11 bs).partition < 32 ∧
      (bc6h_parse_m11 bs).r.length = 4 ∧ (bc6h_parse_m11 bs).g.length = 4 ∧
      (bc6h_parse_m11 bs).b.length = 4 :=
  ⟨rfl, by
    have h : (bc6h_parse_m11 bs).partition = 0 := rfl
    omega, rfl, rfl, rfl⟩

theorem bc6h_parse_m12_facts (bs : BitStream) :
    (bc6h_parse_m12 bs).mode = 12 ∧ (bc6h_parse_m12 bs).partition < 32 ∧
      (bc6h_parse_m12 bs).r.length = 4 ∧ (bc6h_parse_m12 bs).g.length = 4 ∧
      (bc6h_parse_m12 bs).b.length = 4 :=
  ⟨rfl, by
    have h : (bc6h_parse_m12 bs).partition = 0 := rfl
    omega, rfl, rfl, rfl⟩

theorem bc6h_parse_m13_facts (bs : BitStream) :
    (bc6h_parse_m13 bs).mode = 13 ∧ (bc6h_parse_m13 bs).partition < 32 ∧
      (bc6h_parse_m13 bs).r.length = 4 ∧ (bc6h_parse_m13 bs).g.length = 4 ∧
      (bc6h_parse_m13 bs).b.length = 4 :=
  ⟨rfl, by
    have h : (bc6h_parse_m13 bs).partition = 0 := rfl
    omega, rfl, rfl, rfl⟩

theorem bc6h_dispatch_some (mode : Nat) (bs : BitStream) (isSigned : Bool)
    (buf : List Nat) (pitch : Nat) (hp : 12 ≤ pitch)
    (hlen : 3 * pitch + 12 ≤ buf.length) :
    ∃ out, bc6h_dispatch mode bs isSigned buf pitch = some out ∧
      out.length = buf.length := by
  unfold bc6h_dispatch
  by_cases h0 : mode = 0b00
  · rw [if_pos h0]
    obtain ⟨hm, h32, hr, hg, hb⟩ := bc6h_parse_m0_facts bs
    exact bc6h_decode_parsed_some _ _ _ _ (by omega) h32 hr hg hb hp hlen
  rw [if_neg h0]
  by_cases h1 : mode = 0b01
  · rw [if_pos h1]
    obtain ⟨hm, h32, hr, hg, hb⟩ := bc6h_parse_m1_facts bs
    exact bc6h_decode_parsed_some _ _ _ _ (by omega) h32 hr hg hb hp hlen
  rw [if_neg h1]
  by_cases h2 : mode = 0b00010
  · rw [if_pos h2]
    obtain ⟨hm, h32, hr, hg, hb⟩ := bc6h_parse_m2_facts bs
    exact bc6h_decode_parsed_some _ _ _ _ (by omega) h32 hr hg hb hp hlen
  rw [if_neg h2]
  by_cases h3 : mode = 0b00110
  · rw [if_pos h3]
    obtain ⟨hm, h32, hr, hg, hb⟩ := bc6h_parse_m3_facts bs
    exact bc6h_decode_parsed_some _ _ _ _ (by omega) h32 hr hg hb hp hlen
  rw [if_neg h3]
  by_cases h4 : mode = 0b01010
  · rw [if_pos h4]
    obtain ⟨hm, h32, hr, hg, hb⟩ := bc6h_parse_m4_facts bs
    exact bc6h_decode_parsed_some _ _ _ _ (by omega) h32 hr hg hb hp hlen
  rw [if_neg h4]
  by_cases h5 : mode = 0b01110
  · rw [if_pos h5]
    obtain ⟨hm, h32, hr, hg, hb⟩ := bc6h_parse_m5_facts bs
    exact bc6h_decode_parsed_some _ _ _ _ (by omega) h32 hr hg hb hp hlen
  rw [if_neg h5]
  by_cases h6 : mode = 0b10010
  · rw [if_pos h6]
    obtain ⟨hm, h32, hr, hg, hb⟩ := bc6h_parse_m6_facts bs
    exact bc6h_decode_parsed_some _ _ _ _ (by omega) h32 hr hg hb hp hlen
  rw [if_neg h6]
  by_cases h7 : mode = 0b10110
  · rw [if_pos h7]
    obtain ⟨hm, h32, hr, hg, hb⟩ := bc6h_parse_m7_facts bs
    exact bc6h_decode_parsed_some _ _ _ _ (by omega) h32 hr hg hb hp hlen
  rw [if_neg h7]
  by_cases h8 : mode = 0b11010
  · rw [if_pos h8]
    obtain ⟨hm, h32, hr, hg, hb⟩ := bc6h_parse_m8_facts bs
    exact bc6h_decode_parsed_some _ _ _ _ (by omega) h32 hr hg hb hp hlen
  rw [if_neg h8]
  by_cases h9 : mode = 0b11110
  · rw [if_pos h9]
    obtain ⟨hm, h32, hr, hg, hb⟩ := bc6h_parse_m9_facts bs
    exact bc6h_decode_parsed_some _ _ _ _ (by omega) h32 hr hg hb hp hlen
  rw [if_neg h9]
  by_cases h10 : mode = 0b00011
  · rw [if_pos h10]
    obtain ⟨hm, h32, hr, hg, hb⟩ := bc6h_parse_m10_facts bs
    exact bc6h_decode_parsed_some _ _ _ _ (by omega) h32 hr hg hb hp hlen
  rw [if_neg h10]
  by_cases h11 : mode = 0b00111
  · rw [if_pos h11]
    obtain ⟨hm, h32, hr, hg, hb⟩ := bc6h_parse_m11_facts bs
    exact bc6h_decode_parsed_some _ _ _ _ (by omega) h32 hr hg hb hp hlen
  rw [if_neg h11]
  by_cases h12 : mode = 0b01011
  · rw [if_pos h12]
    obtain ⟨hm, h32, hr, hg, hb⟩ := bc6h_parse_m12_facts bs
    exact bc6h_decode_parsed_some _ _ _ _ (by omega) h32 hr hg hb hp hlen
  rw [if_neg h12]
  by_cases h13 : mode = 0b01111
  · rw [if_pos h13]
    obtain ⟨hm, h32, hr, hg, hb⟩ := bc6h_parse_m13_facts bs
    exact bc6h_decode_parsed_some _ _ _ _ (by omega) h32 hr hg hb hp hlen
  rw [if_neg h13]
  obtain ⟨o, ho, hl, _⟩ := bc6h_fill_zero_spec buf pitch hp hlen
  exact ⟨o, ho, hl⟩

theorem decode_block_bc6h_some (compressed buf : List Nat) (pitch : Nat)
    (isSigned : Bool) (hc : 16 ≤ compressed.length) (hp : 12 ≤ pitch)
    (hlen : 3 * pitch + 12 ≤ buf.length) :
    ∃ out, decode_block_bc6h compressed buf pitch isSigned = some out ∧
      out.length = buf.length := by
  unfold decode_block_bc6h
  unfold BitStream.new
  rw [if_pos hc]
  simp only [Option.bind_eq_bind, Option.some_bind]
  exact bc6h_dispatch_some _ _ _ _ _ hp hlen

theorem or_and_distrib (a b c : Nat) : (a ||| b) &&& c = (a &&& c) ||| (b &&& c) := by
  apply Nat.eq_of_testBit_eq
  intro i
  simp [Nat.testBit_or, Nat.testBit_and, Bool.and_or_distrib_right]

theorem fromLeBytes_cons (b : Nat) (l : List Nat) :
    fromLeBytes (b :: l) = b + 256 * fromLeBytes l := rfl

theorem bc6h_mode_of_eq (bs : BitStream) (h : 1 < bs.low % 4) :
    (bc6h_mode_of bs).1 = bs.low % 32 := by
  have h3 : bs.low &&& 3 = bs.low % 4 := by
    have h2 := Nat.and_pow_two_sub_one_eq_mod bs.low 2
    norm_num at h2
    exact h2
  simp only [bc6h_mode_of, BitStream.read_bits]
  norm_num
  rw [if_pos (by rw [h3]; exact h)]
  rw [or_and_distrib]
  have hsh : ((bs.high &&& 3) <<< 62) &&& 7 = 0 := by
    rw [Nat.shiftLeft_eq, Nat.and_pow_two_sub_one_eq_mod ((bs.high &&& 3) * 2 ^ 62) 3]
    norm_num
    omega
  rw [hsh, Nat.or_zero, h3]
  rw [Nat.shiftRight_eq_div_pow, Nat.and_pow_two_sub_one_eq_mod (bs.low / 2 ^ 2) 3,
    Nat.shiftLeft_eq]
  norm_num
  rw [Nat.lor_comm]
  have he : bs.low / 4 % 8 * 4 = 2 ^ 2 * (bs.low / 4 % 8) := by ring
  rw [he, ← Nat.mul_add_lt_is_or (show bs.low % 4 < 2 ^ 2 by omega) (bs.low / 4 % 8)]
  omega

theorem bc6h_dispatch_reserved (mode : Nat) (bs : BitStream) (isSigned : Bool)
    (buf : List Nat) (pitch : Nat)
    (h : mode = 19 ∨ mode = 23 ∨ mode = 27 ∨ mode = 31) :
    bc6h_dispatch mode bs isSigned buf pitch = bc6h_fill_zero buf pitch := by
  rcases h with h | h | h | h <;> subst h <;> rfl

theorem bc6h_reserved_zero (c0 : Nat) (rest buf : List Nat) (pitch : Nat)
    (isSigned : Bool) (hrest : rest.length = 15)
    (hres : c0 % 32 = 19 ∨ c0 % 32 = 23 ∨ c0 % 32 = 27 ∨ c0 % 32 = 31)
    (hp : 12 ≤ pitch) (hlen : 3 * pitch + 12 ≤ buf.length) :
    ∃ out, decode_block_bc6h (c0 :: rest) buf pitch isSigned = some out ∧
      out.length = buf.length ∧
      ∀ i, i < 4 → ∀ k, k < 12 → out[i * pitch + k]? = some 0 := by
  obtain ⟨o, ho, hl, hz⟩ := bc6h_fill_zero_spec buf pitch hp hlen
  refine ⟨o, ?_, hl, hz⟩
  unfold decode_block_bc6h BitStream.new
  rw [if_pos (by simp [hrest])]
  simp only [Option.bind_eq_bind, Option.some_bind]
  have hM : (bc6h_mode_of ⟨fromLeBytes ((c0 :: rest).take 8),
      fromLeBytes (((c0 :: rest).drop 8).take 8)⟩).1 = c0 % 32 := by
    have h14 : (1 : Nat) < (⟨fromLeBytes ((c0 :: rest).take 8),
        fromLeBytes (((c0 :: rest).drop 8).take 8)⟩ : BitStream).low % 4 := by
      show 1 < fromLeBytes ((c0 :: rest).take 8) % 4
      rw [List.take_succ_cons, fromLeBytes_cons]
      omega
    rw [bc6h_mode_of_eq _ h14]
    show fromLeBytes ((c0 :: rest).take 8) % 32 = c0 % 32
    rw [List.take_succ_cons, fromLeBytes_cons]
    omega
  rw [hM, bc6h_dispatch_reserved _ _ _ _ _ hres]
  exact ho

theorem read_bit_and_one (bs : BitStream) : bs.read_bit.1 = bs.low % 2 := by
  show bs.low &&& (2 ^ 1 - 1) = bs.low % 2
  norm_num

theorem read_bit_low_mod (bs : BitStream) (n : Nat) (hn : n ≤ 8) :
    bs.read_bit.2.low % 2 ^ n = (bs.low >>> 1) % 2 ^ n := by
  show ((bs.low >>> 1) ||| ((bs.high &&& (2 ^ 1 - 1)) <<< (64 - 1))) % 2 ^ n = _
  rw [← Nat.and_pow_two_sub_one_eq_mod ((bs.low >>> 1) |||
      ((bs.high &&& (2 ^ 1 - 1)) <<< (64 - 1))) n,
    ← Nat.and_pow_two_sub_one_eq_mod (bs.low >>> 1) n, or_and_distrib]
  have hz : ((bs.high &&& (2 ^ 1 - 1)) <<< (64 - 1)) &&& (2 ^ n - 1) = 0 := by
    rw [Nat.shiftLeft_eq, Nat.and_pow_two_sub_one_eq_mod]
    have hd : (2 : Nat) ^ (64 - 1) = 2 ^ n * 2 ^ (63 - n) := by
      rw [← pow_add]
      congr 1
      omega
    rw [hd, show (bs.high &&& (2 ^ 1 - 1)) * (2 ^ n * 2 ^ (63 - n)) =
      2 ^ n * ((bs.high &&& (2 ^ 1 - 1)) * 2 ^ (63 - n)) by ring, Nat.mul_mod_right]
  rw [hz, Nat.or_zero]

theorem bc7_mode_loop_zero : ∀ (k m : Nat) (bs : BitStream), m + k = 8 →
    bs.low % 2 ^ k = 0 → (bc7_mode_loop k m bs).1 = 8 := by
  intro k
  induction k with
  | zero =>
    intro m bs hm _
    show m = 8
    omega
  | succ n ih =>
    intro m bs hm h0
    have hbit : bs.read_bit.1 = 0 := by
      rw [read_bit_and_one]
      have hdvd2 : (2 : Nat) ∣ bs.low :=
        dvd_trans (dvd_pow_self 2 (Nat.succ_ne_zero n)) (Nat.dvd_of_mod_eq_zero h0)
      obtain ⟨q, hq⟩ := hdvd2
      rw [hq, Nat.mul_mod_right]
    have hlow : bs.read_bit.2.low % 2 ^ n = 0 := by
      rw [read_bit_low_mod _ _ (by omega), Nat.shiftRight_eq_div_pow]
      have hdvd : 2 * 2 ^ n ∣ bs.low := by
        apply Nat.dvd_of_mod_eq_zero
        have h2 : (2 : Nat) ^ (n + 1) = 2 * 2 ^ n := by ring
        rw [← h2]
        exact h0
      obtain ⟨q, hq⟩ := hdvd
      rw [hq, pow_one, show 2 * 2 ^ n * q = 2 ^ n * q * 2 by ring,
        Nat.mul_div_cancel _ (by omega), Nat.mul_mod_right]
    show (if m < 8 then
        (if bs.read_bit.1 = 0 then bc7_mode_loop n (m + 1) bs.read_bit.2
         else (m, bs.read_bit.2))
      else (m, bs)).1 = 8
    rw [if_pos (show m < 8 by omega), hbit, if_pos rfl]
    exact ih (m + 1) bs.read_bit.2 (by omega) hlow

theorem bc7ZeroFillLoop_spec (pitch : Nat) (hp : 16 ≤ pitch) :
    ∀ (ps : List (Nat × Nat)), (∀ q ∈ ps, q.1 < 4 ∧ q.2 < 4) → ps.Nodup →
    ∀ (buf : List Nat), 3 * pitch + 16 ≤ buf.length →
    ∃ out, bc7ZeroFillLoop pitch ps buf = some out ∧
      out.length = buf.length ∧
      (∀ k, (∀ q ∈ ps, ∀ c, c < 4 → k ≠ q.1 * pitch + q.2 * 4 + c) →
        out[k]? = buf[k]?) ∧
      (∀ q ∈ ps, ∀ c, c < 4 → out[q.1 * pitch + q.2 * 4 + c]? = some 0) := by
  intro ps
  induction ps with
  | nil =>
    intro _ _ buf _
    exact ⟨buf, rfl, rfl, fun k _ => rfl, fun q hq => absurd hq (List.not_mem_nil q)⟩
  | cons q rest ih =>
    obtain ⟨i, j⟩ := q
    intro hmem hnodup buf hlen
    obtain ⟨⟨hi, hj⟩, hmemr⟩ := List.forall_mem_cons.mp hmem
    have hnd := List.nodup_cons.mp hnodup
    have hbound : i * pitch + j * 4 + 3 < buf.length := by
      have h1 : i * pitch ≤ 3 * pitch := Nat.mul_le_mul_right pitch (by omega)
      omega
    obtain ⟨buf1, hw, hwlen, hwframe, hwcontent⟩ :=
      @writeU32LE_spec buf (i * pitch + j * 4) 0 hbound
    obtain ⟨out, hloop, hlenr, hframer, hcontentr⟩ := ih hmemr hnd.2 buf1 (by omega)
    have hrun : bc7ZeroFillLoop pitch ((i, j) :: rest) buf = some out := by
      show (do
        let buf ← writeU32LE buf (i * pitch + j * 4) 0
        bc7ZeroFillLoop pitch rest buf) = some out
      rw [hw]
      simp only [Option.bind_eq_bind, Option.some_bind]
      exact hloop
    refine ⟨out, hrun, by omega, ?_, ?_⟩
    · intro k hk
      have hkr : ∀ q ∈ rest, ∀ c, c < 4 → k ≠ q.1 * pitch + q.2 * 4 + c :=
        fun q hq => hk q (List.mem_cons_of_mem _ hq)
      have hkh : ∀ c, c < 4 → k ≠ i * pitch + j * 4 + c :=
        hk (i, j) (List.mem_cons_self _ _)
      rw [hframer k hkr]
      exact hwframe k (by have := hkh 0 (by omega); omega)
        (by have := hkh 1 (by omega); omega) (by have := hkh 2 (by omega); omega)
        (by have := hkh 3 (by omega); omega)
    · intro q hq c hc
      rcases List.mem_cons.mp hq with hqh | hqt
      · have hdisj : ∀ q' ∈ rest, ∀ c', c' < 4 →
            i * pitch + j * 4 + c ≠ q'.1 * pitch + q'.2 * 4 + c' := by
          intro q' hq' c' hc'
          have hq4 := hmemr q' hq'
          have hqo : (i, j) ≠ (q'.1, q'.2) := by
            intro hcontra
            exact hnd.1 (by rw [show q' = (q'.1, q'.2) from rfl] at hq'; rw [hcontra]; exact hq')
          exact pixel_offsets_ne (by omega) hi hj hq4.1 hq4.2 hc hc' hqo
        rw [hqh]
        rw [hframer _ hdisj]
        have h0 := hwcontent c hc
        have hz : u32Byte 0 c = 0 := by
          unfold u32Byte
          simp
        rw [hz] at h0
        exact h0
      · exact hcontentr q hqt c hc

theorem bc7_invalid_zero (rest buf : List Nat) (pitch : Nat)
    (hrest : rest.length = 15) (hp : 16 ≤ pitch)
    (hlen : 3 * pitch + 16 ≤ buf.length) :
    ∃ out, decode_block_bc7 (0 :: rest) buf pitch = some out ∧
      out.length = buf.length ∧
      ∀ i, i < 4 → ∀ k, k < 16 → out[i * pitch + k]? = some 0 := by
  obtain ⟨o, ho, hl, hframe, hcontent⟩ :=
    bc7ZeroFillLoop_spec pitch hp pixelPairs (by decide) (by decide) buf hlen
  refine ⟨o, ?_, hl, ?_⟩
  · unfold decode_block_bc7 BitStream.new
    rw [if_pos (by simp [hrest])]
    simp only [Option.bind_eq_bind, Option.some_bind]
    have hm8 : (bc7_mode_loop 8 0 ⟨fromLeBytes ((0 :: rest).take 8),
        fromLeBytes (((0 :: rest).drop 8).take 8)⟩).1 = 8 := by
      apply bc7_mode_loop_zero 8 0 _ (by omega)
      show fromLeBytes ((0 :: rest).take 8) % 2 ^ 8 = 0
      rw [List.take_succ_cons, fromLeBytes_cons]
      omega
    rw [hm8, if_pos (by omega)]
    exact ho
  · intro i hi k hk
    have hq : (i, k / 4) ∈ pixelPairs := by
      have hall : ∀ a, a < 4 → ∀ b, b < 4 → (a, b) ∈ pixelPairs := by decide
      exact hall i hi (k / 4) (by omega)
    have hthis : o[(i, k / 4).1 * pitch + (i, k / 4).2 * 4 + k % 4]? = some 0 :=
      hcontent (i, k / 4) hq (k % 4) (by omega)
    have he : (i, k / 4).1 * pitch + (i, k / 4).2 * 4 + k % 4 = i * pitch + k := by
      show i * pitch + k / 4 * 4 + k % 4 = i * pitch + k
      omega
    rw [← he]
    exact hthis

/-- C4: any 16-byte BC6H block whose 5-bit mode prefix is one of the
reserved values 19, 23, 27 or 31 decodes to an all-zero 4x4 tile of
half-floats without an error, and any 16-byte BC7 block whose first byte is
zero (eight leading zero bits, so mode >= 8) decodes to an all-zero 4x4
RGBA8 tile without an error. -/
theorem c4_reserved_modes_zero_fill :
    (∀ (c0 : Nat) (rest buf : List Nat) (pitch : Nat) (isSigned : Bool),
      rest.length = 15 →
      (c0 % 32 = 19 ∨ c0 % 32 = 23 ∨ c0 % 32 = 27 ∨ c0 % 32 = 31) →
      12 ≤ pitch → 3 * pitch + 12 ≤ buf.length →
      ∃ out, decode_block_bc6h (c0 :: rest) buf pitch isSigned = some out ∧
        out.length = buf.length ∧
        ∀ i, i < 4 → ∀ k, k < 12 → out[i * pitch + k]? = some 0) ∧
    (∀ (rest buf : List Nat) (pitch : Nat),
      rest.length = 15 → 16 ≤ pitch → 3 * pitch + 16 ≤ buf.length →
      ∃ out, decode_block_bc7 (0 :: rest) buf pitch = some out ∧
        out.length = buf.length ∧
        ∀ i, i < 4 → ∀ k, k < 16 → out[i * pitch + k]? = some 0) :=
  ⟨fun c0 rest buf pitch isSigned hrest hres hp hlen =>
    bc6h_reserved_zero c0 rest buf pitch isSigned hrest hres hp hlen,
   fun rest buf pitch hrest hp hlen =>
    bc7_invalid_zero rest buf pitch hrest hp hlen⟩

theorem c4_reserved_modes_zero_fill_witness :
    (∃ out, decode_block_bc6h (19 :: List.replicate 15 0)
        (List.replicate 48 (7 : Nat)) 12 false = some out ∧
      out.length = (List.replicate 48 (7 : Nat)).length ∧
      ∀ i, i < 4 → ∀ k, k < 12 → out[i * 12 + k]? = some 0) ∧
    (∃ out, decode_block_bc7 (0 :: List.replicate 15 0)
        (List.replicate 64 (7 : Nat)) 16 = some out ∧
      out.length = (List.replicate 64 (7 : Nat)).length ∧
      ∀ i, i < 4 → ∀ k, k < 16 → out[i * 16 + k]? = some 0) :=
  ⟨c4_reserved_modes_zero_fill.1 19 (List.replicate 15 0)
      (List.replicate 48 (7 : Nat)) 12 false (by decide) (by decide) (by decide)
      (by decide),
   c4_reserved_modes_zero_fill.2 (List.replicate 15 0)
      (List.replicate 64 (7 : Nat)) 16 (by decide) (by decide) (by decide)⟩

/-- The shape invariant of the BC7 endpoint array: six rows of four
components. -/
def bc7EpsShape (eps : List (List Int)) : Prop :=
  eps.length = 6 ∧ ∀ row ∈ eps, row.length = 4

theorem bc7EpsShape_replicate : bc7EpsShape (List.replicate 6 [0, 0, 0, 0]) := by
  constructor
  · rfl
  · intro row hrow
    rw [List.eq_of_mem_replicate hrow]
    rfl

theorem bc7EpsShape_mapIdx (eps : List (List Int)) (f : Nat → List Int → List Int)
    (h : bc7EpsShape eps) (hf : ∀ i row, row.length = 4 → (f i row).length = 4) :
    bc7EpsShape (eps.mapIdx f) := by
  obtain ⟨hl, hr⟩ := h
  constructor
  · rw [List.length_mapIdx]
    exact hl
  · intro row hrow
    obtain ⟨n, hn, heq⟩ := List.mem_iff_getElem.mp hrow
    rw [List.getElem_mapIdx] at heq
    rw [← heq]
    exact hf _ _ (hr _ (List.getElem_mem _))

theorem set2?_spec (eps : List (List Int)) (j i : Nat) (v : Int)
    (h : bc7EpsShape eps) (hj : j < 6) (hi : i < 4) :
    ∃ out, set2? eps j i v = some out ∧ bc7EpsShape out := by
  obtain ⟨hl, hr⟩ := h
  have hjl : j < eps.length := by omega
  have hrow := hr _ (List.getElem_mem hjl)
  refine ⟨eps.set j ((eps[j]).set i v), ?_, ?_, ?_⟩
  · unfold set2?
    rw [List.getElem?_eq_getElem hjl]
    simp only [Option.bind_eq_bind, Option.some_bind]
    rw [if_pos (by omega)]
    rfl
  · simp [hl]
  · intro row hrowmem
    rcases List.mem_or_eq_of_mem_set hrowmem with hmem | heq
    · exact hr _ hmem
    · rw [heq]
      simp [hrow]

theorem bc7ReadChannelLoop_some (bits i : Nat) (hi : i < 4) :
    ∀ (l : List Nat), (∀ j ∈ l, j < 6) → ∀ (eps : List (List Int)) (bs : BitStream),
    bc7EpsShape eps →
    ∃ r, bc7ReadChannelLoop bits i l eps bs = some r ∧ bc7EpsShape r.1 := by
  intro l
  induction l with
  | nil =>
    intro _ eps bs h
    exact ⟨(eps, bs), rfl, h⟩
  | cons j rest ih =>
    intro hmem eps bs h
    obtain ⟨hj, hmemr⟩ := List.forall_mem_cons.mp hmem
    obtain ⟨eps1, hset, hsh1⟩ := set2?_spec eps j i
      (((bs.read_bits bits).1 : Nat) : Int) h hj hi
    obtain ⟨r, hrest, hshr⟩ := ih hmemr eps1 (bs.read_bits bits).2 hsh1
    refine ⟨r, ?_, hshr⟩
    show (do
      let eps2 ← set2? eps j i ((bs.read_bits bits).1 : Int)
      bc7ReadChannelLoop bits i rest eps2 (bs.read_bits bits).2) = some r
    rw [hset]
    simp only [Option.bind_eq_bind, Option.some_bind]
    exact hrest

theorem bc7ReadRGB_some (bits numEndpoints : Nat) (hne : numEndpoints ≤ 6)
    (eps : List (List Int)) (bs : BitStream) (h : bc7EpsShape eps) :
    ∃ r, bc7ReadRGB bits numEndpoints eps bs = some r ∧ bc7EpsShape r.1 := by
  have hmem : ∀ j ∈ List.range numEndpoints, j < 6 := by
    intro j hj
    have := List.mem_range.mp hj
    omega
  obtain ⟨r0, h0, hs0⟩ := bc7ReadChannelLoop_some bits 0 (by omega) _ hmem eps bs h
  obtain ⟨r1, h1, hs1⟩ := bc7ReadChannelLoop_some bits 1 (by omega) _ hmem r0.1 r0.2 hs0
  obtain ⟨r2, h2, hs2⟩ := bc7ReadChannelLoop_some bits 2 (by omega) _ hmem r1.1 r1.2 hs1
  refine ⟨r2, ?_, hs2⟩
  unfold bc7ReadRGB
  rw [h0]
  simp only [Option.bind_eq_bind, Option.some_bind]
  rw [h1]
  simp only [Option.bind_eq_bind, Option.some_bind]
  exact h2

theorem bc7PBitLoop_some :
    ∀ (l : List Nat), (∀ j ∈ l, j < 6) → ∀ (eps : List (List Int)) (bs : BitStream),
    bc7EpsShape eps →
    ∃ r, bc7PBitLoop l eps bs = some r ∧ bc7EpsShape r.1 := by
  intro l
  induction l with
  | nil =>
    intro _ eps bs h
    exact ⟨(eps, bs), rfl, h⟩
  | cons j rest ih =>
    intro hmem eps bs h
    obtain ⟨hj, hmemr⟩ := List.forall_mem_cons.mp hmem
    obtain ⟨hl, hr⟩ := h
    have hjl : j < eps.length := by omega
    have hrow := hr _ (List.getElem_mem hjl)
    have hsh1 : bc7EpsShape (eps.set j ((eps[j]).map
        (fun c => lorI c ((bs.read_bit.1 : Nat) : Int)))) := by
      constructor
      · simp [hl]
      · intro row hrowmem
        rcases List.mem_or_eq_of_mem_set hrowmem with hmem2 | heq
        · exact hr _ hmem2
        · rw [heq]
          simp [hrow]
    obtain ⟨r, hrest, hshr⟩ := ih hmemr _ bs.read_bit.2 hsh1
    refine ⟨r, ?_, hshr⟩
    show (do
      let row ← eps[j]?
      bc7PBitLoop rest (eps.set j (row.map (fun c => lorI c ((bs.read_bit.1 : Nat) : Int))))
        bs.read_bit.2) = some r
    rw [List.getElem?_eq_getElem hjl]
    simp only [Option.bind_eq_bind, Option.some_bind]
    exact hrest

theorem partition_sets_bc7_length : PARTITION_SETS_BC7.length = 2 := rfl

theorem partition_sets_bc7_shape :
    ∀ t ∈ PARTITION_SETS_BC7, t.length = 64 ∧ ∀ p ∈ t, p.length = 4 ∧
      ∀ r ∈ p, r.length = 4 ∧ ∀ e ∈ r, e &&& 3 ≤ 2 := by
  decide

theorem bc7PartitionSet_spec (numPartitions partition i j : Nat)
    (hnp : numPartitions = 1 ∨ numPartitions = 2 ∨ numPartitions = 3)
    (hpart : partition < 64) (hi : i < 4) (hj : j < 4) :
    ∃ v, bc7PartitionSet numPartitions partition i j = some v ∧ v &&& 3 ≤ 2 := by
  rcases hnp with h1 | h23
  · refine ⟨if i ||| j = 0 then 128 else 0, ?_, ?_⟩
    · unfold bc7PartitionSet
      rw [if_pos h1]
      rfl
    · split
      · decide
      · decide
  · have hne1 : numPartitions ≠ 1 := by omega
    have hlt2 : numPartitions - 2 < PARTITION_SETS_BC7.length := by
      rw [partition_sets_bc7_length]
      omega
    unfold bc7PartitionSet
    rw [if_neg hne1, List.getElem?_eq_getElem hlt2]
    simp only [Option.bind_eq_bind, Option.some_bind]
    obtain ⟨ht64, hrows⟩ := partition_sets_bc7_shape _ (List.getElem_mem hlt2)
    have hplt : partition < (PARTITION_SETS_BC7[numPartitions - 2]).length := by omega
    rw [List.getElem?_eq_getElem hplt]
    simp only [Option.bind_eq_bind, Option.some_bind]
    obtain ⟨hp4, hrs⟩ := hrows _ (List.getElem_mem hplt)
    have hilt : i < (PARTITION_SETS_BC7[numPartitions - 2][partition]).length := by omega
    rw [List.getElem?_eq_getElem hilt]
    simp only [Option.bind_eq_bind, Option.some_bind]
    obtain ⟨hr4, hes⟩ := hrs _ (List.getElem_mem hilt)
    have hjlt : j < (PARTITION_SETS_BC7[numPartitions - 2][partition][i]).length := by
      omega
    rw [List.getElem?_eq_getElem hjlt]
    exact ⟨_, rfl, hes _ (List.getElem_mem hjlt)⟩

theorem bc7IndexLoop_some (numPartitions partition mode : Nat)
    (hnp : numPartitions = 1 ∨ numPartitions = 2 ∨ numPartitions = 3)
    (hpart : partition < 64) :
    ∀ (l : List (Nat × Nat)), (∀ q ∈ l, q.1 < 4 ∧ q.2 < 4) →
    ∀ (bs : BitStream) (acc : List Nat),
    ∃ r, bc7IndexLoop numPartitions partition mode l bs acc = some r ∧
      r.1.length = acc.length + l.length ∧
      ∀ v ∈ r.1, v ∈ acc ∨
        v < 2 ^ (if mode = 0 ∨ mode = 1 then 3 else if mode = 6 then 4 else 2) := by
  intro l
  induction l with
  | nil =>
    intro _ bs acc
    exact ⟨(acc, bs), rfl, by simp, fun v hv => Or.inl hv⟩
  | cons q rest ih =>
    obtain ⟨i, j⟩ := q
    intro hmem bs acc
    obtain ⟨⟨hi, hj⟩, hmemr⟩ := List.forall_mem_cons.mp hmem
    obtain ⟨pv, hpv, _⟩ := bc7PartitionSet_spec numPartitions partition i j hnp hpart hi hj
    obtain ⟨r, hrest, hrl, hrv⟩ := ih hmemr
      ((bs.read_bits ((if mode = 0 ∨ mode = 1 then 3 else if mode = 6 then 4 else 2) -
        (if pv &&& 0x80 ≠ 0 then 1 else 0))).2)
      (acc ++ [(bs.read_bits ((if mode = 0 ∨ mode = 1 then 3 else if mode = 6 then 4 else 2) -
        (if pv &&& 0x80 ≠ 0 then 1 else 0))).1])
    refine ⟨r, ?_, by simp at hrl ⊢; omega, ?_⟩
    · show (do
        let pset ← bc7PartitionSet numPartitions partition i j
        let idxBits := (if mode = 0 ∨ mode = 1 then 3 else if mode = 6 then 4 else 2) -
          (if pset &&& 0x80 ≠ 0 then 1 else 0)
        bc7IndexLoop numPartitions partition mode rest (bs.read_bits idxBits).2
          (acc ++ [(bs.read_bits idxBits).1])) = some r
      rw [hpv]
      simp only [Option.bind_eq_bind, Option.some_bind]
      exact hrest
    · intro v hv
      rcases hrv v hv with hin | hlt
      · rcases List.mem_append.mp hin with hacc | hnew
        · exact Or.inl hacc
        · right
          have heq := List.mem_singleton.mp hnew
          rw [heq]
          have hb := BitStream.read_bits_lt bs
            ((if mode = 0 ∨ mode = 1 then 3 else if mode = 6 then 4 else 2) -
              (if pv &&& 0x80 ≠ 0 then 1 else 0))
          have hle : (2 : Nat) ^ ((if mode = 0 ∨ mode = 1 then 3 else
              if mode = 6 then 4 else 2) - (if pv &&& 0x80 ≠ 0 then 1 else 0)) ≤
              2 ^ (if mode = 0 ∨ mode = 1 then 3 else if mode = 6 then 4 else 2) :=
            Nat.pow_le_pow_right (by omega) (by omega)
          omega
      · exact Or.inr hlt

theorem bc7InterpChannel_some (e0 e1 : List Int) (k : Nat) (weights : List Int)
    (index : Nat) (he0 : e0.length = 4) (he1 : e1.length = 4) (hk : k < 4)
    (hidx : index < weights.length) :
    bc7InterpChannel e0 e1 k weights index =
      some (asr ((e0.getD k 0) * (64 - weights.getD index 0) +
        (e1.getD k 0) * weights.getD index 0 + 32) 6) := by
  unfold bc7InterpChannel
  rw [List.getElem?_eq_getElem (by omega)]
  simp only [Option.bind_eq_bind, Option.some_bind]
  rw [List.getElem?_eq_getElem (by omega)]
  simp only [Option.bind_eq_bind, Option.some_bind]
  rw [interpolate_some _ _ _ _ hidx]
  rw [List.getD_eq_getElem _ _ (by omega : k < e0.length),
    List.getD_eq_getElem _ _ (by omega : k < e1.length)]

theorem bind_some_inv {α β : Type} {x : Option α} {f : α → Option β} {b : β}
    (h : x >>= f = some b) : ∃ a, x = some a ∧ f a = some b := by
  cases x with
  | none => simp at h
  | some a => exact ⟨a, rfl, by simpa using h⟩

theorem bind_isSome_of {α β : Type} {x : Option α} {f : α → Option β} (a : α)
    (hx : x = some a) (hf : (f a).isSome) : (x >>= f).isSome := by
  rw [hx]
  simpa using hf

theorem four_writes_isSome (buf : List Nat) (off : Nat) (v0 v1 v2 v3 : Nat)
    (tail : List Nat → Option (List Nat)) (hoff : off + 3 < buf.length)
    (htail : ∀ b : List Nat, b.length = buf.length → (tail b).isSome) :
    (do
      let b1 ← setByte? buf off v0
      let b2 ← setByte? b1 (off + 1) v1
      let b3 ← setByte? b2 (off + 2) v2
      let b4 ← setByte? b3 (off + 3) v3
      tail b4).isSome := by
  rw [setByte?_isSome (by omega)]
  simp only [Option.bind_eq_bind, Option.some_bind]
  rw [setByte?_isSome (by simp; omega)]
  simp only [Option.some_bind]
  rw [setByte?_isSome (by simp; omega)]
  simp only [Option.some_bind]
  rw [setByte?_isSome (by simp; omega)]
  simp only [Option.some_bind]
  exact htail _ (by simp)

theorem bc7Pass2Loop_length (numPartitions partition rotation idxSel : Nat)
    (eps : List (List Int)) (weights weights2 : List Int) (indexBits2 pitch : Nat) :
    ∀ (l : List (Nat × Nat)) (indices : List Nat) (bs : BitStream)
      (buf out : List Nat),
    bc7Pass2Loop numPartitions partition rotation idxSel eps weights weights2
      indexBits2 pitch l indices bs buf = some out → out.length = buf.length := by
  intro l
  induction l with
  | nil =>
    intro indices bs buf out h
    cases h
    rfl
  | cons q rest ih =>
    obtain ⟨i, j⟩ := q
    intro indices bs buf out h
    obtain ⟨pv, _, h⟩ := bind_some_inv h
    obtain ⟨idx, _, h⟩ := bind_some_inv h
    obtain ⟨e0, _, h⟩ := bind_some_inv h
    obtain ⟨e1, _, h⟩ := bind_some_inv h
    obtain ⟨res, _, h⟩ := bind_some_inv h
    obtain ⟨b1, hb1, h⟩ := bind_some_inv h
    obtain ⟨b2, hb2, h⟩ := bind_some_inv h
    obtain ⟨b3, hb3, h⟩ := bind_some_inv h
    obtain ⟨b4, hb4, h⟩ := bind_some_inv h
    have h1 := setByte?_length hb1
    have h2 := setByte?_length hb2
    have h3 := setByte?_length hb3
    have h4 := setByte?_length hb4
    have h5 := ih indices res.2.2.2.2 b4 out h
    omega

theorem bc7Pass2Loop_isSome (numPartitions partition rotation idxSel : Nat)
    (eps : List (List Int)) (weights weights2 : List Int) (indexBits2 pitch : Nat)
    (hnp : numPartitions = 1 ∨ numPartitions = 2 ∨ numPartitions = 3)
    (hpart : partition < 64) (hsh : bc7EpsShape eps)
    (hw2 : indexBits2 ≠ 0 → 2 ^ indexBits2 ≤ weights2.length) (hp : 16 ≤ pitch) :
    ∀ (l : List (Nat × Nat)), (∀ q ∈ l, q.1 < 4 ∧ q.2 < 4) →
    ∀ (indices : List Nat), indices.length = 16 →
      (∀ v ∈ indices, v < weights.length) →
    ∀ (bs : BitStream) (buf : List Nat), 3 * pitch + 16 ≤ buf.length →
    (bc7Pass2Loop numPartitions partition rotation idxSel eps weights weights2
      indexBits2 pitch l indices bs buf).isSome := by
  intro l
  induction l with
  | nil =>
    intro _ indices _ _ bs buf _
    rfl
  | cons q rest ih =>
    obtain ⟨i, j⟩ := q
    intro hmem indices hilen hiv bs buf hlen
    obtain ⟨⟨hi, hj⟩, hmemr⟩ := List.forall_mem_cons.mp hmem
    obtain ⟨pv, hpv, hpv3⟩ :=
      bc7PartitionSet_spec numPartitions partition i j hnp hpart hi hj
    have hidxlt : i * 4 + j < indices.length := by omega
    obtain ⟨idxv, hIdxEq, hIdxLt⟩ :
        ∃ v, indices[i * 4 + j]? = some v ∧ v < weights.length :=
      ⟨indices[i * 4 + j], List.getElem?_eq_getElem hidxlt,
        hiv _ (List.getElem_mem hidxlt)⟩
    have hb0 : (pv &&& 3) * 2 < eps.length := by
      rw [hsh.1]
      omega
    have hb1 : (pv &&& 3) * 2 + 1 < eps.length := by
      rw [hsh.1]
      omega
    obtain ⟨E0, hE0Eq, hE0len⟩ :
        ∃ E0, eps[(pv &&& 3) * 2]? = some E0 ∧ E0.length = 4 :=
      ⟨_, List.getElem?_eq_getElem hb0, hsh.2 _ (List.getElem_mem hb0)⟩
    obtain ⟨E1, hE1Eq, hE1len⟩ :
        ∃ E1, eps[(pv &&& 3) * 2 + 1]? = some E1 ∧ E1.length = 4 :=
      ⟨_, List.getElem?_eq_getElem hb1, hsh.2 _ (List.getElem_mem hb1)⟩
    have hoff : i * pitch + j * 4 + 3 < buf.length := by
      have h1 : i * pitch ≤ 3 * pitch := Nat.mul_le_mul_right pitch (by omega)
      omega
    have hres : ∃ v, bc7Pass2Interp idxSel E0 E1 weights weights2 indexBits2 i j
        idxv bs = some v := by
      unfold bc7Pass2Interp
      by_cases hib : indexBits2 = 0
      · rw [if_pos hib]
        rw [bc7InterpChannel_some E0 E1 0 weights idxv hE0len hE1len (by omega) hIdxLt]
        simp only [Option.bind_eq_bind, Option.some_bind]
        rw [bc7InterpChannel_some E0 E1 1 weights idxv hE0len hE1len (by omega) hIdxLt]
        simp only [Option.some_bind]
        rw [bc7InterpChannel_some E0 E1 2 weights idxv hE0len hE1len (by omega) hIdxLt]
        simp only [Option.some_bind]
        rw [bc7InterpChannel_some E0 E1 3 weights idxv hE0len hE1len (by omega) hIdxLt]
        simp only [Option.some_bind]
        exact ⟨_, rfl⟩
      · rw [if_neg hib]
        have hI2 : (bs.read_bits (if i ||| j = 0 then indexBits2 - 1
            else indexBits2)).1 < weights2.length := by
          have hb := BitStream.read_bits_lt bs
            (if i ||| j = 0 then indexBits2 - 1 else indexBits2)
          have hle : (2 : Nat) ^ (if i ||| j = 0 then indexBits2 - 1
              else indexBits2) ≤ 2 ^ indexBits2 :=
            Nat.pow_le_pow_right (by omega) (by split <;> omega)
          have hw2b := hw2 hib
          omega
        by_cases hsel : idxSel = 0
        · rw [if_pos hsel]
          rw [bc7InterpChannel_some E0 E1 0 weights idxv hE0len hE1len (by omega) hIdxLt]
          simp only [Option.bind_eq_bind, Option.some_bind]
          rw [bc7InterpChannel_some E0 E1 1 weights idxv hE0len hE1len (by omega) hIdxLt]
          simp only [Option.some_bind]
          rw [bc7InterpChannel_some E0 E1 2 weights idxv hE0len hE1len (by omega) hIdxLt]
          simp only [Option.some_bind]
          rw [bc7InterpChannel_some E0 E1 3 weights2 _ hE0len hE1len (by omega) hI2]
          simp only [Option.some_bind]
          exact ⟨_, rfl⟩
        · rw [if_neg hsel]
          rw [bc7InterpChannel_some E0 E1 0 weights2 _ hE0len hE1len (by omega) hI2]
          simp only [Option.bind_eq_bind, Option.some_bind]
          rw [bc7InterpChannel_some E0 E1 1 weights2 _ hE0len hE1len (by omega) hI2]
          simp only [Option.some_bind]
          rw [bc7InterpChannel_some E0 E1 2 weights2 _ hE0len hE1len (by omega) hI2]
          simp only [Option.some_bind]
          rw [bc7InterpChannel_some E0 E1 3 weights idxv hE0len hE1len (by omega) hIdxLt]
          simp only [Option.some_bind]
          exact ⟨_, rfl⟩
    obtain ⟨resv, hresEq⟩ := hres
    apply bind_isSome_of pv hpv
    apply bind_isSome_of idxv hIdxEq
    apply bind_isSome_of E0 hE0Eq
    apply bind_isSome_of E1 hE1Eq
    apply bind_isSome_of resv hresEq
    apply four_writes_isSome _ _ _ _ _ _ _ (by omega)
    intro b hb
    exact ih hmemr indices hilen hiv _ _ (by omega)

theorem bc7_alpha_phase_some (alphaBits numEndpoints : Nat)
    (eps : List (List Int)) (bs : BitStream) (hne : numEndpoints ≤ 6)
    (h : bc7EpsShape eps) :
    ∃ r, bc7_alpha_phase alphaBits numEndpoints eps bs = some r ∧
      bc7EpsShape r.1 := by
  unfold bc7_alpha_phase
  split
  · have hmem : ∀ j ∈ List.range numEndpoints, j < 6 := by
      intro j hj
      have := List.mem_range.mp hj
      omega
    exact bc7ReadChannelLoop_some alphaBits 3 (by omega) _ hmem eps bs h
  · exact ⟨(eps, bs), rfl, h⟩

theorem bc7_pbit_phase_some (mode numEndpoints : Nat)
    (eps : List (List Int)) (bs : BitStream) (hne : numEndpoints ≤ 6)
    (h : bc7EpsShape eps) :
    ∃ r, bc7_pbit_phase mode numEndpoints eps bs = some r ∧
      bc7EpsShape r.1 := by
  have hdbl : bc7EpsShape (eps.mapIdx (fun j row =>
      if j < numEndpoints then row.map (fun c => c * 2) else row)) := by
    apply bc7EpsShape_mapIdx _ _ h
    intro i row hrow
    split
    · simp [hrow]
    · exact hrow
  unfold bc7_pbit_phase
  split
  · split
    · refine ⟨_, rfl, ?_⟩
      apply bc7EpsShape_mapIdx _ _ hdbl
      intro i row hrow
      split
      · simp [hrow]
      · exact hrow
    · split
      · have hmem : ∀ j ∈ List.range numEndpoints, j < 6 := by
          intro j hj
          have := List.mem_range.mp hj
          omega
        exact bc7PBitLoop_some _ hmem _ bs hdbl
      · exact ⟨_, rfl, hdbl⟩
  · exact ⟨(eps, bs), rfl, h⟩

theorem bc7_partition_info_facts (mode : Nat) (bs : BitStream) :
    ((bc7_partition_info mode bs).1 = 1 ∨ (bc7_partition_info mode bs).1 = 2 ∨
      (bc7_partition_info mode bs).1 = 3) ∧ (bc7_partition_info mode bs).2.1 < 64 := by
  unfold bc7_partition_info
  split
  · constructor
    · show (if mode = 0 ∨ mode = 2 then (3 : Nat) else 2) = 1 ∨
        (if mode = 0 ∨ mode = 2 then (3 : Nat) else 2) = 2 ∨
        (if mode = 0 ∨ mode = 2 then (3 : Nat) else 2) = 3
      by_cases h02 : mode = 0 ∨ mode = 2
      · rw [if_pos h02]
        exact Or.inr (Or.inr rfl)
      · rw [if_neg h02]
        exact Or.inr (Or.inl rfl)
    · show (bs.read_bits (if mode = 0 then 4 else 6)).1 < 64
      have hb := BitStream.read_bits_lt bs (if mode = 0 then 4 else 6)
      have hle : (2 : Nat) ^ (if mode = 0 then 4 else 6) ≤ 64 := by
        split <;> norm_num
      omega
  · exact ⟨Or.inl rfl, by show (0 : Nat) < 64; omega⟩

theorem actual_bits_count_bc7_row_length :
    (ACTUAL_BITS_COUNT_BC7.getD 0 []).length = 8 ∧
      (ACTUAL_BITS_COUNT_BC7.getD 1 []).length = 8 := by
  decide

theorem bc7_decode_mode_length (mode : Nat) (bs : BitStream)
    (buf : List Nat) (pitch : Nat) (out : List Nat)
    (h : bc7_decode_mode mode bs buf pitch = some out) :
    out.length = buf.length := by
  unfold bc7_decode_mode at h
  obtain ⟨row0, _, h⟩ := bind_some_inv h
  obtain ⟨cb, _, h⟩ := bind_some_inv h
  obtain ⟨row1, _, h⟩ := bind_some_inv h
  obtain ⟨ab, _, h⟩ := bind_some_inv h
  obtain ⟨re, _, h⟩ := bind_some_inv h
  obtain ⟨ra, _, h⟩ := bind_some_inv h
  obtain ⟨pb, _, h⟩ := bind_some_inv h
  obtain ⟨ix, _, h⟩ := bind_some_inv h
  exact bc7Pass2Loop_length _ _ _ _ _ _ _ _ _ _ _ _ _ _ h

theorem bc7_decode_mode_isSome (mode : Nat) (bs : BitStream) (buf : List Nat)
    (pitch : Nat) (hm : mode < 8) (hp : 16 ≤ pitch)
    (hlen : 3 * pitch + 16 ≤ buf.length) :
    (bc7_decode_mode mode bs buf pitch).isSome := by
  obtain ⟨hnp, hpart⟩ := bc7_partition_info_facts mode bs
  obtain ⟨hr0len, hr1len⟩ := actual_bits_count_bc7_row_length
  have hne : (bc7_partition_info mode bs).1 * 2 ≤ 6 := by
    rcases hnp with h | h | h <;> omega
  have hrow0 : ACTUAL_BITS_COUNT_BC7[0]? = some (ACTUAL_BITS_COUNT_BC7.getD 0 []) := rfl
  have hrow1 : ACTUAL_BITS_COUNT_BC7[1]? = some (ACTUAL_BITS_COUNT_BC7.getD 1 []) := rfl
  obtain ⟨cbv, hcb⟩ : ∃ v, (ACTUAL_BITS_COUNT_BC7.getD 0 [])[mode]? = some v :=
    ⟨_, List.getElem?_eq_getElem (by omega)⟩
  obtain ⟨abv, hab⟩ : ∃ v, (ACTUAL_BITS_COUNT_BC7.getD 1 [])[mode]? = some v :=
    ⟨_, List.getElem?_eq_getElem (by omega)⟩
  obtain ⟨rev, hre, hres⟩ := bc7ReadRGB_some cbv ((bc7_partition_info mode bs).1 * 2)
    hne (List.replicate 6 [0, 0, 0, 0])
    (bc7_rotation_info mode (bc7_partition_info mode bs).2.2).2.2 bc7EpsShape_replicate
  obtain ⟨rav, hra, hras⟩ := bc7_alpha_phase_some abv
    ((bc7_partition_info mode bs).1 * 2) rev.1 rev.2 hne hres
  obtain ⟨pbv, hpb, hpbs⟩ := bc7_pbit_phase_some mode
    ((bc7_partition_info mode bs).1 * 2) rav.1 rav.2 hne hras
  obtain ⟨ixv, hix, hixlen, hixv⟩ := bc7IndexLoop_some (bc7_partition_info mode bs).1
    (bc7_partition_info mode bs).2.1 mode hnp hpart pixelPairs (by decide) pbv.2 []
  have hsh1 : bc7EpsShape (bc7PrecisionAdjust
      (cbv + ((MODE_HAS_P_BITS >>> mode) &&& 1))
      (abv + ((MODE_HAS_P_BITS >>> mode) &&& 1))
      ((bc7_partition_info mode bs).1 * 2) pbv.1) := by
    unfold bc7PrecisionAdjust
    apply bc7EpsShape_mapIdx _ _ hpbs
    intro i row hrow
    split
    · simp [hrow]
    · exact hrow
  have hsh2 : bc7EpsShape (if abv = 0 then
      (bc7PrecisionAdjust (cbv + ((MODE_HAS_P_BITS >>> mode) &&& 1))
        (abv + ((MODE_HAS_P_BITS >>> mode) &&& 1))
        ((bc7_partition_info mode bs).1 * 2) pbv.1).mapIdx (fun j row =>
          if j < (bc7_partition_info mode bs).1 * 2 then row.set 3 0xFF else row)
      else bc7PrecisionAdjust (cbv + ((MODE_HAS_P_BITS >>> mode) &&& 1))
        (abv + ((MODE_HAS_P_BITS >>> mode) &&& 1))
        ((bc7_partition_info mode bs).1 * 2) pbv.1) := by
    split
    · apply bc7EpsShape_mapIdx _ _ hsh1
      intro i row hrow
      split
      · simp [hrow]
      · exact hrow
    · exact hsh1
  have hw2 : (if mode = 4 then 3 else if mode = 5 then 2 else 0) ≠ 0 →
      2 ^ (if mode = 4 then 3 else if mode = 5 then 2 else 0) ≤
        (if (if mode = 4 then 3 else if mode = 5 then 2 else 0) = 2 then WEIGHT2
          else WEIGHT3).length := by
    intro hnz
    by_cases h4 : mode = 4
    · subst h4
      decide
    · by_cases h5 : mode = 5
      · subst h5
        decide
      · exfalso
        apply hnz
        rw [if_neg h4, if_neg h5]
  have hilen16 : ixv.1.length = 16 := by
    rw [hixlen]
    decide
  have hwmain : ∀ v ∈ ixv.1, v <
      (if (if mode = 0 ∨ mode = 1 then 3 else if mode = 6 then 4 else 2) = 2 then
        WEIGHT2
      else if (if mode = 0 ∨ mode = 1 then 3 else if mode = 6 then 4 else 2) = 3 then
        WEIGHT3
      else WEIGHT4).length := by
    intro v hv
    rcases hixv v hv with hin | hlt
    · exact absurd hin (List.not_mem_nil v)
    · have hle : 2 ^ (if mode = 0 ∨ mode = 1 then 3 else if mode = 6 then 4 else 2) ≤
          (if (if mode = 0 ∨ mode = 1 then 3 else if mode = 6 then 4 else 2) = 2 then
            WEIGHT2
          else if (if mode = 0 ∨ mode = 1 then 3 else
              if mode = 6 then 4 else 2) = 3 then
            WEIGHT3
          else WEIGHT4).length := by
        by_cases h01 : mode = 0 ∨ mode = 1
        · rw [if_pos h01]
          decide
        · rw [if_neg h01]
          by_cases h6 : mode = 6
          · rw [if_pos h6]
            decide
          · rw [if_neg h6]
            decide
      omega
  unfold bc7_decode_mode
  apply bind_isSome_of _ hrow0
  apply bind_isSome_of cbv hcb
  apply bind_isSome_of _ hrow1
  apply bind_isSome_of abv hab
  apply bind_isSome_of rev hre
  apply bind_isSome_of rav hra
  apply bind_isSome_of pbv hpb
  apply bind_isSome_of ixv hix
  exact bc7Pass2Loop_isSome _ _ _ _ _ _ _ _ _ hnp hpart hsh2 hw2 hp
    pixelPairs (by decide) ixv.1 hilen16 hwmain ixv.2 buf hlen

theorem decode_block_bc7_some (compressed buf : List Nat) (pitch : Nat)
    (hc : 16 ≤ compressed.length) (hp : 16 ≤ pitch)
    (hlen : 3 * pitch + 16 ≤ buf.length) :
    ∃ out, decode_block_bc7 compressed buf pitch = some out ∧
      out.length = buf.length := by
  unfold decode_block_bc7 BitStream.new
  rw [if_pos hc]
  simp only [Option.bind_eq_bind, Option.some_bind]
  by_cases h8 : (bc7_mode_loop 8 0 ⟨fromLeBytes (compressed.take 8),
      fromLeBytes ((compressed.drop 8).take 8)⟩).1 ≥ 8
  · rw [if_pos h8]
    unfold bc7_zero_fill
    obtain ⟨o, ho, hl, _, _⟩ :=
      bc7ZeroFillLoop_spec pitch hp pixelPairs (by decide) (by decide) buf hlen
    exact ⟨o, ho, hl⟩
  · rw [if_neg h8]
    have hs := bc7_decode_mode_isSome
      ((bc7_mode_loop 8 0 ⟨fromLeBytes (compressed.take 8),
        fromLeBytes ((compressed.drop 8).take 8)⟩).1)
      ((bc7_mode_loop 8 0 ⟨fromLeBytes (compressed.take 8),
        fromLeBytes ((compressed.drop 8).take 8)⟩).2)
      buf pitch (by omega) hp hlen
    obtain ⟨out, hout⟩ := Option.isSome_iff_exists.mp hs
    exact ⟨out, hout, bc7_decode_mode_length _ _ _ _ _ hout⟩

theorem decode_smooth_alpha_block_some (ps : Nat) (compressed buf : List Nat)
    (pitch : Nat) (hs : 1 ≤ ps) (hp : 4 * ps ≤ pitch) (h8 : 8 ≤ compressed.length)
    (hlen : 3 * pitch + 3 * ps < buf.length) :
    ∃ out, decode_smooth_alpha_block ps compressed buf pitch = some out ∧
      out.length = buf.length := by
  unfold decode_smooth_alpha_block
  rw [getByte?_eq (by omega), getByte?_eq (by omega), getByte?_eq (by omega),
    getByte?_eq (by omega), getByte?_eq (by omega), getByte?_eq (by omega),
    getByte?_eq (by omega), getByte?_eq (by omega)]
  simp only [Option.bind_eq_bind, Option.some_bind]
  have halpha : ∀ a0 a1 : Nat, (if a0 > a1 then
      [a0, a1, (6 * a0 + a1) / 7, (5 * a0 + 2 * a1) / 7, (4 * a0 + 3 * a1) / 7,
       (3 * a0 + 4 * a1) / 7, (2 * a0 + 5 * a1) / 7, (a0 + 6 * a1) / 7]
    else
      [a0, a1, (4 * a0 + a1) / 5, (3 * a0 + 2 * a1) / 5, (2 * a0 + 3 * a1) / 5,
       (a0 + 4 * a1) / 5, 0x00, 0xFF] : List Nat).length = 8 := by
    intro a0 a1
    split <;> rfl
  obtain ⟨out, hloop, hl, _, _⟩ := smoothAlphaPixelLoop_spec _ (halpha _ _) ps pitch
    hs hp pixelPairs (by decide) (by decide) _ buf hlen
  exact ⟨out, hloop, hl⟩

theorem decode_block_bc1_some (compressed buf : List Nat) (pitch : Nat)
    (h8 : 8 ≤ compressed.length) (hp : 16 ≤ pitch)
    (hlen : 3 * pitch + 16 ≤ buf.length) :
    ∃ out, decode_block_bc1 compressed buf pitch = some out ∧
      out.length = buf.length := by
  obtain ⟨out, h, hl, _, _⟩ := decode_color_block_spec false compressed buf pitch h8 hp hlen
  exact ⟨out, h, hl⟩

theorem decode_block_bc2_some (compressed buf : List Nat) (pitch : Nat)
    (h16 : 16 ≤ compressed.length) (hp : 16 ≤ pitch)
    (hlen : 3 * pitch + 16 ≤ buf.length) :
    ∃ out, decode_block_bc2 compressed buf pitch = some out ∧
      out.length = buf.length := by
  obtain ⟨b1, hc, hcl, _, _⟩ := decode_color_block_spec true (compressed.drop 8) buf
    pitch (by rw [List.length_drop]; omega) hp hlen
  obtain ⟨b2, hsharp, hsl, _⟩ := sharpAlphaPixelLoop_spec compressed (by omega) pitch
    pixelPairs (by decide) b1 (by omega) hp
  refine ⟨b2, ?_, by omega⟩
  unfold decode_block_bc2
  rw [if_pos (show 8 ≤ compressed.length by omega)]
  rw [hc]
  simp only [Option.bind_eq_bind, Option.some_bind]
  unfold decode_sharp_alpha_block
  exact hsharp

theorem decode_block_bc3_some (compressed buf : List Nat) (pitch : Nat)
    (h16 : 16 ≤ compressed.length) (hp : 16 ≤ pitch)
    (hlen : 3 * pitch + 16 ≤ buf.length) :
    ∃ out, decode_block_bc3 compressed buf pitch = some out ∧
      out.length = buf.length := by
  obtain ⟨b1, hc, hcl, _, _⟩ := decode_color_block_spec true (compressed.drop 8) buf
    pitch (by rw [List.length_drop]; omega) hp hlen
  obtain ⟨b2, hsm, hsml⟩ := decode_smooth_alpha_block_some 4 compressed (b1.drop 3)
    pitch (by omega) (by omega) (by omega) (by rw [List.length_drop]; omega)
  have h1 : b2.length = b1.length - 3 := by rw [hsml, List.length_drop]
  have h2 : (b1.take 3).length = min 3 b1.length := List.length_take _ _
  refine ⟨b1.take 3 ++ b2, ?_, ?_⟩
  · unfold decode_block_bc3
    rw [if_pos (show 8 ≤ compressed.length ∧ 3 ≤ buf.length from ⟨by omega, by omega⟩)]
    rw [hc]
    simp only [Option.bind_eq_bind, Option.some_bind]
    rw [hsm]
    simp only [Option.some_bind, Option.pure_def]
  · rw [List.length_append]
    omega

theorem decode_block_bc4_some (compressed buf : List Nat) (pitch : Nat)
    (h8 : 8 ≤ compressed.length) (hp : 4 ≤ pitch)
    (hlen : 3 * pitch + 3 < buf.length) :
    ∃ out, decode_block_bc4 compressed buf pitch = some out ∧
      out.length = buf.length := by
  unfold decode_block_bc4
  exact decode_smooth_alpha_block_some 1 compressed buf pitch (by omega) (by omega)
    h8 (by omega)

theorem decode_block_bc5_some (compressed buf : List Nat) (pitch : Nat)
    (h16 : 16 ≤ compressed.length) (hp : 8 ≤ pitch)
    (hlen : 3 * pitch + 8 ≤ buf.length) :
    ∃ out, decode_block_bc5 compressed buf pitch = some out ∧
      out.length = buf.length := by
  obtain ⟨b1, hs1, hl1⟩ := decode_smooth_alpha_block_some 2 compressed buf pitch
    (by omega) (by omega) (by omega) (by omega)
  obtain ⟨b2, hs2, hl2⟩ := decode_smooth_alpha_block_some 2 (compressed.drop 8)
    (b1.drop 1) pitch (by omega) (by omega) (by rw [List.length_drop]; omega)
    (by rw [List.length_drop]; omega)
  have h1 : b2.length = b1.length - 1 := by rw [hl2, List.length_drop]
  have h2 : (b1.take 1).length = min 1 b1.length := List.length_take _ _
  refine ⟨b1.take 1 ++ b2, ?_, ?_⟩
  · unfold decode_block_bc5
    rw [if_pos (show 8 ≤ compressed.length ∧ 1 ≤ buf.length from ⟨by omega, by omega⟩)]
    rw [hs1]
    simp only [Option.bind_eq_bind, Option.some_bind]
    rw [hs2]
    simp only [Option.some_bind, Option.pure_def]
  · rw [List.length_append]
    omega

/-- C5: all seven block decoders are total on arbitrary block bytes: for any
compressed bytes of the documented block size and any output slice of the
documented tile size and pitch, each decoder returns an output (no
out-of-bounds table lookup, bit-stream read, or slice access occurs) of
unchanged length. -/
theorem c5_decoders_total :
    (∀ (compressed buf : List Nat) (pitch : Nat), 8 ≤ compressed.length →
      16 ≤ pitch → 3 * pitch + 16 ≤ buf.length →
      ∃ out, decode_block_bc1 compressed buf pitch = some out ∧
        out.length = buf.length) ∧
    (∀ (compressed buf : List Nat) (pitch : Nat), 16 ≤ compressed.length →
      16 ≤ pitch → 3 * pitch + 16 ≤ buf.length →
      ∃ out, decode_block_bc2 compressed buf pitch = some out ∧
        out.length = buf.length) ∧
    (∀ (compressed buf : List Nat) (pitch : Nat), 16 ≤ compressed.length →
      16 ≤ pitch → 3 * pitch + 16 ≤ buf.length →
      ∃ out, decode_block_bc3 compressed buf pitch = some out ∧
        out.length = buf.length) ∧
    (∀ (compressed buf : List Nat) (pitch : Nat), 8 ≤ compressed.length →
      4 ≤ pitch → 3 * pitch + 3 < buf.length →
      ∃ out, decode_block_bc4 compressed buf pitch = some out ∧
        out.length = buf.length) ∧
    (∀ (compressed buf : List Nat) (pitch : Nat), 16 ≤ compressed.length →
      8 ≤ pitch → 3 * pitch + 8 ≤ buf.length →
      ∃ out, decode_block_bc5 compressed buf pitch = some out ∧
        out.length = buf.length) ∧
    (∀ (compressed buf : List Nat) (pitch : Nat) (isSigned : Bool),
      16 ≤ compressed.length → 12 ≤ pitch → 3 * pitch + 12 ≤ buf.length →
      ∃ out, decode_block_bc6h compressed buf pitch isSigned = some out ∧
        out.length = buf.length) ∧
    (∀ (compressed buf : List Nat) (pitch : Nat), 16 ≤ compressed.length →
      16 ≤ pitch → 3 * pitch + 16 ≤ buf.length →
      ∃ out, decode_block_bc7 compressed buf pitch = some out ∧
        out.length = buf.length) :=
  ⟨fun c b p h1 h2 h3 => decode_block_bc1_some c b p h1 h2 h3,
   fun c b p h1 h2 h3 => decode_block_bc2_some c b p h1 h2 h3,
   fun c b p h1 h2 h3 => decode_block_bc3_some c b p h1 h2 h3,
   fun c b p h1 h2 h3 => decode_block_bc4_some c b p h1 h2 h3,
   fun c b p h1 h2 h3 => decode_block_bc5_some c b p h1 h2 h3,
   fun c b p s h1 h2 h3 => decode_block_bc6h_some c b p s h1 h2 h3,
   fun c b p h1 h2 h3 => decode_block_bc7_some c b p h1 h2 h3⟩

theorem c5_decoders_total_witness :
    (∃ out, decode_block_bc1 (List.replicate 8 (255 : Nat))
        (List.replicate 64 (0 : Nat)) 16 = some out ∧
      out.length = (List.replicate 64 (0 : Nat)).length) ∧
    (∃ out, decode_block_bc2 (List.replicate 16 (255 : Nat))
        (List.replicate 64 (0 : Nat)) 16 = some out ∧
      out.length = (List.replicate 64 (0 : Nat)).length) ∧
    (∃ out, decode_block_bc3 (List.replicate 16 (255 : Nat))
        (List.replicate 64 (0 : Nat)) 16 = some out ∧
      out.length = (List.replicate 64 (0 : Nat)).length) ∧
    (∃ out, decode_block_bc4 (List.replicate 8 (255 : Nat))
        (List.replicate 16 (0 : Nat)) 4 = some out ∧
      out.length = (List.replicate 16 (0 : Nat)).length) ∧
    (∃ out, decode_block_bc5 (List.replicate 16 (255 : Nat))
        (List.replicate 32 (0 : Nat)) 8 = some out ∧
      out.length = (List.replicate 32 (0 : Nat)).length) ∧
    (∃ out, decode_block_bc6h (List.replicate 16 (255 : Nat))
        (List.replicate 48 (0 : Nat)) 12 true = some out ∧
      out.length = (List.replicate 48 (0 : Nat)).length) ∧
    (∃ out, decode_block_bc7 (List.replicate 16 (255 : Nat))
        (List.replicate 64 (0 : Nat)) 16 = some out ∧
      out.length = (List.replicate 64 (0 : Nat)).length) :=
  ⟨c5_decoders_total.1 _ _ _ (by decide) (by decide) (by decide),
   c5_decoders_total.2.1 _ _ _ (by decide) (by decide) (by decide),
   c5_decoders_total.2.2.1 _ _ _ (by decide) (by decide) (by decide),
   c5_decoders_total.2.2.2.1 _ _ _ (by decide) (by decide) (by decide),
   c5_decoders_total.2.2.2.2.1 _ _ _ (by decide) (by decide) (by decide),
   c5_decoders_total.2.2.2.2.2.1 _ _ _ true (by decide) (by decide) (by decide),
   c5_decoders_total.2.2.2.2.2.2 _ _ _ (by decide) (by decide) (by decide)⟩

/-- Encoding settings for BC6H (src/settings.rs), `bool` fields stored as
`u32`. -/
structure BC6HSettings where
  slow_mode : Nat
  fast_mode : Nat
  refine_iterations_1p : Nat
  refine_iterations_2p : Nat
  fast_skip_threshold : Nat
deriving DecidableEq

/-- `BC6HSettings::very_fast`. -/
def BC6HSettings.very_fast : BC6HSettings :=
  { slow_mode := 0, fast_mode := 1, fast_skip_threshold := 0,
    refine_iterations_1p := 0, refine_iterations_2p := 0 }

/-- Encoding settings for BC7 (src/settings.rs). -/
structure BC7Settings where
  refine_iterations : List Nat
  mode_selection : List Nat
  skip_mode2 : Nat
  fast_skip_threshold_mode1 : Nat
  fast_skip_threshold_mode3 : Nat
  fast_skip_threshold_mode7 : Nat
  mode45_channel0 : Nat
  refine_iterations_channel : Nat
  channels : Nat
deriving DecidableEq

/-- `BC7Settings::opaque_ultra_fast`. -/
def BC7Settings.opaque_ultra_fast : BC7Settings :=
  { channels := 3, mode_selection := [0, 0, 0, 1], skip_mode2 := 1,
    fast_skip_threshold_mode1 := 3, fast_skip_threshold_mode3 := 1,
    fast_skip_threshold_mode7 := 0, mode45_channel0 := 0,
    refine_iterations_channel := 0, refine_iterations := [2, 2, 2, 1, 2, 2, 1, 0] }

/-- `CompressionVariant` (src/lib.rs): the BC6H and BC7 variants carry their
encoder settings. -/
inductive CompressionVariant where
  | BC1
  | BC2
  | BC3
  | BC4
  | BC5
  | BC6H (settings : BC6HSettings)
  | BC7 (settings : BC7Settings)
deriving DecidableEq

/-- `CompressionVariant::block_byte_size`. -/
def block_byte_size : CompressionVariant → Nat
  | .BC1 | .BC4 => 8
  | _ => 16

/-- `CompressionVariant::blocks_byte_size`: block count times block size,
dimensions rounded up to multiples of 4. -/
def blocks_byte_size (v : CompressionVariant) (width height : Nat) : Nat :=
  ((width + 3) / 4) * ((height + 3) / 4) * block_byte_size v

/-- The validation and dispatch skeleton of `compress_rgba8`
(src/encode.rs): the two divisibility asserts, the buffer-size assert (which
the source computes from `CompressionVariant::BC1` for every variant), and
the match on the variant. A panic is an `Except.error` carrying the
diagnostic; the five BC1-BC5 CPU compressors are modelled as returning (the
numerical output they write is not the subject of these claims), while the
BC6H and BC7 arms are the source's `unimplemented!` stubs. -/
def compress_rgba8 (variation : CompressionVariant)
    (rgbaLen blocksLen width height stride : Nat) : Except String Unit :=
  if height % 4 ≠ 0 then .error "assertion failed: height % 4 == 0"
  else if width % 4 ≠ 0 then .error "assertion failed: width % 4 == 0"
  else if blocksLen < blocks_byte_size .BC1 width height then
    .error "blocks_buffer size is too small to hold compressed blocks"
  else match variation with
    | .BC6H _ => .error "CPU based BC6H compression not yet implemented yet"
    | .BC7 _ => .error "CPU based BC7 compression not yet implemented yet"
    | _ => .ok ()

/-- The word-store loop of `BlockCompressorBC15::store_data`. -/
def storeWords : List Nat → Nat → List Nat → Option (List Nat)
  | [], _, buf => some buf
  | v :: rest, off, buf => do
      let buf ← writeU32LE buf off v
      storeWords rest (off + 4) buf

/-- Port of `BlockCompressorBC15::store_data`: writes `data` as little-endian
`u32` words at the block's byte offset; `none` models the slice
index-out-of-bounds panic. -/
def store_data (blocks_buffer : List Nat) (block_width xx yy : Nat)
    (data : List Nat) : Option (List Nat) :=
  storeWords data ((yy * block_width + xx) * (data.length * 4)) blocks_buffer

/-- C1 (code bug): `compress_rgba8` validates the destination size against
`CompressionVariant::BC1.blocks_byte_size` for every variant. For BC3 at 4x4
the variant needs 16 bytes but an 8-byte destination passes the validation
(`compress_rgba8` proceeds instead of panicking with the size diagnostic),
and the first block's `store_data` then panics out of bounds only after
having written the destination's first 8 bytes - contradicting the claim
that the misuse is detected up front with `dst` unchanged. -/
theorem c1_size_check_uses_bc1 :
    blocks_byte_size CompressionVariant.BC3 4 4 = 16 ∧
    blocks_byte_size CompressionVariant.BC1 4 4 = 8 ∧
    compress_rgba8 CompressionVariant.BC3 64 8 4 4 16 = Except.ok () ∧
    store_data (List.replicate 8 0) 1 0 0 [1, 2, 3, 4] = none ∧
    (do
      let b1 ← writeU32LE (List.replicate 8 0) 0 1
      writeU32LE b1 4 2) = some [1, 0, 0, 0, 2, 0, 0, 0] ∧
    [1, 0, 0, 0, 2, 0, 0, 0] ≠ List.replicate 8 (0 : Nat) := by
  refine ⟨rfl, rfl, rfl, by decide, by decide, by decide⟩

/-- C2 counterexample: with valid dimensions and an ample destination, the
BC6H arm of `compress_rgba8` panics `unimplemented!` instead of compressing
on the CPU, and likewise for BC7. -/
theorem c2_bc6h_bc7_unimplemented_counterexample :
    compress_rgba8 (CompressionVariant.BC6H BC6HSettings.very_fast) 64 16 4 4 16 =
      Except.error "CPU based BC6H compression not yet implemented yet" ∧
    compress_rgba8 (CompressionVariant.BC7 BC7Settings.opaque_ultra_fast) 64 16 4 4 16 =
      Except.error "CPU based BC7 compression not yet implemented yet" ∧
    compress_rgba8 (CompressionVariant.BC6H BC6HSettings.very_fast) 64 16 4 4 16 ≠
      Except.ok () := by
  refine ⟨rfl, rfl, fun hc => Except.noConfusion hc⟩

/-- C2 (amended): `compress_rgba8` dispatches BC1-BC5 to the CPU
compressors, but its BC6H and BC7 arms are `unimplemented!` stubs: for every
BC6H or BC7 variant and every input passing the validation asserts, the call
panics with the "not yet implemented" diagnostic instead of compressing. -/
theorem c2_bc6h_bc7_unimplemented (rgbaLen blocksLen width height stride : Nat)
    (hw : width % 4 = 0) (hh : height % 4 = 0)
    (hsize : blocks_byte_size CompressionVariant.BC1 width height ≤ blocksLen) :
    (∀ s : BC6HSettings,
      compress_rgba8 (CompressionVariant.BC6H s) rgbaLen blocksLen width height
        stride = Except.error "CPU based BC6H compression not yet implemented yet") ∧
    (∀ s : BC7Settings,
      compress_rgba8 (CompressionVariant.BC7 s) rgbaLen blocksLen width height
        stride = Except.error "CPU based BC7 compression not yet implemented yet") := by
  constructor
  · intro s
    unfold compress_rgba8
    rw [if_neg (by omega), if_neg (by omega), if_neg (by omega)]
  · intro s
    unfold compress_rgba8
    rw [if_neg (by omega), if_neg (by omega), if_neg (by omega)]

theorem c2_bc6h_bc7_unimplemented_witness :
    (∀ s : BC6HSettings,
      compress_rgba8 (CompressionVariant.BC6H s) 64 16 4 4 16 =
        Except.error "CPU based BC6H compression not yet implemented yet") ∧
    (∀ s : BC7Settings,
      compress_rgba8 (CompressionVariant.BC7 s) 64 16 4 4 16 =
        Except.error "CPU based BC7 compression not yet implemented yet") :=
  c2_bc6h_bc7_unimplemented 64 16 4 4 16 (by decide) (by decide) (by decide)

/-- `TaskStatus` (src/block_compressor.rs). -/
inductive TaskStatus where
  | Created
  | Dispatched
deriving DecidableEq

/-- A compression task (src/block_compressor.rs `Task`); the GPU handles
(texture view, block buffer, bind group) are identified by the task key. -/
structure Task where
  key : Nat
  dispatched : TaskStatus
  variant : CompressionVariant
  width : Nat
  height : Nat
  settings_offset : Option Nat
deriving DecidableEq

/-- The discriminant of a `CompressionVariant`: `Eq` and `Hash` of the
source compare only the discriminant (src/lib.rs), so the pipeline and
bind-group-layout maps are keyed by it. -/
def discriminant : CompressionVariant → Nat
  | .BC1 => 0
  | .BC2 => 1
  | .BC3 => 2
  | .BC4 => 3
  | .BC5 => 4
  | .BC6H _ => 5
  | .BC7 _ => 6

/-- What `BlockCompressor::compress` records on the compute pass for one
task: the pipeline variant, the dynamic bind-group offsets, and the
workgroup grid. -/
structure DispatchRecord where
  variant : CompressionVariant
  dynamicOffsets : List Nat
  workgroups : Nat × Nat × Nat
deriving DecidableEq

/-- The per-task body of `BlockCompressor::compress`: `[0, 0, offset]`
dynamic offsets when a settings offset is present, and ceil-div workgroup
counts over 4x4 blocks in 8x8 tiles. -/
def dispatchRecord (t : Task) : DispatchRecord :=
  { variant := t.variant
    dynamicOffsets :=
      match t.settings_offset with
      | none => []
      | some offset => [0, 0, offset]
    workgroups := (((t.width + 3) / 4 + 7) / 8, ((t.height + 3) / 4 + 7) / 8, 1) }

/-- The observable state of `BlockCompressor` for the task lifecycle: the
task list, the pending CPU-side settings vectors (cleared by `upload`), and
the discriminants holding pipelines / bind group layouts. -/
structure BlockCompressor where
  task : List Task
  bc6h_settings : List BC6HSettings
  bc7_settings : List BC7Settings
  pipelines : List Nat
  bind_group_layouts : List Nat
deriving DecidableEq

/-- Port of `BlockCompressor::add_task`: asserts the dimensions are
multiples of 4, requires a bind group layout for the variant, and pushes a
`Created` task. -/
def add_task (st : BlockCompressor) (key width height : Nat)
    (variant : CompressionVariant) (settings_offset : Option Nat) :
    Option BlockCompressor :=
  if height % 4 ≠ 0 then none
  else if width % 4 ≠ 0 then none
  else if st.bind_group_layouts.contains (discriminant variant) then
    some { st with task := st.task ++
      [{ key := key, dispatched := TaskStatus.Created, variant := variant,
         width := width, height := height, settings_offset := settings_offset }] }
  else none

/-- Port of `BlockCompressor::compress`: asserts the settings vectors were
uploaded, then for every task still in `Created` state marks it
`Dispatched`, looks up its pipeline (a panic when missing) and dispatches
its workgroups. The task list itself is never drained. -/
def compress (st : BlockCompressor) :
    Option (List DispatchRecord × BlockCompressor) :=
  if st.bc6h_settings ≠ [] then none
  else if st.bc7_settings ≠ [] then none
  else do
    let records ← (st.task.filter (fun t => t.dispatched = TaskStatus.Created)).mapM
      (fun t => if st.pipelines.contains (discriminant t.variant)
        then some (dispatchRecord t) else none)
    some (records,
      { st with task := st.task.map (fun t =>
          if t.dispatched = TaskStatus.Created
          then { t with dispatched := TaskStatus.Dispatched } else t) })

theorem mapM_some_length {α β : Type} (g : α → Option β) :
    ∀ (l : List α) (r : List β), l.mapM g = some r → r.length = l.length := by
  intro l
  induction l with
  | nil =>
    intro r h
    cases h
    rfl
  | cons a rest ih =>
    intro r h
    rw [List.mapM_cons] at h
    obtain ⟨b, hb, h⟩ := bind_some_inv h
    obtain ⟨bs, hbs, h⟩ := bind_some_inv h
    cases h
    simp [ih bs hbs]

theorem filter_eq_nil_of_false {α : Type} (p : α → Bool) :
    ∀ l : List α, (∀ x ∈ l, p x = false) → l.filter p = [] := by
  intro l
  induction l with
  | nil => intro _; rfl
  | cons a rest ih =>
    intro h
    obtain ⟨ha, hr⟩ := List.forall_mem_cons.mp h
    rw [List.filter_cons, ha]
    simpa using ih hr

theorem map_eq_self_of {α : Type} (f : α → α) :
    ∀ l : List α, (∀ x ∈ l, f x = x) → l.map f = l := by
  intro l
  induction l with
  | nil => intro _; rfl
  | cons a rest ih =>
    intro h
    obtain ⟨ha, hr⟩ := List.forall_mem_cons.mp h
    rw [List.map_cons, ha, ih hr]

/-- `compress` on a state whose tasks are all already dispatched issues no
work and leaves the state unchanged. -/
theorem compress_noop (st : BlockCompressor) (h6 : st.bc6h_settings = [])
    (h7 : st.bc7_settings = [])
    (hall : ∀ t ∈ st.task, t.dispatched = TaskStatus.Dispatched) :
    compress st = some ([], st) := by
  unfold compress
  rw [if_neg (by simp [h6]), if_neg (by simp [h7])]
  have hfilter : st.task.filter (fun t => t.dispatched = TaskStatus.Created) = [] := by
    apply filter_eq_nil_of_false
    intro t ht
    simp [hall t ht]
  rw [hfilter]
  show (some [] >>= fun records => some (records,
    { st with task := st.task.map (fun t =>
        if t.dispatched = TaskStatus.Created
        then { t with dispatched := TaskStatus.Dispatched } else t) })) = some ([], st)
  simp only [Option.bind_eq_bind, Option.some_bind]
  rw [map_eq_self_of _ _ (fun t ht => by
    rw [if_neg]
    intro hc
    rw [hall t ht] at hc
    exact TaskStatus.noConfusion hc)]

/-- C3 counterexample: a compressor holding one freshly created BC1 task
dispatches it, yet after `compress` returns the task list still holds that
task - `compress` does not drain or destroy tasks. -/
theorem c3_compress_does_not_drain_counterexample :
    ∃ recs st',
      compress (⟨[⟨0, TaskStatus.Created, CompressionVariant.BC1, 4, 4, none⟩],
        [], [], [0], [0]⟩ : BlockCompressor) = some (recs, st') ∧
      recs.length = 1 ∧ st'.task.length = 1 := by
  refine ⟨_, _, rfl, rfl, rfl⟩

/-- C3 (amended): `compress` marks every `Created` task `Dispatched` and
issues one dispatch per such task, but keeps the task list intact: the list
has the same length afterwards and every task in it is `Dispatched`; an
immediately following `compress` therefore dispatches nothing and leaves the
state unchanged. Tasks are removed only by the texture / buffer retrieval
functions, not by `compress`. -/
theorem c3_compress_dispatches_without_draining (st : BlockCompressor)
    (recs : List DispatchRecord) (st' : BlockCompressor)
    (h : compress st = some (recs, st')) :
    st'.task.length = st.task.length ∧
    recs.length = (st.task.filter (fun t =>
      t.dispatched = TaskStatus.Created)).length ∧
    (∀ t ∈ st'.task, t.dispatched = TaskStatus.Dispatched) ∧
    compress st' = some ([], st') := by
  unfold compress at h
  by_cases h6 : st.bc6h_settings ≠ []
  · rw [if_pos h6] at h
    exact Option.noConfusion h
  rw [if_neg h6] at h
  by_cases h7 : st.bc7_settings ≠ []
  · rw [if_pos h7] at h
    exact Option.noConfusion h
  rw [if_neg h7] at h
  obtain ⟨records, hmapM, h⟩ := bind_some_inv h
  have hpair := Option.some.inj h
  have hrec : records = recs := congrArg Prod.fst hpair
  have hst : ({ st with task := st.task.map (fun t =>
      if t.dispatched = TaskStatus.Created
      then { t with dispatched := TaskStatus.Dispatched } else t) } :
      BlockCompressor) = st' := congrArg Prod.snd hpair
  subst hrec
  subst hst
  have hall : ∀ t ∈ st.task.map (fun t =>
      if t.dispatched = TaskStatus.Created
      then { t with dispatched := TaskStatus.Dispatched } else t),
      t.dispatched = TaskStatus.Dispatched := by
    intro t ht
    obtain ⟨t0, ht0, rfl⟩ := List.mem_map.mp ht
    by_cases hc : t0.dispatched = TaskStatus.Created
    · rw [if_pos hc]
    · rw [if_neg hc]
      cases hd : t0.dispatched with
      | Created => exact absurd hd hc
      | Dispatched => rfl
  refine ⟨by simp, ?_, hall, ?_⟩
  · rw [mapM_some_length _ _ _ hmapM]
  · exact compress_noop _ (not_ne_iff.mp h6) (not_ne_iff.mp h7) hall

theorem c3_compress_dispatches_without_draining_witness :
    ∃ recs st',
      compress (⟨[⟨1, TaskStatus.Created, CompressionVariant.BC2, 8, 4, none⟩],
        [], [], [1], [1]⟩ : BlockCompressor) = some (recs, st') ∧
      (st'.task.length =
        (⟨[⟨1, TaskStatus.Created, CompressionVariant.BC2, 8, 4, none⟩],
          [], [], [1], [1]⟩ : BlockCompressor).task.length ∧
       recs.length =
        ((⟨[⟨1, TaskStatus.Created, CompressionVariant.BC2, 8, 4, none⟩],
          [], [], [1], [1]⟩ : BlockCompressor).task.filter (fun t =>
            t.dispatched = TaskStatus.Created)).length ∧
       (∀ t ∈ st'.task, t.dispatched = TaskStatus.Dispatched) ∧
       compress st' = some ([], st')) := by
  refine ⟨_, _, rfl, c3_compress_dispatches_without_draining _ _ _ rfl⟩

/-- An unnormalized fraction `num / den` (`den` positive): the exact value
of an `f32`. Kept unnormalized so every operation is plain integer
arithmetic. -/
structure Q where
  num : Int
  den : Nat
deriving DecidableEq

/-- Binary normalization: scales `a` by powers of two until `1 ≤ a < 2`,
returning the scaled fraction and the exponent. -/
def rnorm : Nat → Q → Int → Q × Int
  | 0, a, e => (a, e)
  | fuel + 1, a, e =>
      if 2 * (a.den : Int) ≤ a.num then rnorm fuel ⟨a.num, a.den * 2⟩ (e + 1)
      else if a.num < (a.den : Int) then rnorm fuel ⟨a.num * 2, a.den⟩ (e - 1)
      else (a, e)

/-- `2 ^ e` as a fraction. -/
def pow2Q (e : Int) : Q :=
  if 0 ≤ e then ⟨2 ^ e.toNat, 1⟩ else ⟨1, 2 ^ (-e).toNat⟩

/-- Round to the nearest binary32 value, ties to even (24-bit significand).
The encoder's values all lie well inside the binary32 normal range, so
overflow and subnormals do not arise. -/
def RN (q : Q) : Q :=
  if q.num = 0 then ⟨0, 1⟩
  else
    let neg := q.num < 0
    let a : Q := ⟨if q.num < 0 then -q.num else q.num, q.den⟩
    let p := rnorm 400 a 0
    let mnum := p.1.num * 2 ^ 23
    let mden := p.1.den
    let n := mnum / (mden : Int)
    let r := mnum % (mden : Int)
    let n' := if (mden : Int) < 2 * r then n + 1
      else if 2 * r < (mden : Int) then n
      else if n % 2 = 0 then n else n + 1
    let mag := pow2Q (p.2 - 23)
    if neg then ⟨-(n' * mag.num), mag.den⟩ else ⟨n' * mag.num, mag.den⟩

/-- `f32` addition (round to nearest). -/
def fadd (a b : Q) : Q := RN ⟨a.num * b.den + b.num * a.den, a.den * b.den⟩

/-- `f32` subtraction. -/
def fsub (a b : Q) : Q := RN ⟨a.num * b.den - b.num * a.den, a.den * b.den⟩

/-- `f32` multiplication. -/
def fmul (a b : Q) : Q := RN ⟨a.num * b.num, a.den * b.den⟩

/-- `f32` division (the divisors in this encoder are positive). -/
def fdiv (a b : Q) : Q :=
  RN (if 0 ≤ b.num then ⟨a.num * b.den, a.den * b.num.toNat⟩
    else ⟨-(a.num * b.den), a.den * (-b.num).toNat⟩)

/-- `f32::min` on finite values. -/
def fmin (a b : Q) : Q :=
  if a.num * (b.den : Int) ≤ b.num * (a.den : Int) then a else b

/-- `f32::max` on finite values. -/
def fmax (a b : Q) : Q :=
  if a.num * (b.den : Int) < b.num * (a.den : Int) then b else a

/-- `as u32`: truncate toward zero, saturating. -/
def as_u32 (q : Q) : Nat :=
  if q.num ≤ 0 then 0
  else min 4294967295 (q.num / (q.den : Int)).toNat

/-- `as i32`: truncate toward zero, saturating. -/
def as_i32 (q : Q) : Int :=
  if (q.num : Int) ≤ -2147483648 * q.den then -2147483648
  else if (2147483647 : Int) * q.den ≤ q.num then 2147483647
  else if 0 ≤ q.num then q.num / (q.den : Int) else -((-q.num) / (q.den : Int))

/-- `u32::clamp`. -/
def u32_clamp (v lo hi : Nat) : Nat := min (max v lo) hi

/-- `i32::clamp`. -/
def i32_clamp (v lo hi : Int) : Int := min (max v lo) hi

/-- The selector remap of `compress_block_bc3_alpha`:
`q = 7 - q; if q > 0 { q += 1 } if q == 8 { q = 1 }`. -/
def bc3q_remap (q0 : Int) : Nat :=
  (if (if 7 - q0 > 0 then 7 - q0 + 1 else 7 - q0) = 8 then 1
   else if 7 - q0 > 0 then 7 - q0 + 1 else 7 - q0).toNat

/-- One pixel of `compress_block_bc3_alpha`: project onto the endpoint
segment, clamp to 0..7, and remap to the BC3 selector encoding. -/
def bc3q (ep0 scale v : Q) : Nat :=
  bc3q_remap (i32_clamp (as_i32 (fadd (fmul (fsub v ep0) scale) ⟨1, 2⟩)) 0 7)

/-- The selector-packing loop of `compress_block_bc3_alpha`:
`qblock[k / 8] |= q << ((k % 8) * 3)`. -/
def bc3QLoop (block : List Q) (ep0 scale : Q) : Nat → Nat → Nat × Nat → Nat × Nat
  | 0, _, qb => qb
  | fuel + 1, k, qb =>
      let q := bc3q ep0 scale (block.getD k ⟨0, 1⟩)
      let qb' := if k / 8 = 0 then (qb.1 ||| (q <<< ((k % 8) * 3)), qb.2)
        else (qb.1, qb.2 ||| (q <<< ((k % 8) * 3)))
      bc3QLoop block ep0 scale fuel (k + 1) qb'

/-- Port of `BlockCompressorBC15::compress_block_bc3_alpha` on the 16 alpha
values of the block (each an exactly represented `f32`): min/max endpoint
fold, the `ep[0] == ep[1]` guard adding `0.1`, the projection loop, and the
two packed `u32` output words. -/
def compress_block_bc3_alpha (block : List Q) : List Nat :=
  let ep0 := block.foldl fmin ⟨255, 1⟩
  let ep1 := block.foldl fmax ⟨0, 1⟩
  let ep1 := if ep0.num * (ep1.den : Int) = ep1.num * (ep0.den : Int) then
      fadd ep0 (RN ⟨1, 10⟩)
    else ep1
  let scale := fdiv ⟨7, 1⟩ (fsub ep1 ep0)
  let qb := bc3QLoop block ep0 scale 16 0 (0, 0)
  let data0 := (u32_clamp (as_u32 ep0) 0 255) <<< 8 ||| (u32_clamp (as_u32 ep1) 0 255)
  let data0 := (data0 ||| ((qb.1 <<< 16) % 2 ^ 32)) % 2 ^ 32
  let data1 := (qb.1 >>> 16) ||| ((qb.2 <<< 8) % 2 ^ 32)
  [data0, data1]

/-- The two `u32` words `compress_block_bc3_alpha` produces for a block of
integer alpha values. -/
def bc3_alpha_words (alphas : List Nat) : List Nat :=
  compress_block_bc3_alpha (alphas.map (fun n => (⟨(n : Int), 1⟩ : Q)))

/-- Selector `k` of a BC3 smooth-alpha block given its two packed words:
3-bit fields of the 48-bit index stream that follows the two endpoint
bytes. -/
def bc3SelectorOf (r : List Nat) (k : Nat) : Nat :=
  ((((r.getD 0 0) >>> 16) ||| ((r.getD 1 0) <<< 16)) >>> (3 * k)) &&& 7

theorem bc3q_remap_lt8 (q0 : Int) (h0 : 0 ≤ q0) (h7 : q0 ≤ 7) : bc3q_remap q0 < 8 := by
  unfold bc3q_remap
  split <;> split <;> omega

theorem i32_clamp07_bounds (x : Int) : 0 ≤ i32_clamp x 0 7 ∧ i32_clamp x 0 7 ≤ 7 := by
  unfold i32_clamp
  omega

theorem bc3q_lt8 (ep0 scale v : Q) : bc3q ep0 scale v < 8 := by
  unfold bc3q
  obtain ⟨h0, h7⟩ := i32_clamp07_bounds
    (as_i32 (fadd (fmul (fsub v ep0) scale) ⟨1, 2⟩))
  exact bc3q_remap_lt8 _ h0 h7

theorem or_mul_add (w q pos : Nat) (hw : w < 2 ^ pos) :
    w ||| (q * 2 ^ pos) = 2 ^ pos * q + w := by
  rw [Nat.lor_comm, Nat.mul_comm q (2 ^ pos), ← Nat.mul_add_lt_is_or hw q]

/-- The selector values of pixels `k, k+1, ..., k+n-1`, packed 3 bits per
pixel little-endian (base-8 Horner form, the value the packing loop
accumulates). -/
def packQ (block : List Q) (ep0 scale : Q) : Nat → Nat → Nat
  | _, 0 => 0
  | k, n + 1 => bc3q ep0 scale (block.getD k ⟨0, 1⟩) + 8 * packQ block ep0 scale (k + 1) n

theorem packQ_lt (block : List Q) (ep0 scale : Q) :
    ∀ (n k : Nat), packQ block ep0 scale k n < 8 ^ n := by
  intro n
  induction n with
  | zero =>
    intro k
    norm_num [packQ]
  | succ m ih =>
    intro k
    have h1 := bc3q_lt8 ep0 scale (block.getD k ⟨0, 1⟩)
    have h2 := ih (k + 1)
    show bc3q ep0 scale (block.getD k ⟨0, 1⟩) + 8 * packQ block ep0 scale (k + 1) m <
      8 ^ (m + 1)
    have h3 : (8 : Nat) ^ (m + 1) = 8 * 8 ^ m := by ring
    omega

theorem packQ_append (block : List Q) (ep0 scale : Q) :
    ∀ (m k n : Nat), packQ block ep0 scale k (m + n) =
      packQ block ep0 scale k m + 8 ^ m * packQ block ep0 scale (k + m) n := by
  intro m
  induction m with
  | zero =>
    intro k n
    simp [packQ]
  | succ j ih =>
    intro k n
    have hl : packQ block ep0 scale k (j + 1 + n) =
        bc3q ep0 scale (block.getD k ⟨0, 1⟩) +
          8 * packQ block ep0 scale (k + 1) (j + n) := by
      have h0 : j + 1 + n = (j + n) + 1 := by omega
      rw [h0]
      rfl
    rw [hl, ih (k + 1) n]
    have hr : packQ block ep0 scale k (j + 1) =
        bc3q ep0 scale (block.getD k ⟨0, 1⟩) +
          8 * packQ block ep0 scale (k + 1) j := rfl
    rw [hr]
    have h1 : (8 : Nat) ^ (j + 1) = 8 * 8 ^ j := by ring
    have h2 : k + 1 + j = k + (j + 1) := by omega
    rw [h1, h2]
    ring

theorem packQ_extract (block : List Q) (ep0 scale : Q) :
    ∀ (n j k : Nat), j < n →
      ((packQ block ep0 scale k n) >>> (3 * j)) &&& 7 =
        bc3q ep0 scale (block.getD (k + j) ⟨0, 1⟩) := by
  intro n
  induction n with
  | zero =>
    intro j k h
    omega
  | succ m ih =>
    intro j k h
    cases j with
    | zero =>
      show ((bc3q ep0 scale (block.getD k ⟨0, 1⟩) +
        8 * packQ block ep0 scale (k + 1) m) >>> 0) &&& 7 = _
      rw [Nat.shiftRight_zero, Nat.and_pow_two_sub_one_eq_mod _ 3]
      have h1 := bc3q_lt8 ep0 scale (block.getD k ⟨0, 1⟩)
      have h2 : k + 0 = k := by omega
      have h8 : (2 : Nat) ^ 3 = 8 := by norm_num
      rw [h2, h8]
      omega
    | succ i =>
      have hstep : (bc3q ep0 scale (block.getD k ⟨0, 1⟩) +
          8 * packQ block ep0 scale (k + 1) m) >>> (3 * (i + 1)) =
          (packQ block ep0 scale (k + 1) m) >>> (3 * i) := by
        rw [Nat.shiftRight_eq_div_pow, Nat.shiftRight_eq_div_pow]
        have h1 : 3 * (i + 1) = 3 + 3 * i := by omega
        rw [h1, pow_add]
        have h2 := bc3q_lt8 ep0 scale (block.getD k ⟨0, 1⟩)
        rw [← Nat.div_div_eq_div_mul]
        congr 1
        rw [show (2 : Nat) ^ 3 = 8 from by norm_num]
        omega
      show ((bc3q ep0 scale (block.getD k ⟨0, 1⟩) +
        8 * packQ block ep0 scale (k + 1) m) >>> (3 * (i + 1))) &&& 7 = _
      rw [hstep, ih i (k + 1) (by omega)]
      congr 2
      omega

theorem bc3QLoop_hi (block : List Q) (ep0 scale : Q) :
    ∀ (fuel k w0 w1 : Nat), 8 ≤ k → k + fuel ≤ 16 → w1 < 2 ^ (3 * (k - 8)) →
      bc3QLoop block ep0 scale fuel k (w0, w1) =
        (w0, w1 + 2 ^ (3 * (k - 8)) * packQ block ep0 scale k fuel) := by
  intro fuel
  induction fuel with
  | zero =>
    intro k w0 w1 _ _ _
    show (w0, w1) = _
    simp [packQ]
  | succ n ih =>
    intro k w0 w1 hk8 hk16 hw1
    have hkd : k / 8 ≠ 0 := by omega
    have hmod : (k % 8) * 3 = 3 * (k - 8) := by omega
    have hq := bc3q_lt8 ep0 scale (block.getD k ⟨0, 1⟩)
    show bc3QLoop block ep0 scale n (k + 1)
      (if k / 8 = 0 then
        (w0 ||| (bc3q ep0 scale (block.getD k ⟨0, 1⟩) <<< ((k % 8) * 3)), w1)
      else
        (w0, w1 ||| (bc3q ep0 scale (block.getD k ⟨0, 1⟩) <<< ((k % 8) * 3)))) = _
    rw [if_neg hkd, Nat.shiftLeft_eq, hmod,
      or_mul_add w1 _ (3 * (k - 8)) hw1]
    have hpow : (2 : Nat) ^ (3 * (k + 1 - 8)) = 2 ^ (3 * (k - 8)) * 8 := by
      have h1 : 3 * (k + 1 - 8) = 3 * (k - 8) + 3 := by omega
      rw [h1, pow_add]
      norm_num
    rw [ih (k + 1) w0 _ (by omega) (by omega) (by
      rw [hpow]
      have h1 : 2 ^ (3 * (k - 8)) * bc3q ep0 scale (block.getD k ⟨0, 1⟩) ≤
          2 ^ (3 * (k - 8)) * 7 := Nat.mul_le_mul_left _ (by omega)
      omega)]
    have hpack : packQ block ep0 scale k (n + 1) =
        bc3q ep0 scale (block.getD k ⟨0, 1⟩) +
          8 * packQ block ep0 scale (k + 1) n := rfl
    rw [hpack, hpow]
    congr 1
    ring

theorem bc3QLoop_lo (block : List Q) (ep0 scale : Q) :
    ∀ (fuel k w0 : Nat), k < 8 → k + fuel = 16 → w0 < 2 ^ (3 * k) →
      bc3QLoop block ep0 scale fuel k (w0, 0) =
        (w0 + 2 ^ (3 * k) * packQ block ep0 scale k (8 - k),
         packQ block ep0 scale 8 8) := by
  intro fuel
  induction fuel with
  | zero =>
    intro k w0 hk hk16 _
    omega
  | succ n ih =>
    intro k w0 hk hk16 hw0
    have hkd : k / 8 = 0 := by omega
    have hmod : (k % 8) * 3 = 3 * k := by omega
    have hq := bc3q_lt8 ep0 scale (block.getD k ⟨0, 1⟩)
    show bc3QLoop block ep0 scale n (k + 1)
      (if k / 8 = 0 then
        (w0 ||| (bc3q ep0 scale (block.getD k ⟨0, 1⟩) <<< ((k % 8) * 3)), 0)
      else
        (w0, 0 ||| (bc3q ep0 scale (block.getD k ⟨0, 1⟩) <<< ((k % 8) * 3)))) = _
    rw [if_pos hkd, Nat.shiftLeft_eq, hmod, or_mul_add w0 _ (3 * k) hw0]
    have hpow : (2 : Nat) ^ (3 * (k + 1)) = 2 ^ (3 * k) * 8 := by
      have h1 : 3 * (k + 1) = 3 * k + 3 := by omega
      rw [h1, pow_add]
      norm_num
    by_cases hk7 : k + 1 < 8
    · rw [ih (k + 1) _ hk7 (by omega) (by
        rw [hpow]
        have h1 : 2 ^ (3 * k) * bc3q ep0 scale (block.getD k ⟨0, 1⟩) ≤
            2 ^ (3 * k) * 7 := Nat.mul_le_mul_left _ (by omega)
        omega)]
      have hpack : packQ block ep0 scale k (8 - k) =
          bc3q ep0 scale (block.getD k ⟨0, 1⟩) +
            8 * packQ block ep0 scale (k + 1) (8 - (k + 1)) := by
        have h0 : 8 - k = (8 - (k + 1)) + 1 := by omega
        rw [h0]
        rfl
      rw [hpack, hpow]
      rw [Prod.mk.injEq]
      exact ⟨by ring, rfl⟩
    · have hk7' : k = 7 := by omega
      subst hk7'
      have hn : n = 8 := by omega
      subst hn
      rw [bc3QLoop_hi block ep0 scale 8 8 _ _ (by omega) (by omega)
        (by norm_num)]
      have hpack : packQ block ep0 scale 7 (8 - 7) =
          bc3q ep0 scale (block.getD 7 ⟨0, 1⟩) + 8 * packQ block ep0 scale 8 0 := rfl
      rw [hpack]
      have hz : packQ block ep0 scale 8 0 = 0 := rfl
      rw [hz, Prod.mk.injEq]
      constructor
      · ring
      · norm_num

theorem bc3QLoop_eval (block : List Q) (ep0 scale : Q) :
    bc3QLoop block ep0 scale 16 0 (0, 0) =
      (packQ block ep0 scale 0 8, packQ block ep0 scale 8 8) := by
  rw [bc3QLoop_lo block ep0 scale 16 0 0 (by omega) (by omega) (by norm_num)]
  norm_num

theorem fmin_cast (x y : Nat) :
    fmin ⟨(x : Int), 1⟩ ⟨(y : Int), 1⟩ = ⟨((min x y : Nat) : Int), 1⟩ := by
  unfold fmin
  split
  · rename_i h
    simp at h
    congr 1
    omega
  · rename_i h
    simp at h
    congr 1
    omega

theorem fmax_cast (x y : Nat) :
    fmax ⟨(x : Int), 1⟩ ⟨(y : Int), 1⟩ = ⟨((max x y : Nat) : Int), 1⟩ := by
  unfold fmax
  split
  · rename_i h
    simp at h
    congr 1
    omega
  · rename_i h
    simp at h
    congr 1
    omega

theorem foldl_fmin_cast :
    ∀ (l : List Nat) (a : Nat),
      (l.map (fun n => (⟨(n : Int), 1⟩ : Q))).foldl fmin ⟨(a : Int), 1⟩ =
        ⟨((l.foldl min a : Nat) : Int), 1⟩ := by
  intro l
  induction l with
  | nil => intro a; rfl
  | cons x rest ih =>
    intro a
    show (rest.map (fun n => (⟨(n : Int), 1⟩ : Q))).foldl fmin
      (fmin ⟨(a : Int), 1⟩ ⟨(x : Int), 1⟩) = _
    rw [fmin_cast, ih (min a x)]
    rfl

theorem foldl_fmax_cast :
    ∀ (l : List Nat) (a : Nat),
      (l.map (fun n => (⟨(n : Int), 1⟩ : Q))).foldl fmax ⟨(a : Int), 1⟩ =
        ⟨((l.foldl max a : Nat) : Int), 1⟩ := by
  intro l
  induction l with
  | nil => intro a; rfl
  | cons x rest ih =>
    intro a
    show (rest.map (fun n => (⟨(n : Int), 1⟩ : Q))).foldl fmax
      (fmax ⟨(a : Int), 1⟩ ⟨(x : Int), 1⟩) = _
    rw [fmax_cast, ih (max a x)]
    rfl

theorem getD_map_cast :
    ∀ (l : List Nat) (k : Nat),
      (l.map (fun n => (⟨(n : Int), 1⟩ : Q))).getD k ⟨0, 1⟩ =
        ⟨((l.getD k 0 : Nat) : Int), 1⟩ := by
  intro l
  induction l with
  | nil =>
    intro k
    show (⟨0, 1⟩ : Q) = _
    congr 1
  | cons a rest ih =>
    intro k
    cases k with
    | zero => rfl
    | succ k => simpa using ih k

theorem foldl_min_le (l : List Nat) : ∀ (a : Nat), l.foldl min a ≤ a := by
  induction l with
  | nil => intro a; exact Nat.le_refl a
  | cons x rest ih =>
    intro a
    exact le_trans (ih (min a x)) (by omega)

theorem foldl_min_le_mem (l : List Nat) :
    ∀ (a : Nat) (x : Nat), x ∈ l → l.foldl min a ≤ x := by
  induction l with
  | nil =>
    intro a x hx
    exact absurd hx (List.not_mem_nil x)
  | cons y rest ih =>
    intro a x hx
    rcases List.mem_cons.mp hx with h | h
    · subst h
      exact le_trans (foldl_min_le rest (min a x)) (by omega)
    · exact ih (min a y) x h

theorem foldl_max_lt (l : List Nat) (h : ∀ x ∈ l, x < 256) :
    ∀ (a : Nat), a < 256 → l.foldl max a < 256 := by
  induction l with
  | nil => intro a ha; exact ha
  | cons x rest ih =>
    intro a ha
    obtain ⟨hx, hr⟩ := List.forall_mem_cons.mp h
    exact ih hr (max a x) (by omega)

theorem le_foldl_max (l : List Nat) : ∀ a : Nat, a ≤ l.foldl max a := by
  induction l with
  | nil => intro a; exact Nat.le_refl a
  | cons x rest ih =>
    intro a
    exact le_trans (by omega : a ≤ max a x) (ih (max a x))

theorem foldl_max_ge_mem (l : List Nat) :
    ∀ (a : Nat) (x : Nat), x ∈ l → x ≤ l.foldl max a := by
  induction l with
  | nil =>
    intro a x hx
    exact absurd hx (List.not_mem_nil x)
  | cons y rest ih =>
    intro a x hx
    rcases List.mem_cons.mp hx with h | h
    · subst h
      exact le_trans (by omega : x ≤ max a x) (le_foldl_max rest (max a x))
    · exact ih (max a y) x h

theorem fsub_cast (M m : Nat) (h : m ≤ M) :
    fsub ⟨(M : Int), 1⟩ ⟨(m : Int), 1⟩ = RN ⟨((M - m : Nat) : Int), 1⟩ := by
  unfold fsub
  refine congrArg RN ?_
  show (⟨(M : Int) * ((1 : Nat) : Int) - (m : Int) * ((1 : Nat) : Int), 1 * 1⟩ : Q) = _
  rw [Q.mk.injEq]
  exact ⟨by omega, rfl⟩

theorem fsub_self (x : Int) : fsub ⟨x, 1⟩ ⟨x, 1⟩ = ⟨0, 1⟩ := by
  unfold fsub
  show RN ⟨x * ((1 : Nat) : Int) - x * ((1 : Nat) : Int), 1 * 1⟩ = ⟨0, 1⟩
  have harg : (⟨x * ((1 : Nat) : Int) - x * ((1 : Nat) : Int), 1 * 1⟩ : Q) = ⟨0, 1⟩ := by
    rw [Q.mk.injEq]
    exact ⟨by omega, rfl⟩
  rw [harg]
  rfl

theorem fmul_zero_left (s : Q) : fmul ⟨0, 1⟩ s = ⟨0, 1⟩ := by
  unfold fmul
  have harg : (⟨0 * s.num, 1 * s.den⟩ : Q) = ⟨0, s.den⟩ := by
    congr 1
    · exact Int.zero_mul s.num
    · exact Nat.one_mul s.den
  rw [harg]
  unfold RN
  rw [if_pos rfl]

theorem as_u32_cast (n : Nat) (h : n < 4294967296) : as_u32 ⟨(n : Int), 1⟩ = n := by
  unfold as_u32
  split
  · rename_i hle
    simp at hle
    omega
  · rename_i hgt
    show min 4294967295 (((n : Int) / ((1 : Nat) : Int)).toNat) = n
    have h1 : ((1 : Nat) : Int) = 1 := by norm_num
    rw [h1, Int.ediv_one]
    omega

set_option maxRecDepth 100000 in
theorem st7_max_pixel : ∀ d : Nat, d < 256 → 0 < d →
    i32_clamp (as_i32 (fadd (fmul (RN ⟨(d : Int), 1⟩)
      (fdiv ⟨7, 1⟩ (RN ⟨(d : Int), 1⟩))) ⟨1, 2⟩)) 0 7 = 7 := by
  decide

theorem st_min_pixel : i32_clamp (as_i32 (fadd ⟨0, 1⟩ ⟨1, 2⟩)) 0 7 = 0 := by
  decide

set_option maxRecDepth 100000 in
theorem st_const_endpoint : ∀ v : Nat, v < 256 →
    u32_clamp (as_u32 (fadd ⟨(v : Int), 1⟩ (RN ⟨1, 10⟩))) 0 255 = v := by
  decide

theorem bc3q_remap_7 : bc3q_remap 7 = 0 := by decide

theorem bc3q_remap_0 : bc3q_remap 0 = 1 := by decide

theorem bc3_layout (a0v a1v S0 S1 : Nat) (h0 : a0v < 256) (h1 : a1v < 256)
    (hS0 : S0 < 2 ^ 24) (hS1 : S1 < 2 ^ 24) :
    (((a1v <<< 8 ||| a0v) ||| ((S0 <<< 16) % 2 ^ 32)) % 2 ^ 32) &&& 255 = a0v ∧
    ((((a1v <<< 8 ||| a0v) ||| ((S0 <<< 16) % 2 ^ 32)) % 2 ^ 32) >>> 8) &&& 255 = a1v ∧
    ((((a1v <<< 8 ||| a0v) ||| ((S0 <<< 16) % 2 ^ 32)) % 2 ^ 32) >>> 16) |||
      (((S0 >>> 16) ||| ((S1 <<< 8) % 2 ^ 32)) <<< 16) = S0 + 2 ^ 24 * S1 := by
  have e1 : a1v <<< 8 ||| a0v = 2 ^ 8 * a1v + a0v := by
    rw [Nat.shiftLeft_eq, Nat.lor_comm,
      or_mul_add a0v a1v 8 (by norm_num; omega)]
  have e2 : (S0 <<< 16) % 2 ^ 32 = (S0 % 2 ^ 16) * 2 ^ 16 := by
    rw [Nat.shiftLeft_eq]
    norm_num
    omega
  have e3 : (2 ^ 8 * a1v + a0v) ||| ((S0 % 2 ^ 16) * 2 ^ 16) =
      2 ^ 16 * (S0 % 2 ^ 16) + (2 ^ 8 * a1v + a0v) :=
    or_mul_add _ _ 16 (by norm_num; omega)
  have e4 : (2 ^ 16 * (S0 % 2 ^ 16) + (2 ^ 8 * a1v + a0v)) % 2 ^ 32 =
      2 ^ 16 * (S0 % 2 ^ 16) + (2 ^ 8 * a1v + a0v) := by
    norm_num
    omega
  rw [e1, e2, e3, e4]
  have e5 : (S1 <<< 8) % 2 ^ 32 = S1 * 2 ^ 8 := by
    rw [Nat.shiftLeft_eq]
    norm_num
    omega
  have e6 : S0 >>> 16 = S0 / 2 ^ 16 := Nat.shiftRight_eq_div_pow S0 16
  have e7 : (S0 / 2 ^ 16) ||| (S1 * 2 ^ 8) = 2 ^ 8 * S1 + S0 / 2 ^ 16 :=
    or_mul_add _ _ 8 (by norm_num; omega)
  rw [e5, e6, e7]
  refine ⟨?_, ?_, ?_⟩
  · rw [show (255 : Nat) = 2 ^ 8 - 1 from by norm_num,
      Nat.and_pow_two_sub_one_eq_mod _ 8]
    norm_num
    omega
  · rw [Nat.shiftRight_eq_div_pow,
      show (255 : Nat) = 2 ^ 8 - 1 from by norm_num,
      Nat.and_pow_two_sub_one_eq_mod _ 8]
    norm_num
    omega
  · rw [Nat.shiftRight_eq_div_pow, Nat.shiftLeft_eq]
    have e8 : (2 ^ 16 * (S0 % 2 ^ 16) + (2 ^ 8 * a1v + a0v)) / 2 ^ 16 = S0 % 2 ^ 16 := by
      norm_num
      omega
    rw [e8, or_mul_add _ _ 16 (by norm_num; omega)]
    norm_num
    omega

theorem bc3_words_spec (blk : List Q) (ep0 scl : Q) (a0v a1v : Nat)
    (h0 : a0v < 256) (h1 : a1v < 256) :
    (((a1v <<< 8 ||| a0v) |||
        ((packQ blk ep0 scl 0 8 <<< 16) % 2 ^ 32)) % 2 ^ 32) &&& 255 = a0v ∧
    ((((a1v <<< 8 ||| a0v) |||
        ((packQ blk ep0 scl 0 8 <<< 16) % 2 ^ 32)) % 2 ^ 32) >>> 8) &&& 255 = a1v ∧
    ∀ k, k < 16 →
      bc3SelectorOf
        [(((a1v <<< 8 ||| a0v) |||
            ((packQ blk ep0 scl 0 8 <<< 16) % 2 ^ 32)) % 2 ^ 32),
          ((packQ blk ep0 scl 0 8 >>> 16) |||
            ((packQ blk ep0 scl 8 8 <<< 8) % 2 ^ 32))] k =
      bc3q ep0 scl (blk.getD k ⟨0, 1⟩) := by
  have h88 : (8 : Nat) ^ 8 = 2 ^ 24 := by norm_num
  have hS0 : packQ blk ep0 scl 0 8 < 2 ^ 24 := by
    have h := packQ_lt blk ep0 scl 8 0
    omega
  have hS1 : packQ blk ep0 scl 8 8 < 2 ^ 24 := by
    have h := packQ_lt blk ep0 scl 8 8
    omega
  obtain ⟨hL1, hL2, hL3⟩ := bc3_layout a0v a1v (packQ blk ep0 scl 0 8)
    (packQ blk ep0 scl 8 8) h0 h1 hS0 hS1
  refine ⟨hL1, hL2, ?_⟩
  intro k hk
  have hpack16 : packQ blk ep0 scl 0 16 =
      packQ blk ep0 scl 0 8 + 2 ^ 24 * packQ blk ep0 scl 8 8 := by
    have h := packQ_append blk ep0 scl 8 0 8
    rw [show (8 + 8 : Nat) = 16 from rfl, show (0 + 8 : Nat) = 8 from rfl,
      h88] at h
    exact h
  unfold bc3SelectorOf
  simp only [List.getD_cons_zero, List.getD_cons_succ]
  rw [hL3, ← hpack16, packQ_extract blk ep0 scl 16 k 0 hk, Nat.zero_add]

/-- C9 (corrected): `compress_block_bc3_alpha` stores the block's clamped
maximum in the first endpoint byte `a0` and the clamped minimum in the
second byte `a1` (so `a0 ≥ a1`), and packs one selector below 8 per pixel,
3 bits per pixel in row-major order, after the two endpoint bytes. When the
maximum exceeds the minimum, a pixel whose value equals the maximum
receives selector 0 and a pixel whose value equals the minimum receives
selector 1. For a constant block — the `ep[0] == ep[1]` branch, which
offsets `ep[1]` by `0.1` — every pixel receives selector 1, not 0, which
refutes the original claim's universal "pixel equal to the block maximum
receives selector 0". -/
theorem c9_bc3_alpha_block_layout (alphas : List Nat)
    (hlen : alphas.length = 16) (hb : ∀ a ∈ alphas, a < 256) :
    ((bc3_alpha_words alphas).getD 0 0) &&& 255 = alphas.foldl max 0 ∧
    (((bc3_alpha_words alphas).getD 0 0) >>> 8) &&& 255 = alphas.foldl min 255 ∧
    alphas.foldl min 255 ≤ alphas.foldl max 0 ∧
    (∀ k, k < 16 → bc3SelectorOf (bc3_alpha_words alphas) k < 8) ∧
    (alphas.foldl min 255 < alphas.foldl max 0 → ∀ k, k < 16 →
      (alphas.getD k 0 = alphas.foldl max 0 →
        bc3SelectorOf (bc3_alpha_words alphas) k = 0) ∧
      (alphas.getD k 0 = alphas.foldl min 255 →
        bc3SelectorOf (bc3_alpha_words alphas) k = 1)) ∧
    (alphas.foldl min 255 = alphas.foldl max 0 → ∀ k, k < 16 →
      bc3SelectorOf (bc3_alpha_words alphas) k = 1) := by
  have hne : alphas ≠ [] := by
    intro h
    rw [h] at hlen
    exact absurd hlen (by decide)
  obtain ⟨b0, hb0⟩ := List.exists_mem_of_ne_nil alphas hne
  have hmM : alphas.foldl min 255 ≤ alphas.foldl max 0 :=
    le_trans (foldl_min_le_mem alphas 255 _ hb0) (foldl_max_ge_mem alphas 0 _ hb0)
  have hMlt : alphas.foldl max 0 < 256 := foldl_max_lt alphas hb 0 (by omega)
  have hmle : alphas.foldl min 255 ≤ 255 := foldl_min_le alphas 255
  have hmlt : alphas.foldl min 255 < 256 := by omega
  have h255Q : (⟨255, 1⟩ : Q) = ⟨(((255 : Nat)) : Int), 1⟩ := by
    rw [Q.mk.injEq]
    exact ⟨by norm_num, rfl⟩
  have h0Q : (⟨0, 1⟩ : Q) = ⟨(((0 : Nat)) : Int), 1⟩ := by
    rw [Q.mk.injEq]
    exact ⟨by norm_num, rfl⟩
  have hclampm : u32_clamp (as_u32 ⟨((alphas.foldl min 255 : Nat) : Int), 1⟩) 0 255 =
      alphas.foldl min 255 := by
    rw [as_u32_cast _ (by omega)]
    show min (max (alphas.foldl min 255) 0) 255 = alphas.foldl min 255
    omega
  have hclampM : u32_clamp (as_u32 ⟨((alphas.foldl max 0 : Nat) : Int), 1⟩) 0 255 =
      alphas.foldl max 0 := by
    rw [as_u32_cast _ (by omega)]
    show min (max (alphas.foldl max 0) 0) 255 = alphas.foldl max 0
    omega
  by_cases hc : alphas.foldl min 255 = alphas.foldl max 0
  · have hwords : bc3_alpha_words alphas =
        [(((alphas.foldl min 255) <<< 8 ||| (alphas.foldl min 255)) |||
            ((packQ (alphas.map (fun n => (⟨(n : Int), 1⟩ : Q)))
                ⟨((alphas.foldl min 255 : Nat) : Int), 1⟩
                (fdiv ⟨7, 1⟩ (fsub (fadd ⟨((alphas.foldl min 255 : Nat) : Int), 1⟩
                  (RN ⟨1, 10⟩)) ⟨((alphas.foldl min 255 : Nat) : Int), 1⟩))
                0 8 <<< 16) % 2 ^ 32)) % 2 ^ 32,
          ((packQ (alphas.map (fun n => (⟨(n : Int), 1⟩ : Q)))
              ⟨((alphas.foldl min 255 : Nat) : Int), 1⟩
              (fdiv ⟨7, 1⟩ (fsub (fadd ⟨((alphas.foldl min 255 : Nat) : Int), 1⟩
                (RN ⟨1, 10⟩)) ⟨((alphas.foldl min 255 : Nat) : Int), 1⟩))
              0 8 >>> 16) |||
            ((packQ (alphas.map (fun n => (⟨(n : Int), 1⟩ : Q)))
                ⟨((alphas.foldl min 255 : Nat) : Int), 1⟩
                (fdiv ⟨7, 1⟩ (fsub (fadd ⟨((alphas.foldl min 255 : Nat) : Int), 1⟩
                  (RN ⟨1, 10⟩)) ⟨((alphas.foldl min 255 : Nat) : Int), 1⟩))
                8 8 <<< 8) % 2 ^ 32))] := by
      simp only [bc3_alpha_words, compress_block_bc3_alpha]
      rw [h255Q, h0Q, foldl_fmin_cast, foldl_fmax_cast]
      split
      · rw [bc3QLoop_eval, hclampm, st_const_endpoint (alphas.foldl min 255) hmlt]
      · rename_i hq
        exfalso
        exact hq (show ((alphas.foldl min 255 : Nat) : Int) * ((1 : Nat) : Int) =
          ((alphas.foldl max 0 : Nat) : Int) * ((1 : Nat) : Int) by rw [hc])
    have hsel : ∀ k, k < 16 → bc3SelectorOf (bc3_alpha_words alphas) k =
        bc3q ⟨((alphas.foldl min 255 : Nat) : Int), 1⟩
          (fdiv ⟨7, 1⟩ (fsub (fadd ⟨((alphas.foldl min 255 : Nat) : Int), 1⟩
            (RN ⟨1, 10⟩)) ⟨((alphas.foldl min 255 : Nat) : Int), 1⟩))
          ⟨((alphas.getD k 0 : Nat) : Int), 1⟩ := by
      intro k hk
      rw [hwords, (bc3_words_spec _ _ _ _ _ hmlt hmlt).2.2 k hk, getD_map_cast]
    have hallm : ∀ k, k < 16 → alphas.getD k 0 = alphas.foldl min 255 := by
      intro k hk
      have hkl : k < alphas.length := by omega
      have hmem : alphas.getD k 0 ∈ alphas := by
        rw [List.getD_eq_getElem alphas 0 hkl]
        exact List.getElem_mem hkl
      have h1 := foldl_min_le_mem alphas 255 _ hmem
      have h2 := foldl_max_ge_mem alphas 0 _ hmem
      omega
    have hsel1 : ∀ k, k < 16 → bc3SelectorOf (bc3_alpha_words alphas) k = 1 := by
      intro k hk
      rw [hsel k hk, hallm k hk]
      unfold bc3q
      rw [fsub_self, fmul_zero_left, st_min_pixel]
      exact bc3q_remap_0
    refine ⟨?_, ?_, hmM, ?_, ?_, ?_⟩
    · rw [hwords]
      simp only [List.getD_cons_zero]
      rw [← hc]
      exact (bc3_words_spec _ _ _ _ _ hmlt hmlt).1
    · rw [hwords]
      simp only [List.getD_cons_zero]
      exact (bc3_words_spec _ _ _ _ _ hmlt hmlt).2.1
    · intro k hk
      rw [hsel1 k hk]
      omega
    · intro hlt
      exact absurd hc (by omega)
    · intro _ k hk
      exact hsel1 k hk
  · have hlt : alphas.foldl min 255 < alphas.foldl max 0 := by omega
    have hwords : bc3_alpha_words alphas =
        [(((alphas.foldl min 255) <<< 8 ||| (alphas.foldl max 0)) |||
            ((packQ (alphas.map (fun n => (⟨(n : Int), 1⟩ : Q)))
                ⟨((alphas.foldl min 255 : Nat) : Int), 1⟩
                (fdiv ⟨7, 1⟩
                  (RN ⟨((alphas.foldl max 0 - alphas.foldl min 255 : Nat) : Int), 1⟩))
                0 8 <<< 16) % 2 ^ 32)) % 2 ^ 32,
          ((packQ (alphas.map (fun n => (⟨(n : Int), 1⟩ : Q)))
              ⟨((alphas.foldl min 255 : Nat) : Int), 1⟩
              (fdiv ⟨7, 1⟩
                (RN ⟨((alphas.foldl max 0 - alphas.foldl min 255 : Nat) : Int), 1⟩))
              0 8 >>> 16) |||
            ((packQ (alphas.map (fun n => (⟨(n : Int), 1⟩ : Q)))
                ⟨((alphas.foldl min 255 : Nat) : Int), 1⟩
                (fdiv ⟨7, 1⟩
                  (RN ⟨((alphas.foldl max 0 - alphas.foldl min 255 : Nat) : Int), 1⟩))
                8 8 <<< 8) % 2 ^ 32))] := by
      simp only [bc3_alpha_words, compress_block_bc3_alpha]
      rw [h255Q, h0Q, foldl_fmin_cast, foldl_fmax_cast]
      split
      · rename_i hq
        exfalso
        have hq2 : ((alphas.foldl min 255 : Nat) : Int) * ((1 : Nat) : Int) =
            ((alphas.foldl max 0 : Nat) : Int) * ((1 : Nat) : Int) := hq
        omega
      · rw [fsub_cast _ _ hmM, bc3QLoop_eval, hclampm, hclampM]
    have hsel : ∀ k, k < 16 → bc3SelectorOf (bc3_alpha_words alphas) k =
        bc3q ⟨((alphas.foldl min 255 : Nat) : Int), 1⟩
          (fdiv ⟨7, 1⟩
            (RN ⟨((alphas.foldl max 0 - alphas.foldl min 255 : Nat) : Int), 1⟩))
          ⟨((alphas.getD k 0 : Nat) : Int), 1⟩ := by
      intro k hk
      rw [hwords, (bc3_words_spec _ _ _ _ _ hMlt hmlt).2.2 k hk, getD_map_cast]
    refine ⟨?_, ?_, hmM, ?_, ?_, ?_⟩
    · rw [hwords]
      simp only [List.getD_cons_zero]
      exact (bc3_words_spec _ _ _ _ _ hMlt hmlt).1
    · rw [hwords]
      simp only [List.getD_cons_zero]
      exact (bc3_words_spec _ _ _ _ _ hMlt hmlt).2.1
    · intro k hk
      rw [hsel k hk]
      exact bc3q_lt8 _ _ _
    · intro _ k hk
      constructor
      · intro hpk
        rw [hsel k hk, hpk]
        unfold bc3q
        rw [fsub_cast _ _ hmM,
          st7_max_pixel (alphas.foldl max 0 - alphas.foldl min 255)
            (by omega) (by omega)]
        exact bc3q_remap_7
      · intro hpk
        rw [hsel k hk, hpk]
        unfold bc3q
        rw [fsub_self, fmul_zero_left, st_min_pixel]
        exact bc3q_remap_0
    · intro hceq
      exact absurd hceq hc

/-- Witness input for the corrected C9 statement: minimum 0, maximum 255,
and fourteen interior values. -/
def c9_witness_alphas : List Nat :=
  [0, 255, 7, 7, 7, 7, 7, 7, 7, 7, 7, 7, 7, 7, 7, 7]

set_option maxRecDepth 100000 in
/-- C9 counterexample: for the constant block of sixteen alphas equal to
128, pixel 0's value equals the block maximum, yet the encoder gives it
selector 1 (the `a1` code), not selector 0 as the original claim asserts
for pixels equal to the maximum. -/
theorem c9_constant_block_counterexample :
    (List.replicate 16 128).getD 0 0 = (List.replicate 16 128).foldl max 0 ∧
    bc3SelectorOf (bc3_alpha_words (List.replicate 16 128)) 0 = 1 ∧
    bc3SelectorOf (bc3_alpha_words (List.replicate 16 128)) 0 ≠ 0 :=
  ⟨by decide, by decide, by decide⟩

/-- Witness for the corrected C9 theorem at a concrete non-constant block. -/
theorem c9_bc3_alpha_block_layout_witness :
    c9_witness_alphas.length = 16 ∧
    (((bc3_alpha_words c9_witness_alphas).getD 0 0) &&& 255 =
        c9_witness_alphas.foldl max 0 ∧
      (((bc3_alpha_words c9_witness_alphas).getD 0 0) >>> 8) &&& 255 =
        c9_witness_alphas.foldl min 255 ∧
      c9_witness_alphas.foldl min 255 ≤ c9_witness_alphas.foldl max 0 ∧
      (∀ k, k < 16 → bc3SelectorOf (bc3_alpha_words c9_witness_alphas) k < 8) ∧
      (c9_witness_alphas.foldl min 255 < c9_witness_alphas.foldl max 0 →
        ∀ k, k < 16 →
          (c9_witness_alphas.getD k 0 = c9_witness_alphas.foldl max 0 →
            bc3SelectorOf (bc3_alpha_words c9_witness_alphas) k = 0) ∧
          (c9_witness_alphas.getD k 0 = c9_witness_alphas.foldl min 255 →
            bc3SelectorOf (bc3_alpha_words c9_witness_alphas) k = 1)) ∧
      (c9_witness_alphas.foldl min 255 = c9_witness_alphas.foldl max 0 →
        ∀ k, k < 16 →
          bc3SelectorOf (bc3_alpha_words c9_witness_alphas) k = 1)) :=
  ⟨by decide, c9_bc3_alpha_block_layout c9_witness_alphas (by decide) (by decide)⟩

end BlockCompression

